import Mathlib

/-!
# WizuAll compiler back end: AST, symbol table and C code generator

A shallow embedding of `src/include/ast.h`, of the vector-literal constructors
of `src/src/ast.c`, and of `src/src/symtab.c` and `src/src/codegen.c`.

Modelling conventions.

* A C `Node*` is a value of `Node`: `Node.null` is the NULL pointer and
  `Node.mk next lineno data` is a pointer to a node. The `type` tag and the
  `data` union of `struct Node` are folded into the constructors of `NodeData`.
* The linked list of `Symbol`s hanging off `SymTab.head` is a `List Symbol`,
  head first. The global pointer `globalSymTab` is an `Option SymTab`
  (`none` is NULL).
* `FILE* outfile` and `stderr` are the texts written to them so far; `fprintf`
  appends. The debug messages the code prints on `stdout` are not modelled.
* A `double` is modelled by the rational number it denotes (NaN, infinities
  and the negative zero are outside the model); C `int`s are `Int`s, and the
  conversion `(int)d` is bounded to the 32-bit range (`castInt`).
* `exit(EXIT_FAILURE)` is the result `none`. Allocation failures are not
  modelled.
* `codegen.c` uses an identifier `indentStr` that it does not declare; the
  generator takes its text as the parameter `indentStr`. One `fprintf` of the
  boilerplate has a `%s` without an argument; what it prints is the parameter
  `undef`.
-/

namespace WizuAll

/-! ## `ast.h` -/

/-- The `NodeType` enumeration of `ast.h`. -/
inductive NodeType where
  | NODE_NUM
  | NODE_BINOP
  | NODE_UNARYOP
  | NODE_ID
  | NODE_VEC
  | NODE_ASSIGN
  | NODE_IF
  | NODE_WHILE
  | NODE_FUNC_CALL
deriving DecidableEq, Repr

/-- The integer value of a `NodeType` enumerator, as `%d` prints it. -/
def NodeType.toInt : NodeType → Int
  | .NODE_NUM => 0
  | .NODE_BINOP => 1
  | .NODE_UNARYOP => 2
  | .NODE_ID => 3
  | .NODE_VEC => 4
  | .NODE_ASSIGN => 5
  | .NODE_IF => 6
  | .NODE_WHILE => 7
  | .NODE_FUNC_CALL => 8

/-- The `OpType` enumeration of `ast.h`. -/
inductive OpType where
  | OP_PLUS
  | OP_STAR
  | OP_MINUS
  | OP_DIV
  | OP_UMINUS
deriving DecidableEq, Repr

mutual
/-- A `Node*`: NULL, or a pointer to a `struct Node` with its `next` link, its
`lineno` and its tagged `data`. -/
inductive Node where
  | null : Node
  | mk (next : Node) (lineno : Int) (data : NodeData) : Node
/-- The `type` tag of a `struct Node` together with the member of the `data`
union that the tag selects. A vector literal's `elements` array with its
`count` is the list of its elements. -/
inductive NodeData where
  | num (dval : ℚ)
  | binOp (op : OpType) (left right : Node)
  | unaryOp (op : OpType) (operand : Node)
  | id (sval : String)
  | vec (elements : List Node)
  | assignOp (name : String) (value : Node)
  | ifStmt (condition then_branch else_branch : Node)
  | whileStmt (condition body : Node)
  | funcCall (name : String) (args : Node)
end

/-- The `type` field of a node. -/
def NodeData.type : NodeData → NodeType
  | .num _ => .NODE_NUM
  | .binOp _ _ _ => .NODE_BINOP
  | .unaryOp _ _ => .NODE_UNARYOP
  | .id _ => .NODE_ID
  | .vec _ => .NODE_VEC
  | .assignOp _ _ => .NODE_ASSIGN
  | .ifStmt _ _ _ => .NODE_IF
  | .whileStmt _ _ => .NODE_WHILE
  | .funcCall _ _ => .NODE_FUNC_CALL

/-! ## `ast.c` -/

/-- `appendToVec` (ast.c:72-86). The result is the node the returned pointer
points to, which is the node `vecNode` points to after the call, and the text
of `stderr` after the call. The `elements` array with its `count` is the list
of the elements: `count++` and the `realloc` to `count` slots add a slot at the
end of the list (it holds no defined value until the store; here NULL), and
`elements[count - 1] = element` stores into the slot `count - 1`. -/
def appendToVec (vecNode element : Node) (errfile : String) : Node × String :=
  match vecNode, element with
  | .mk next lineno (.vec elements), .mk enext elineno edata =>
    let count : Nat := elements.length + 1
    let grown : List Node := elements ++ [Node.null]
    (.mk next lineno (.vec (grown.set (count - 1) (.mk enext elineno edata))), errfile)
  | _, _ => (vecNode, errfile ++ "Internal error: Invalid appendToVec call\n")

/-- `newNodeVec` (ast.c:61-69) with the node that `createNode` (ast.c:16-28)
hands it: the `next` link is NULL and there are no elements. -/
def newNodeVec (lineno : Int) (firstElement : Node) (errfile : String) : Node × String :=
  let node : Node := .mk .null lineno (.vec [])
  match firstElement with
  | .null => (node, errfile)
  | .mk enext elineno edata => appendToVec node (.mk enext elineno edata) errfile

/-! ## `symtab.h`, `symtab.c` -/

/-- The `DataType` enumeration of `symtab.h`. -/
inductive DataType where
  | TYPE_UNDEFINED
  | TYPE_SCALAR
  | TYPE_VECTOR
deriving DecidableEq, Repr

/-- A `struct Symbol` without its `next` link. -/
structure Symbol where
  name : String
  type : DataType
  declared_lineno : Int
deriving DecidableEq, Repr

/-- The `SymTab` structure: the linked list starting at `head`, and `count`. -/
structure SymTab where
  head : List Symbol
  count : Int
deriving DecidableEq, Repr

/-- `symtab_init` (symtab.c:9-23): a table that is already initialized is left
alone, otherwise an empty table is allocated. -/
def symtab_init (globalSymTab : Option SymTab) : Option SymTab :=
  match globalSymTab with
  | some t => some t
  | none => some { head := [], count := 0 }

/-- The `while` loop of `symtab_lookup` (symtab.c:28-35) over the list that
starts at `current`. -/
def lookupFrom (name : String) : List Symbol → Option Symbol
  | [] => none
  | current :: rest => if current.name = name then some current else lookupFrom name rest

/-- `symtab_lookup` (symtab.c:25-36). -/
def symtab_lookup (globalSymTab : Option SymTab) (name : String) : Option Symbol :=
  match globalSymTab with
  | none => none
  | some t => lookupFrom name t.head

/-- The assignment `p->type = type` through the pointer `p` that
`symtab_lookup(name)` returns: the first entry called `name` gets the type. -/
def setTypeFrom (name : String) (type : DataType) : List Symbol → List Symbol
  | [] => []
  | current :: rest =>
    if current.name = name then { current with type := type } :: rest
    else current :: setTypeFrom name type rest

/-- The table after `symtab_lookup(name)->type = type`. -/
def SymTab.setType (t : SymTab) (name : String) (type : DataType) : SymTab :=
  { t with head := setTypeFrom name type t.head }

/-- `symtab_insert` (symtab.c:38-79). The result is the symbol the returned
pointer points to and the table afterwards; `none` is `exit(EXIT_FAILURE)`. -/
def symtab_insert (globalSymTab : Option SymTab) (name : String) (type : DataType)
    (lineno : Int) : Option (Symbol × SymTab) :=
  match globalSymTab with
  | none => none
  | some t =>
    match symtab_lookup (some t) name with
    | some existing =>
      if existing.type = DataType.TYPE_UNDEFINED ∧ type ≠ DataType.TYPE_UNDEFINED then
        some ({ existing with type := type }, t.setType name type)
      else
        some (existing, t)
    | none =>
      let newSymbol : Symbol := { name := name, type := type, declared_lineno := lineno }
      some (newSymbol, { head := newSymbol :: t.head, count := t.count + 1 })

/-! ## `printf` conversions -/

/-- The text of `%d` for an `int`. -/
def fmtD (i : Int) : String :=
  if i < 0 then "-" ++ Nat.repr i.natAbs else Nat.repr i.natAbs

/-- The conversion `(int)d` of a `double` to a 32-bit `int`: truncation towards
zero when the truncated value is in the range of `int`. Outside that range the
conversion is undefined in C; the model gives what the conversion instruction
of x86-64 gives there, `INT_MIN`. -/
def castInt (d : ℚ) : Int :=
  let t : Int := Int.tdiv d.num d.den
  if -2147483648 ≤ t ∧ t ≤ 2147483647 then t else -2147483648

/-- A decimal numeral padded with zeros on the left to six digits. -/
def pad6 (s : String) : String := String.mk (List.replicate (6 - s.length) '0') ++ s

/-- The text of `%f` for a `double`: sign, integer part, a point and six
decimals, the value rounded to the nearest multiple of `10^-6`, ties to even. -/
def fmtF (d : ℚ) : String :=
  let n := d.num.natAbs * 1000000
  let q := n / d.den
  let r := n % d.den
  let m := if 2 * r > d.den ∨ (2 * r = d.den ∧ q % 2 = 1) then q + 1 else q
  (if d.num < 0 then "-" else "") ++ Nat.repr (m / 1000000) ++ "." ++ pad6 (Nat.repr (m % 1000000))

/-! ## `codegen.c` -/

/-- What the generator reads and writes: the global symbol table, the text
written to `outfile` and the text written to `stderr`. -/
structure GenState where
  globalSymTab : Option SymTab
  outfile : String
  errfile : String
deriving DecidableEq, Repr

/-- The call `fprintf(outfile, ...)` printing the text `s`. -/
def GenState.out (st : GenState) (s : String) : GenState :=
  { st with outfile := st.outfile ++ s }

/-- The call `fprintf(stderr, ...)` printing the text `s`. -/
def GenState.err (st : GenState) (s : String) : GenState :=
  { st with errfile := st.errfile ++ s }

/-- The loop `for (i = 0; i < indentLevel; ++i) fprintf(outfile, "    ");`. -/
def emitIndent : Nat → GenState → GenState
  | 0, st => st
  | k + 1, st => emitIndent k (st.out "    ")

/-- The loop `for (i = 0; i < indentLevel; ++i) fprintf(stderr, "    ");`. -/
def emitIndentErr : Nat → GenState → GenState
  | 0, st => st
  | k + 1, st => emitIndentErr k (st.err "    ")

/-- The `switch (node->data.binOp.op)` of `generateExpressionCode`
(codegen.c:206-212). -/
def emitBinOp (op : OpType) (st : GenState) : GenState :=
  match op with
  | .OP_PLUS => st.out " + "
  | .OP_MINUS => st.out " - "
  | .OP_STAR => st.out " * "
  | .OP_DIV => st.out " / "
  | .OP_UMINUS => st.err "Codegen Error: Unknown binary operator\n"

/-- The `switch (node->data.unaryOp.op)` of `generateExpressionCode`
(codegen.c:218-221). -/
def emitUnaryOp (op : OpType) (st : GenState) : GenState :=
  match op with
  | .OP_UMINUS => st.out "-"
  | _ => st.err "Codegen Error: Unknown unary operator\n"

mutual
/-- `generateExpressionCode` (codegen.c:185-253). -/
def generateExpressionCode : Node → GenState → GenState
  | .null, st => st
  | .mk _ lineno data, st => exprNode lineno data st
/-- The `switch (node->type)` of `generateExpressionCode` for a node that is
not NULL, given by its line and its tagged data. -/
def exprNode : Int → NodeData → GenState → GenState
  | _, .num dval, st => st.out (fmtF dval)
  | lineno, .id sval, st =>
    match symtab_lookup st.globalSymTab sval with
    | none =>
      (st.err ("Codegen Error line " ++ fmtD lineno ++ ": Use of undeclared identifier '"
        ++ sval ++ "'\n")).out ("/* Error: Undeclared ID " ++ sval ++ " */")
    | some _ => st.out sval
  | _, .binOp op left right, st =>
    let st1 := generateExpressionCode left (st.out "(")
    let st2 := emitBinOp op st1
    (generateExpressionCode right st2).out ")"
  | _, .unaryOp op operand, st =>
    let st1 := st.out "("
    let st2 := emitUnaryOp op st1
    (generateExpressionCode operand st2).out ")"
  | _, .vec _, st => st.out "/* Vector Literal Not Yet Implemented */"
  | _, .funcCall name args, st =>
    if name = "load_vector" then
      st.out "/* load_vector used in expression - requires return value handling */"
    else
      (exprArgs args true (st.out (name ++ "("))).out ")"
  | lineno, .assignOp name value, st =>
    st.err ("Codegen Error: Unsupported expression node type "
      ++ fmtD (NodeData.assignOp name value).type.toInt ++ " on line " ++ fmtD lineno ++ "\n")
  | lineno, .ifStmt c t e, st =>
    st.err ("Codegen Error: Unsupported expression node type "
      ++ fmtD (NodeData.ifStmt c t e).type.toInt ++ " on line " ++ fmtD lineno ++ "\n")
  | lineno, .whileStmt c b, st =>
    st.err ("Codegen Error: Unsupported expression node type "
      ++ fmtD (NodeData.whileStmt c b).type.toInt ++ " on line " ++ fmtD lineno ++ "\n")
/-- The argument loop `while (arg) ...` of a generic call (codegen.c:238-243,
and the same loop at 167-172), started at `arg` with the flag `first_arg`. -/
def exprArgs : Node → Bool → GenState → GenState
  | .null, _, st => st
  | .mk next lineno data, first_arg, st =>
    exprArgs next false (exprNode lineno data (if first_arg then st else st.out ", "))
end

/-- Whether a `Node*` is NULL. -/
def Node.isNull : Node → Bool
  | .null => true
  | .mk _ _ _ => false

/-- The normal assignment of `generateStatementCode` (codegen.c:61-65). -/
def assignPlain (name : String) (value : Node) (st : GenState) : GenState :=
  (generateExpressionCode value (st.out (name ++ " = "))).out ";\n"

/-- The `load_vector` assignment of `generateStatementCode` (codegen.c:31-59),
for the assignment on line `lineno` of the call's argument list `args` to
`name`. `indentStr` is the identifier of that name the function uses, which
`codegen.c` does not declare. -/
def assignLoadVector (indentStr : String) (lineno : Int) (name : String) (args : Node)
    (st : GenState) : GenState :=
  match args with
  | .mk (.mk .null _ (.num dval)) _ (.id filename_str) =>
    let st1 : GenState :=
      match symtab_lookup st.globalSymTab name with
      | some _ =>
        { st with
          globalSymTab := Option.map (fun t => t.setType name DataType.TYPE_VECTOR) st.globalSymTab }
      | none => st
    let column_idx : Int := castInt dval
    let st2 := st1.out ("size_t " ++ name ++ "_rows = count_file_rows(\"" ++ filename_str
      ++ "\");\n")
    let st3 := st2.out (indentStr ++ name ++ " = create_vector(" ++ name ++ "_rows);\n")
    let st4 := st3.out (indentStr ++ "if (" ++ name ++ "_rows > 0) \x7b\n")
    let st5 := st4.out (indentStr ++ "    read_double_column(\"" ++ filename_str ++ "\", "
      ++ fmtD column_idx ++ ", " ++ name ++ ".data, " ++ name ++ ".size);\n")
    st5.out (indentStr ++ "\x7d\n")
  | _ =>
    st.out ("/* Codegen Error: Invalid arguments for load_vector assignment on line "
      ++ fmtD lineno ++ " */\n")

/-- The `NODE_ASSIGN` case of `generateStatementCode` (codegen.c:19-66). -/
def stmtAssign (indentStr : String) (lineno : Int) (name : String) (value : Node)
    (st : GenState) : GenState :=
  match symtab_lookup st.globalSymTab name with
  | none =>
    st.err ("Codegen Error line " ++ fmtD lineno ++ ": Assignment to undeclared identifier '"
      ++ name ++ "' (Internal Error?)\n")
  | some _ =>
    match value with
    | .mk _ _ (.funcCall fname args) =>
      if fname = "load_vector" then assignLoadVector indentStr lineno name args st
      else assignPlain name value st
    | _ => assignPlain name value st

/-- The `NODE_FUNC_CALL` case of `generateStatementCode` (codegen.c:107-175). -/
def stmtFuncCall (indentStr : String) (name : String) (args : Node) (st : GenState) :
    GenState :=
  if name = "print_vector" then
    match args with
    | .mk .null _ (.id sval) =>
      st.out ("print_vector_runtime(" ++ sval ++ ", \"" ++ sval ++ "\");\n")
    | _ => st.out "/* Codegen Error: Invalid arguments for print_vector */\n"
  else if name = "average" then
    match args with
    | .mk .null _ (.id sval) =>
      st.out ("printf(\"Average of " ++ sval ++ ": " ++ "%f" ++ "\\n\", average_runtime("
        ++ sval ++ "));\n")
    | _ => st.out "/* Codegen Error: Invalid arguments for average */\n"
  else if name = "max_val" then
    match args with
    | .mk .null _ (.id sval) =>
      st.out ("printf(\"Max value of " ++ sval ++ ": " ++ "%f" ++ "\\n\", max_val_runtime("
        ++ sval ++ "));\n")
    | _ => st.out "/* Codegen Error: Invalid arguments for max_val */\n"
  else if name = "plot_xy" then
    match args with
    | .mk (.mk .null _ (.id ysval)) _ (.id xsval) =>
      let st1 := st.out ("if (write_xy_to_file(" ++ xsval ++ ", " ++ ysval
        ++ ", \"gnuplot_data.tmp\")) \x7b\n")
      let st2 := st1.out (indentStr ++ "    FILE *gnuplotPipe = open_gnuplot();\n")
      let st3 := st2.out (indentStr ++ "    if (gnuplotPipe) \x7b\n")
      let st4 := st3.out (indentStr
        ++ "        fprintf(gnuplotPipe, \"plot 'gnuplot_data.tmp' using 1:2 with linespoints title '"
        ++ ysval ++ " vs " ++ xsval ++ "'\\n\");\n")
      let st5 := st4.out (indentStr ++ "        pclose(gnuplotPipe);\n" ++ indentStr ++ "\x7d\n"
        ++ indentStr ++ "\x7d\n")
      st5.out (indentStr ++ "remove(\"gnuplot_data.tmp\");\n")
    | _ =>
      st.out "/* Codegen Error: Invalid arguments for plot_xy (expecting two vector IDs) */\n"
  else if name = "save_plot" then
    match args with
    | .mk .null _ (.id sval) =>
      st.out ("/* TODO: Set global flags for save_plot(\"" ++ sval ++ "\") */\n")
    | _ =>
      st.out "/* Codegen Error: Invalid argument for save_plot (expecting filename ID/string) */\n"
  else if name = "histogram" then
    st.out "/* Histogram generation not fully implemented yet. */\n"
  else if name ≠ "load_vector" then
    (exprArgs args true (st.out (name ++ "("))).out ");\n"
  else st

mutual
/-- `generateStatementCode` (codegen.c:10-182). `indentLevel` is a natural
number: the function is static and only ever called with `1` or with
`indentLevel + 1`. -/
def generateStatementCode (indentStr : String) : Node → Nat → GenState → GenState
  | .null, _, st => st
  | .mk _ lineno data, indentLevel, st =>
    stmtNode indentStr lineno data indentLevel (emitIndent indentLevel st)
/-- The `switch (node->type)` of `generateStatementCode` for a node that is
not NULL, entered after the indentation has been printed. -/
def stmtNode (indentStr : String) : Int → NodeData → Nat → GenState → GenState
  | lineno, .assignOp name value, _, st => stmtAssign indentStr lineno name value st
  | lineno, .num dval, _, st => (exprNode lineno (.num dval) st).out ";\n"
  | lineno, .id sval, _, st => (exprNode lineno (.id sval) st).out ";\n"
  | lineno, .binOp op left right, _, st => (exprNode lineno (.binOp op left right) st).out ";\n"
  | lineno, .unaryOp op operand, _, st => (exprNode lineno (.unaryOp op operand) st).out ";\n"
  | lineno, .vec elements, _, st => (exprNode lineno (.vec elements) st).out ";\n"
  | _, .ifStmt condition then_branch else_branch, indentLevel, st =>
    let st1 := (generateExpressionCode condition (st.out "if (")).out ") \x7b\n"
    let st2 := stmtList indentStr then_branch (indentLevel + 1) st1
    let st3 := (emitIndent indentLevel st2).out "\x7d"
    if else_branch.isNull then st3.out "\n"
    else
      let st4 := stmtList indentStr else_branch (indentLevel + 1) (st3.out " else \x7b\n")
      (emitIndent indentLevel st4).out "\x7d\n"
  | _, .whileStmt condition body, indentLevel, st =>
    let st1 := (generateExpressionCode condition (st.out "while (")).out ") \x7b\n"
    let st2 := stmtList indentStr body (indentLevel + 1) st1
    (emitIndent indentLevel st2).out "\x7d\n"
  | _, .funcCall name args, _, st => stmtFuncCall indentStr name args st
/-- The statement loop `while (s) { generateStatementCode(s, outfile, level);
s = s->next; }` (codegen.c:76-79, 85-88, 100-103, 394-397), started at `s`. -/
def stmtList (indentStr : String) : Node → Nat → GenState → GenState
  | .null, _, st => st
  | .mk next lineno data, indentLevel, st =>
    stmtList indentStr next indentLevel
      (stmtNode indentStr lineno data indentLevel (emitIndent indentLevel st))
end

/-- The texts of the `fprintf` calls of the boilerplate start of `generateCode`
(codegen.c:327-373), one per call. The format of the call on line 344 holds a
`%s` for which no argument is passed; `undef` stands for what gets printed
there. -/
def prologueLines (undef : String) : List String :=
  [ "#include <stdio.h>\n",
    "#include <stdlib.h> // For malloc, free, exit, atof\n",
    "#include <string.h> // For strtok_r, strcmp\n",
    "#include <math.h> \n\n",
    "// --- WizuAll Data Structures ---\n",
    "typedef struct \x7b\n",
    "    double* data;\n",
    "    size_t size;\n",
    "\x7d Vector;\n\n",
    "// --- WizuAll Runtime Helpers ---\n",
    "static size_t count_file_rows(const char* filename) \x7b\n",
    "    FILE* f = fopen(filename, \"r\");\n",
    "    if (!f) \x7b fprintf(stderr, \"Error opening file: " ++ undef
      ++ "\\n\", filename); return 0; \x7d\n",
    "    size_t count = 0; int ch;\n",
    "    while (EOF != (ch = fgetc(f))) \x7b if (ch == '\\n') count++; \x7d\n",
    "    fclose(f); return count; \n\x7d\n\n",
    "static int read_double_column(const char* filename, int column, double* data, size_t max_rows) \x7b\n",
    "    FILE* f = fopen(filename, \"r\");\n",
    "    if (!f) return 0;\n",
    "    char line[2048]; size_t row = 0;\n",
    "    while (row < max_rows && fgets(line, sizeof(line), f)) \x7b\n",
    "        char* token; char* rest = line; int current_col = 0; int found = 0;\n",
    "        while ((token = strtok_r(rest, \" \\t,\\n\", &rest))) \x7b\n",
    "            if (current_col == column) \x7b data[row] = atof(token); found = 1; break; \x7d\n",
    "            current_col++;\n        \x7d\n",
    "        row++;\n    \x7d\n",
    "    fclose(f); return 1;\n\x7d\n\n",
    "static Vector create_vector(size_t size) \x7b\n",
    "    Vector v; v.size = size; v.data = (double*)malloc(size * sizeof(double));\n",
    "    if (!v.data && size > 0) \x7b fprintf(stderr, \"Vector allocation failed\\n\"); exit(1); \x7d\n",
    "    for(size_t i=0; i<size; ++i) v.data[i] = 0.0; /* Initialize */ \n",
    "    return v;\n\x7d\n\n",
    "static void free_vector(Vector v) \x7b\n",
    "    free(v.data);\n\x7d\n\n",
    "// --- Main Program ---\n",
    "int main() \x7b\n" ]

/-- The declaration `generateCode` prints for one symbol (codegen.c:381-386). -/
def declLine (current : Symbol) : String :=
  if current.type = DataType.TYPE_VECTOR then
    "    Vector " ++ current.name ++ "; " ++ current.name ++ ".data=NULL; " ++ current.name
      ++ ".size=0; /* Initialized empty */\n"
  else
    "    double " ++ current.name ++ " = 0.0; \n"

/-- The declaration loop of `generateCode` (codegen.c:378-388), started at
`current`. -/
def declLoop : List Symbol → GenState → GenState
  | [], st => st
  | current :: rest, st => declLoop rest (st.out (declLine current))

/-- The variable declarations of `generateCode` (codegen.c:376-390). -/
def emitDeclarations (st : GenState) : GenState :=
  let st1 := st.out "    // Variable Declarations\n"
  let st2 :=
    match st1.globalSymTab with
    | some t => declLoop t.head st1
    | none => st1
  st2.out "\n    // Code Body\n"

/-- `generateCode` (codegen.c:320-404) for an `outfile` that is not NULL. -/
def generateCode (indentStr undef : String) (astRoot : Node) (st : GenState) : GenState :=
  let st1 := (prologueLines undef).foldl GenState.out st
  let st2 := emitDeclarations st1
  let st3 := stmtList indentStr astRoot 1 st2
  (st3.out "\n    return 0;\n").out "\x7d\n"

/-! ## Auxiliary definitions: properties of generator steps, registry runs, example programs -/

/-- A string of `n` spaces. -/
def spaces (n : Nat) : String := String.mk (List.replicate n ' ')

/-- The step `f` leaves the symbol table alone and appends, to `outfile` and to
`stderr`, texts that depend on the symbol table only. -/
def ExprFrame (f : GenState → GenState) : Prop :=
  ∀ st : GenState, f st =
    { globalSymTab := st.globalSymTab,
      outfile := st.outfile ++ (f ⟨st.globalSymTab, "", ""⟩).outfile,
      errfile := st.errfile ++ (f ⟨st.globalSymTab, "", ""⟩).errfile }

/-- The entry `e'` is the entry `e` with its type kept or set to Vector. -/
def Symbol.UpgradedTo (e e' : Symbol) : Prop :=
  e'.name = e.name ∧ e'.declared_lineno = e.declared_lineno ∧
    (e'.type = e.type ∨ e'.type = DataType.TYPE_VECTOR)

/-- The table `g'` is the table `g` with the same count and, entry by entry in
list order, the same names and lines, each type kept or set to Vector. -/
def TabUpgraded : Option SymTab → Option SymTab → Prop
  | none, none => True
  | some t, some t' => t'.count = t.count ∧ List.Forall₂ Symbol.UpgradedTo t.head t'.head
  | _, _ => False

/-- The step `f` leaves the table as it is up to upgrades of types to Vector. -/
def KeepsTable (f : GenState → GenState) : Prop :=
  ∀ st : GenState, TabUpgraded st.globalSymTab (f st).globalSymTab

/-- The entries of the table a `globalSymTab` pointer points to; none when the
pointer is NULL. -/
def entries (g : Option SymTab) : List Symbol :=
  match g with
  | some t => t.head
  | none => []

/-- One operation on the registry during a compilation: `symtab_init`, a
`symtab_insert` that returns, or a `generateCode` pass over some program. -/
inductive RegStep : Option SymTab → Option SymTab → Prop
  | init (g : Option SymTab) : RegStep g (symtab_init g)
  | insert (g : Option SymTab) (name : String) (type : DataType) (lineno : Int) (s : Symbol)
      (t' : SymTab) (h : symtab_insert g name type lineno = some (s, t')) : RegStep g (some t')
  | generate (g : Option SymTab) (indentStr undef : String) (astRoot : Node)
      (out err : String) :
      RegStep g (generateCode indentStr undef astRoot ⟨g, out, err⟩).globalSymTab

/-- What a registry operation leaves of an entry: a Vector type stays, and a
Scalar type stays or becomes Vector. -/
def TypeKept (a b : DataType) : Prop :=
  (a = DataType.TYPE_VECTOR → b = DataType.TYPE_VECTOR) ∧
    (a = DataType.TYPE_SCALAR → b = DataType.TYPE_SCALAR ∨ b = DataType.TYPE_VECTOR)

/-- A sequence of `symtab_insert` calls, each given by its three arguments;
`none` when a call exits. -/
def insertAll (g : Option SymTab) : List (String × DataType × Int) → Option SymTab
  | [] => g
  | (name, type, lineno) :: rest =>
    match symtab_insert g name type lineno with
    | none => none
    | some (_, t') => insertAll (some t') rest

/-- The program `x = load_vector(d, 0)` on line 1. -/
def progLoadX : Node :=
  .mk .null 1 (.assignOp "x"
    (.mk .null 1 (.funcCall "load_vector" (.mk (.mk .null 1 (.num 0)) 1 (.id "d")))))

/-- The program `y = load_vector(data, 2)` on line 1. -/
def progLoadY : Node :=
  .mk .null 1 (.assignOp "y"
    (.mk .null 1 (.funcCall "load_vector" (.mk (.mk .null 1 (.num 2)) 1 (.id "data")))))

/-- The text `generateExpressionCode` writes to `outfile` for the node `n` when
the symbol table is `g`. -/
def exprText (g : Option SymTab) (n : Node) : String :=
  (generateExpressionCode n ⟨g, "", ""⟩).outfile

/-- The text `generateExpressionCode` writes to `stderr` for the node `n` when
the symbol table is `g`. -/
def exprDiag (g : Option SymTab) (n : Node) : String :=
  (generateExpressionCode n ⟨g, "", ""⟩).errfile

/-- The entry count of the table a `globalSymTab` pointer points to; zero when
the pointer is NULL. -/
def countOf (g : Option SymTab) : Int :=
  match g with
  | some t => t.count
  | none => 0

mutual
/-- The number of operation nodes of an expression tree: the binary and unary
operation nodes, counted down through the operands. -/
def opCount : Node → Nat
  | .null => 0
  | .mk _ _ data => opCountData data
/-- The operation nodes of the tree below a node given by its data. -/
def opCountData : NodeData → Nat
  | .binOp _ left right => 1 + opCount left + opCount right
  | .unaryOp _ operand => 1 + opCount operand
  | _ => 0
end

mutual
/-- The number of occurrences of the character `c` in the texts emitted for the
leaves of an expression tree, the nodes under its operation nodes that are not
operation nodes themselves. -/
def leafCount (c : Char) (g : Option SymTab) : Node → Nat
  | .null => 0
  | .mk _ lineno data => leafCountData c g lineno data
/-- The occurrences of `c` in the leaf texts of the tree below a node given by
its line and data. -/
def leafCountData (c : Char) (g : Option SymTab) : Int → NodeData → Nat
  | _, .binOp _ left right => leafCount c g left + leafCount c g right
  | _, .unaryOp _ operand => leafCount c g operand
  | lineno, data => (exprNode lineno data ⟨g, "", ""⟩).outfile.data.count c
end

/-- The argument-list test of the `load_vector` assignment (codegen.c:36-37):
an identifier followed by a number literal and nothing more. -/
def validLoadArgs : Node → Bool
  | .mk (.mk .null _ (.num _)) _ (.id _) => true
  | _ => false

mutual
/-- The targets of the assignments `name = load_vector(args)` in a chain of
statements, at any nesting depth, whose argument list passes the test `p`. -/
def loadTargets (p : Node → Bool) : Node → List String
  | .null => []
  | .mk next _ data => loadTargetsData p data ++ loadTargets p next
/-- The targets of the `load_vector` assignments in one statement given by its
data. -/
def loadTargetsData (p : Node → Bool) : NodeData → List String
  | .assignOp name value =>
    match value with
    | .mk _ _ (.funcCall fname args) =>
      if fname = "load_vector" ∧ p args = true then [name] else []
    | _ => []
  | .ifStmt _ then_branch else_branch => loadTargets p then_branch ++ loadTargets p else_branch
  | .whileStmt _ body => loadTargets p body
  | _ => []
end

/-- The step `f` leaves what `symtab_lookup` finds for `name` as it is. -/
def Untouched (name : String) (f : GenState → GenState) : Prop :=
  ∀ st : GenState, symtab_lookup (f st).globalSymTab name = symtab_lookup st.globalSymTab name

/-- The two tables hold the same names: `symtab_lookup` finds an entry for a
name in the one exactly when it finds one in the other. -/
def SameNames (g g' : Option SymTab) : Prop :=
  ∀ n : String, (symtab_lookup g n).isSome = (symtab_lookup g' n).isSome

/-- From two states whose tables hold the same names, the step `f` appends the
same text to `outfile` and the same text to `stderr`, and leaves tables that
hold the same names. -/
def Uniform (f : GenState → GenState) : Prop :=
  ∀ st st' : GenState, SameNames st.globalSymTab st'.globalSymTab →
    SameNames (f st).globalSymTab (f st').globalSymTab ∧
    ∃ o e : String, (f st).outfile = st.outfile ++ o ∧ (f st').outfile = st'.outfile ++ o ∧
      (f st).errfile = st.errfile ++ e ∧ (f st').errfile = st'.errfile ++ e

/-- The part of the `NODE_ASSIGN` case of `generateStatementCode` that runs when
the target is in the table (codegen.c:27-65). -/
def assignValue (indentStr : String) (lineno : Int) (name : String) (value : Node)
    (st : GenState) : GenState :=
  match value with
  | .mk _ _ (.funcCall fname args) =>
    if fname = "load_vector" then assignLoadVector indentStr lineno name args st
    else assignPlain name value st
  | _ => assignPlain name value st

/-- The statements of a chain, in the order of the `next` links. -/
def chainNodes : Node → List Node
  | .null => []
  | .mk next lineno data => .mk next lineno data :: chainNodes next

mutual
/-- The identifier nodes, each with its line and name, that
`generateExpressionCode` reaches in an expression: the node itself, the operands
of operations, and the arguments of calls other than `load_vector`. -/
def exprIds : Node → List (Int × String)
  | .null => []
  | .mk _ lineno data => exprIdsData lineno data
/-- The identifier nodes reached in the expression given by its line and data. -/
def exprIdsData : Int → NodeData → List (Int × String)
  | lineno, .id sval => [(lineno, sval)]
  | _, .binOp _ left right => exprIds left ++ exprIds right
  | _, .unaryOp _ operand => exprIds operand
  | _, .funcCall name args => if name = "load_vector" then [] else exprIdsArgs args
  | _, _ => []
/-- The identifier nodes reached in a chain of call arguments. -/
def exprIdsArgs : Node → List (Int × String)
  | .null => []
  | .mk next lineno data => exprIdsData lineno data ++ exprIdsArgs next
end

/-- The names `generateStatementCode` treats as built-ins at statement level. -/
def builtinNames : List String :=
  ["print_vector", "average", "max_val", "plot_xy", "save_plot", "histogram", "load_vector"]

mutual
/-- The identifier nodes that a chain of statements hands to
`generateExpressionCode` when the table is `g`: those of the values of
assignments to registered names, of expression statements, of the conditions of
if and while statements, of the statements in their blocks and of the arguments
of calls to names that are not built-ins. -/
def stmtIds (g : Option SymTab) : Node → List (Int × String)
  | .null => []
  | .mk next lineno data => stmtIdsData g lineno data ++ stmtIds g next
/-- The identifier nodes one statement, given by its line and data, hands to
`generateExpressionCode`. -/
def stmtIdsData (g : Option SymTab) : Int → NodeData → List (Int × String)
  | _, .assignOp name value => if (symtab_lookup g name).isSome then exprIds value else []
  | _, .ifStmt condition then_branch else_branch =>
    exprIds condition ++ (stmtIds g then_branch ++ stmtIds g else_branch)
  | _, .whileStmt condition body => exprIds condition ++ stmtIds g body
  | _, .funcCall name args => if name ∈ builtinNames then [] else exprIdsArgs args
  | lineno, .num dval => exprIdsData lineno (.num dval)
  | lineno, .id sval => exprIdsData lineno (.id sval)
  | lineno, .binOp op left right => exprIdsData lineno (.binOp op left right)
  | lineno, .unaryOp op operand => exprIdsData lineno (.unaryOp op operand)
  | lineno, .vec elements => exprIdsData lineno (.vec elements)
end

/-- The step `f` only appends to the two streams and leaves a table with the
same names. -/
def AppendOnly (f : GenState → GenState) : Prop :=
  ∀ st : GenState, SameNames st.globalSymTab (f st).globalSymTab ∧
    ∃ o e : String, (f st).outfile = st.outfile ++ o ∧ (f st).errfile = st.errfile ++ e

/-- From every state whose table holds the names of `g`, the step `f` appends
to `outfile` a text in which `m` occurs and to `stderr` a text in which `d`
occurs, and only appends. -/
def Marks (g : Option SymTab) (m d : String) (f : GenState → GenState) : Prop :=
  ∀ st : GenState, SameNames st.globalSymTab g →
    ∃ p q p' q' : String, (f st).outfile = st.outfile ++ (p ++ (m ++ q)) ∧
      (f st).errfile = st.errfile ++ (p' ++ (d ++ q'))

/-- The inline marker `generateExpressionCode` writes for an undeclared
identifier (codegen.c:196). -/
def undeclaredMarker (sval : String) : String := "/* Error: Undeclared ID " ++ sval ++ " */"

/-- The diagnostic `generateExpressionCode` writes to `stderr` for an undeclared
identifier (codegen.c:195). -/
def undeclaredDiag (lineno : Int) (sval : String) : String :=
  "Codegen Error line " ++ fmtD lineno ++ ": Use of undeclared identifier '" ++ sval ++ "'\n"

/-- An arithmetic expression tree without the line numbers and the `next`
links of its nodes: identifier leaves, binary operation nodes, unary-minus
nodes. -/
inductive Arith where
  | var (name : String)
  | bin (op : OpType) (left right : Arith)
  | neg (operand : Arith)
deriving DecidableEq, Repr

mutual
/-- The tree of an expression built from binary nodes with the operators `+`,
`-`, `*`, `/`, unary-minus nodes and identifier leaves; `none` for every other
expression. -/
def toArith : Node → Option Arith
  | .null => none
  | .mk _ _ data => toArithData data
/-- The tree of the expression given by the data of its root node. -/
def toArithData : NodeData → Option Arith
  | .id sval => some (.var sval)
  | .binOp op left right =>
    if op = OpType.OP_UMINUS then none
    else (toArith left).bind (fun a => (toArith right).map (fun b => Arith.bin op a b))
  | .unaryOp op operand =>
    if op = OpType.OP_UMINUS then (toArith operand).map Arith.neg else none
  | _ => none
end

/-- A letter, a digit or an underscore. -/
def isNameChar (c : Char) : Bool := c.isAlphanum || c == '_'

/-- The leaves of the tree are names that are in the table `g` and consist of
letters, digits and underscores only, and its binary operators are among `+`,
`-`, `*` and `/`. -/
def Arith.ok (g : Option SymTab) : Arith → Bool
  | .var name => (symtab_lookup g name).isSome && name.data.all isNameChar
  | .bin op left right => decide (op ≠ OpType.OP_UMINUS) && (left.ok g && right.ok g)
  | .neg operand => operand.ok g

/-- The characters of the text of a tree: a name as it is, a binary operation
as `(`, left operand, the operator text, right operand, `)`, and a unary minus
as `(-`, operand, `)`. -/
def Arith.render : Arith → List Char
  | .var name => name.data
  | .bin op left right =>
    '(' :: (left.render ++ ((emitBinOp op ⟨none, "", ""⟩).outfile.data ++ (right.render ++ [')'])))
  | .neg operand => '(' :: '-' :: (operand.render ++ [')'])

/-- A text that is empty or starts with a space or a closing parenthesis. -/
def Delim (s : List Char) : Prop :=
  ∀ (c : Char) (rest : List Char), s = c :: rest → c = ' ' ∨ c = ')'

/-- The `count` field of a vector-literal node, the number of its elements;
zero for every other node. -/
def vecCount : Node → Nat
  | .mk _ _ (.vec elements) => elements.length
  | _ => 0

/-- The calls `v = appendToVec(v, e)` for the elements `e` of a list, in the
order of the list, started from the node and the `stderr` text `v`. -/
def appendAll (v : Node × String) : List Node → Node × String
  | [] => v
  | e :: rest => appendAll (appendToVec v.1 e v.2) rest

/-- The entry `e'` is the entry `e` with its type kept or, when its name is
among `targets`, set to Vector. -/
def Symbol.UpgradedIn (targets : List String) (e e' : Symbol) : Prop :=
  e'.name = e.name ∧ e'.declared_lineno = e.declared_lineno ∧
    (e'.type = e.type ∨ (e.name ∈ targets ∧ e'.type = DataType.TYPE_VECTOR))

/-- The table `g'` is the table `g` with the same count and, entry by entry in
list order, the same names and lines, each type kept or, for a name among
`targets`, set to Vector. -/
def TabUpgradedIn (targets : List String) : Option SymTab → Option SymTab → Prop
  | none, none => True
  | some t, some t' =>
    t'.count = t.count ∧ List.Forall₂ (Symbol.UpgradedIn targets) t.head t'.head
  | _, _ => False

/-- The step `f` leaves the table as it is up to upgrades to Vector of the
types of names among `targets`. -/
def KeepsIn (targets : List String) (f : GenState → GenState) : Prop :=
  ∀ st : GenState, TabUpgradedIn targets st.globalSymTab (f st).globalSymTab

/-- The name the text of a statement can start with: the target of an
assignment, the identifier of an expression statement, the name of a call. -/
def headName : NodeData → Option String
  | .assignOp name _ => some name
  | .id sval => some sval
  | .funcCall name _ => some name
  | _ => none

/-- The name a statement's text can start with, if there is one, starts with a
letter, a digit or an underscore. -/
def HeadNamed (d : NodeData) : Prop :=
  ∀ n : String, headName d = some n →
    ∃ (c : Char) (rest : List Char), n.data = c :: rest ∧ isNameChar c = true

/-- The text does not start with a space. -/
def NoLeadingSpace (s : String) : Prop :=
  ∀ rest : List Char, s.data ≠ ' ' :: rest

/-- The integer a number is truncated to, towards zero: the largest integer not
above it when it is not negative, the smallest integer not below it when it
is. -/
def truncTowardsZero (c : ℚ) : Int := if 0 ≤ c then ⌊c⌋ else ⌈c⌉

/-- One registry operation of a compilation, given by its arguments:
`symtab_init()`, `symtab_insert(name, type, lineno)`, or a `generateCode` pass
over the program `astRoot` started with the texts `out` and `err` in the two
streams. -/
inductive RegOp where
  | init
  | insert (name : String) (type : DataType) (lineno : Int)
  | generate (indentStr undef : String) (astRoot : Node) (out err : String)

/-- The registry after one operation; `none` when the operation exits. -/
def runOp (g : Option SymTab) : RegOp → Option (Option SymTab)
  | .init => some (symtab_init g)
  | .insert name type lineno =>
    match symtab_insert g name type lineno with
    | none => none
    | some (_, t') => some (some t')
  | .generate indentStr undef astRoot out err =>
    some (generateCode indentStr undef astRoot ⟨g, out, err⟩).globalSymTab

/-- The registry after a sequence of operations; `none` when one of them
exits. -/
def runOps (g : Option SymTab) : List RegOp → Option (Option SymTab)
  | [] => some g
  | op :: rest =>
    match runOp g op with
    | none => none
    | some g1 => runOps g1 rest

/-- The names an operation can upgrade to Vector: for a `generateCode` pass the
targets of the assignments `name = load_vector(<identifier>, <number literal>)`
of its program, at any nesting depth; none for the other operations. -/
def RegOp.targets : RegOp → List String
  | .generate _ _ astRoot _ _ => loadTargets validLoadArgs astRoot
  | _ => []

/-- The text ends with a newline. -/
def EndsNewline (s : String) : Prop := s.data.getLast? = some '\n'

/-- Whether `generateStatementCode` writes anything after the indentation for a
statement when the table is `g`: it does for every statement apart from an
assignment to a name that is not in the table and a `load_vector` call used as
a statement. -/
def emitsLine (g : Option SymTab) : NodeData → Bool
  | .assignOp name _ => (symtab_lookup g name).isSome
  | .funcCall name _ => decide (name ≠ "load_vector")
  | _ => true

/-! ## Lemmas -/

theorem spaces_succ (n : Nat) : "    " ++ spaces (4 * n) = spaces (4 * (n + 1)) := by
  apply String.ext
  have h : 4 * (n + 1) = 4 + 4 * n := by omega
  rw [String.data_append, spaces, spaces, h, List.replicate_add]
  rfl

theorem emitIndent_eq (k : Nat) (st : GenState) :
    emitIndent k st = st.out (spaces (4 * k)) := by
  induction k generalizing st with
  | zero =>
    show st = { st with outfile := st.outfile ++ "" }
    rw [String.append_empty]
  | succ k ih =>
    simp only [emitIndent, ih, GenState.out]
    rw [String.append_assoc, spaces_succ]

theorem exprFrame_of_eq {f : GenState → GenState} (o e : Option SymTab → String)
    (h : ∀ st : GenState, f st =
      ⟨st.globalSymTab, st.outfile ++ o st.globalSymTab, st.errfile ++ e st.globalSymTab⟩) :
    ExprFrame f := by
  intro st
  rw [h st, h ⟨st.globalSymTab, "", ""⟩]
  simp [String.empty_append]

theorem exprFrame_ident : ExprFrame (fun st => st) :=
  exprFrame_of_eq (fun _ => "") (fun _ => "") (fun st => by simp [String.append_empty])

theorem exprFrame_out (s : String) : ExprFrame (fun st => st.out s) :=
  exprFrame_of_eq (fun _ => s) (fun _ => "") (fun st => by simp [GenState.out, String.append_empty])

theorem exprFrame_err (s : String) : ExprFrame (fun st => st.err s) :=
  exprFrame_of_eq (fun _ => "") (fun _ => s) (fun st => by simp [GenState.err, String.append_empty])

theorem exprFrame_comp {f g : GenState → GenState} (hf : ExprFrame f) (hg : ExprFrame g) :
    ExprFrame (fun st => g (f st)) :=
  exprFrame_of_eq
    (fun t => (f ⟨t, "", ""⟩).outfile ++ (g ⟨t, "", ""⟩).outfile)
    (fun t => (f ⟨t, "", ""⟩).errfile ++ (g ⟨t, "", ""⟩).errfile)
    (fun st => by
      rw [hf st, hg _]
      simp [String.append_assoc])

/-- A step chosen by looking at the symbol table only. -/
theorem exprFrame_branch {f : GenState → GenState} (sel : Option SymTab → GenState → GenState)
    (hsel : ∀ t, ExprFrame (sel t)) (h : ∀ st : GenState, f st = sel st.globalSymTab st) :
    ExprFrame f :=
  exprFrame_of_eq
    (fun t => (sel t ⟨t, "", ""⟩).outfile) (fun t => (sel t ⟨t, "", ""⟩).errfile)
    (fun st => by rw [h st]; exact hsel st.globalSymTab st)

mutual
theorem generateExpressionCode_frame : ∀ n : Node, ExprFrame (generateExpressionCode n)
  | .null => by
    have h : generateExpressionCode Node.null = fun st => st := by
      funext st; simp [generateExpressionCode]
    rw [h]; exact exprFrame_ident
  | .mk nx l d => by
    have h : generateExpressionCode (Node.mk nx l d) = exprNode l d := by
      funext st; simp [generateExpressionCode]
    rw [h]; exact exprNode_frame l d
theorem exprNode_frame : ∀ (l : Int) (d : NodeData), ExprFrame (exprNode l d)
  | l, .num dval => by
    have h : exprNode l (NodeData.num dval) = fun st => st.out (fmtF dval) := by
      funext st; simp [exprNode]
    rw [h]; exact exprFrame_out _
  | l, .id sval => by
    apply exprFrame_branch (fun t st =>
      match symtab_lookup t sval with
      | none =>
        (st.err ("Codegen Error line " ++ fmtD l ++ ": Use of undeclared identifier '"
          ++ sval ++ "'\n")).out ("/* Error: Undeclared ID " ++ sval ++ " */")
      | some _ => st.out sval)
    · intro t
      cases symtab_lookup t sval with
      | none => exact exprFrame_comp (exprFrame_err _) (exprFrame_out _)
      | some _ => exact exprFrame_out _
    · intro st; simp [exprNode]
  | l, .binOp op left right => by
    have hl := generateExpressionCode_frame left
    have hr := generateExpressionCode_frame right
    have h : exprNode l (NodeData.binOp op left right) = fun st =>
        (generateExpressionCode right
          (emitBinOp op (generateExpressionCode left (st.out "(")))).out ")" := by
      funext st; simp [exprNode]
    rw [h]
    have hop : ExprFrame (emitBinOp op) := by
      cases op
      · exact exprFrame_out _
      · exact exprFrame_out _
      · exact exprFrame_out _
      · exact exprFrame_out _
      · exact exprFrame_err _
    exact exprFrame_comp (exprFrame_comp (exprFrame_comp (exprFrame_comp (exprFrame_out _) hl) hop) hr)
      (exprFrame_out _)
  | l, .unaryOp op operand => by
    have ho := generateExpressionCode_frame operand
    have h : exprNode l (NodeData.unaryOp op operand) = fun st =>
        (generateExpressionCode operand (emitUnaryOp op (st.out "("))).out ")" := by
      funext st; simp [exprNode]
    rw [h]
    have hop : ExprFrame (emitUnaryOp op) := by
      cases op
      · exact exprFrame_err _
      · exact exprFrame_err _
      · exact exprFrame_err _
      · exact exprFrame_err _
      · exact exprFrame_out _
    exact exprFrame_comp (exprFrame_comp (exprFrame_comp (exprFrame_out _) hop) ho) (exprFrame_out _)
  | l, .vec elements => by
    have h : exprNode l (NodeData.vec elements) =
        fun st => st.out "/* Vector Literal Not Yet Implemented */" := by
      funext st; simp [exprNode]
    rw [h]; exact exprFrame_out _
  | l, .funcCall name args => by
    have ha := exprArgs_frame args true
    by_cases hn : name = "load_vector"
    · have h : exprNode l (NodeData.funcCall name args) = fun st =>
          st.out "/* load_vector used in expression - requires return value handling */" := by
        funext st; simp [exprNode, hn]
      rw [h]; exact exprFrame_out _
    · have h : exprNode l (NodeData.funcCall name args) = fun st =>
          (exprArgs args true (st.out (name ++ "("))).out ")" := by
        funext st; simp [exprNode, hn]
      rw [h]
      exact exprFrame_comp (exprFrame_comp (exprFrame_out _) ha) (exprFrame_out _)
  | l, .assignOp name value => by
    have h : exprNode l (NodeData.assignOp name value) = fun st =>
        st.err ("Codegen Error: Unsupported expression node type "
          ++ fmtD (NodeData.assignOp name value).type.toInt ++ " on line " ++ fmtD l ++ "\n") := by
      funext st; simp [exprNode]
    rw [h]; exact exprFrame_err _
  | l, .ifStmt c t e => by
    have h : exprNode l (NodeData.ifStmt c t e) = fun st =>
        st.err ("Codegen Error: Unsupported expression node type "
          ++ fmtD (NodeData.ifStmt c t e).type.toInt ++ " on line " ++ fmtD l ++ "\n") := by
      funext st; simp [exprNode]
    rw [h]; exact exprFrame_err _
  | l, .whileStmt c b => by
    have h : exprNode l (NodeData.whileStmt c b) = fun st =>
        st.err ("Codegen Error: Unsupported expression node type "
          ++ fmtD (NodeData.whileStmt c b).type.toInt ++ " on line " ++ fmtD l ++ "\n") := by
      funext st; simp [exprNode]
    rw [h]; exact exprFrame_err _
theorem exprArgs_frame : ∀ (n : Node) (first_arg : Bool), ExprFrame (exprArgs n first_arg)
  | .null, first_arg => by
    have h : exprArgs Node.null first_arg = fun st => st := by
      funext st; simp [exprArgs]
    rw [h]; exact exprFrame_ident
  | .mk nx l d, first_arg => by
    have hn := exprArgs_frame nx false
    have hd := exprNode_frame l d
    have h : exprArgs (Node.mk nx l d) first_arg = fun st =>
        exprArgs nx false (exprNode l d
          ((fun st0 : GenState => if first_arg then st0 else st0.out ", ") st)) := by
      funext st; simp [exprArgs]
    rw [h]
    have hsep : ExprFrame (fun st0 : GenState => if first_arg then st0 else st0.out ", ") := by
      cases first_arg
      · exact exprFrame_out _
      · exact exprFrame_ident
    exact exprFrame_comp (exprFrame_comp hsep hd) hn
end

/-! ### The symbol table -/

theorem lookupFrom_some_split (name : String) (l : List Symbol) (e : Symbol)
    (h : lookupFrom name l = some e) :
    ∃ before after, l = before ++ e :: after ∧ (∀ s ∈ before, s.name ≠ name) ∧ e.name = name := by
  induction l with
  | nil => simp [lookupFrom] at h
  | cons c rest ih =>
    by_cases hc : c.name = name
    · simp [lookupFrom, hc] at h
      subst h
      exact ⟨[], rest, rfl, by simp, hc⟩
    · simp [lookupFrom, hc] at h
      obtain ⟨before, after, hl, hb, he⟩ := ih h
      refine ⟨c :: before, after, by simp [hl], ?_, he⟩
      intro s hs
      rcases List.mem_cons.mp hs with rfl | hs
      · exact hc
      · exact hb s hs

theorem lookupFrom_split (name : String) (before after : List Symbol) (e : Symbol)
    (hb : ∀ s ∈ before, s.name ≠ name) (he : e.name = name) :
    lookupFrom name (before ++ e :: after) = some e := by
  induction before with
  | nil => simp [lookupFrom, he]
  | cons c rest ih =>
    have hc : c.name ≠ name := hb c (by simp)
    have ih2 := ih (fun s hs => hb s (by simp [hs]))
    show lookupFrom name (c :: (rest ++ e :: after)) = some e
    simp only [lookupFrom, hc, if_false, ih2]

theorem setTypeFrom_split (name : String) (type : DataType) (before after : List Symbol)
    (e : Symbol) (hb : ∀ s ∈ before, s.name ≠ name) (he : e.name = name) :
    setTypeFrom name type (before ++ e :: after) = before ++ { e with type := type } :: after := by
  induction before with
  | nil => simp [setTypeFrom, he]
  | cons c rest ih =>
    have hc : c.name ≠ name := hb c (by simp)
    have ih2 := ih (fun s hs => hb s (by simp [hs]))
    show setTypeFrom name type (c :: (rest ++ e :: after)) = c :: (rest ++ _ :: after)
    simp only [setTypeFrom, hc, if_false, ih2]

theorem lookupFrom_none_iff (name : String) (l : List Symbol) :
    lookupFrom name l = none ↔ ∀ s ∈ l, s.name ≠ name := by
  induction l with
  | nil => simp [lookupFrom]
  | cons c rest ih =>
    by_cases hc : c.name = name
    · simp [lookupFrom, hc]
    · simp [lookupFrom, hc, ih]

/-! ### What a code-generation pass does to the symbol table -/

theorem upgradedTo_refl (e : Symbol) : e.UpgradedTo e := ⟨rfl, rfl, Or.inl rfl⟩

theorem upgradedTo_trans {a b c : Symbol} (h1 : a.UpgradedTo b) (h2 : b.UpgradedTo c) :
    a.UpgradedTo c := by
  obtain ⟨n1, l1, t1⟩ := h1
  obtain ⟨n2, l2, t2⟩ := h2
  refine ⟨n2.trans n1, l2.trans l1, ?_⟩
  rcases t2 with t2 | t2
  · rcases t1 with t1 | t1
    · exact Or.inl (t2.trans t1)
    · exact Or.inr (t2.trans t1)
  · exact Or.inr t2

theorem forall₂_upgraded_refl (l : List Symbol) : List.Forall₂ Symbol.UpgradedTo l l := by
  induction l with
  | nil => exact List.Forall₂.nil
  | cons c rest ih => exact List.Forall₂.cons (upgradedTo_refl c) ih

theorem forall₂_upgraded_trans {l1 l2 l3 : List Symbol}
    (h1 : List.Forall₂ Symbol.UpgradedTo l1 l2) (h2 : List.Forall₂ Symbol.UpgradedTo l2 l3) :
    List.Forall₂ Symbol.UpgradedTo l1 l3 := by
  induction h1 generalizing l3 with
  | nil => cases h2; exact List.Forall₂.nil
  | cons hab _ ih =>
    cases h2 with
    | cons hbc hrest => exact List.Forall₂.cons (upgradedTo_trans hab hbc) (ih hrest)

theorem forall₂_upgraded_setType (name : String) (l : List Symbol) :
    List.Forall₂ Symbol.UpgradedTo l (setTypeFrom name DataType.TYPE_VECTOR l) := by
  induction l with
  | nil => exact List.Forall₂.nil
  | cons c rest ih =>
    by_cases hc : c.name = name
    · simp only [setTypeFrom, hc, if_true]
      exact List.Forall₂.cons ⟨hc.symm ▸ rfl, rfl, Or.inr rfl⟩ (forall₂_upgraded_refl rest)
    · simp only [setTypeFrom, hc, if_false]
      exact List.Forall₂.cons (upgradedTo_refl c) ih

theorem tabUpgraded_refl (g : Option SymTab) : TabUpgraded g g := by
  cases g with
  | none => trivial
  | some t => exact ⟨rfl, forall₂_upgraded_refl t.head⟩

theorem tabUpgraded_trans {g1 g2 g3 : Option SymTab} (h1 : TabUpgraded g1 g2)
    (h2 : TabUpgraded g2 g3) : TabUpgraded g1 g3 := by
  cases g1 <;> cases g2 <;> cases g3 <;> simp only [TabUpgraded] at h1 h2 ⊢
  exact ⟨h2.1.trans h1.1, forall₂_upgraded_trans h1.2 h2.2⟩

theorem tabUpgraded_setType (g : Option SymTab) (name : String) :
    TabUpgraded g (Option.map (fun t => t.setType name DataType.TYPE_VECTOR) g) := by
  cases g with
  | none => trivial
  | some t => exact ⟨rfl, forall₂_upgraded_setType name t.head⟩

theorem keepsTable_of_frame {f : GenState → GenState} (h : ExprFrame f) : KeepsTable f := by
  intro st
  rw [h st]
  exact tabUpgraded_refl _

theorem keepsTable_comp {f g : GenState → GenState} (hf : KeepsTable f) (hg : KeepsTable g) :
    KeepsTable (fun st => g (f st)) :=
  fun st => tabUpgraded_trans (hf st) (hg (f st))

theorem keepsTable_out (s : String) : KeepsTable (fun st => st.out s) :=
  keepsTable_of_frame (exprFrame_out s)

theorem keepsTable_err (s : String) : KeepsTable (fun st => st.err s) :=
  keepsTable_of_frame (exprFrame_err s)

theorem emitIndent_frame (k : Nat) : ExprFrame (emitIndent k) := by
  have h : emitIndent k = fun st => st.out (spaces (4 * k)) := by
    funext st; exact emitIndent_eq k st
  rw [h]; exact exprFrame_out _

theorem assignPlain_frame (name : String) (value : Node) : ExprFrame (assignPlain name value) := by
  show ExprFrame (fun st => (generateExpressionCode value (st.out (name ++ " = "))).out ";\n")
  exact exprFrame_comp (exprFrame_comp (exprFrame_out _) (generateExpressionCode_frame value))
    (exprFrame_out _)

theorem assignLoadVector_keeps (indentStr : String) (lineno : Int) (name : String)
    (args : Node) : KeepsTable (assignLoadVector indentStr lineno name args) := by
  intro st
  unfold assignLoadVector
  split
  · simp only [GenState.out]
    split
    · exact tabUpgraded_setType _ _
    · exact tabUpgraded_refl _
  · exact tabUpgraded_refl _

theorem stmtAssign_keeps (indentStr : String) (lineno : Int) (name : String) (value : Node) :
    KeepsTable (stmtAssign indentStr lineno name value) := by
  intro st
  unfold stmtAssign
  split
  · exact tabUpgraded_refl _
  · split
    · split
      · exact assignLoadVector_keeps _ _ _ _ st
      · exact keepsTable_of_frame (assignPlain_frame _ _) st
    · exact keepsTable_of_frame (assignPlain_frame _ _) st

theorem stmtFuncCall_frame (indentStr : String) (name : String) (args : Node) :
    ExprFrame (stmtFuncCall indentStr name args) := by
  unfold stmtFuncCall
  split
  · split
    · exact exprFrame_out _
    · exact exprFrame_out _
  split
  · split
    · exact exprFrame_out _
    · exact exprFrame_out _
  split
  · split
    · exact exprFrame_out _
    · exact exprFrame_out _
  split
  · split
    · exact exprFrame_comp (exprFrame_comp (exprFrame_comp (exprFrame_comp (exprFrame_comp
        (exprFrame_out _) (exprFrame_out _)) (exprFrame_out _)) (exprFrame_out _))
        (exprFrame_out _)) (exprFrame_out _)
    · exact exprFrame_out _
  split
  · split
    · exact exprFrame_out _
    · exact exprFrame_out _
  split
  · exact exprFrame_out _
  split
  · exact exprFrame_comp (exprFrame_comp (exprFrame_out _) (exprArgs_frame args true))
      (exprFrame_out _)
  · exact exprFrame_ident

mutual
theorem stmtNode_keeps (indentStr : String) :
    ∀ (l : Int) (d : NodeData) (k : Nat), KeepsTable (stmtNode indentStr l d k)
  | l, .assignOp name value, k => by
    have h : stmtNode indentStr l (NodeData.assignOp name value) k
        = stmtAssign indentStr l name value := by
      funext st; simp [stmtNode]
    rw [h]; exact stmtAssign_keeps _ _ _ _
  | l, .num dval, k => by
    have h : stmtNode indentStr l (NodeData.num dval) k
        = fun st => (exprNode l (.num dval) st).out ";\n" := by
      funext st; simp [stmtNode]
    rw [h]; exact keepsTable_of_frame (exprFrame_comp (exprNode_frame _ _) (exprFrame_out _))
  | l, .id sval, k => by
    have h : stmtNode indentStr l (NodeData.id sval) k
        = fun st => (exprNode l (.id sval) st).out ";\n" := by
      funext st; simp [stmtNode]
    rw [h]; exact keepsTable_of_frame (exprFrame_comp (exprNode_frame _ _) (exprFrame_out _))
  | l, .binOp op left right, k => by
    have h : stmtNode indentStr l (NodeData.binOp op left right) k
        = fun st => (exprNode l (.binOp op left right) st).out ";\n" := by
      funext st; simp [stmtNode]
    rw [h]; exact keepsTable_of_frame (exprFrame_comp (exprNode_frame _ _) (exprFrame_out _))
  | l, .unaryOp op operand, k => by
    have h : stmtNode indentStr l (NodeData.unaryOp op operand) k
        = fun st => (exprNode l (.unaryOp op operand) st).out ";\n" := by
      funext st; simp [stmtNode]
    rw [h]; exact keepsTable_of_frame (exprFrame_comp (exprNode_frame _ _) (exprFrame_out _))
  | l, .vec elements, k => by
    have h : stmtNode indentStr l (NodeData.vec elements) k
        = fun st => (exprNode l (.vec elements) st).out ";\n" := by
      funext st; simp [stmtNode]
    rw [h]; exact keepsTable_of_frame (exprFrame_comp (exprNode_frame _ _) (exprFrame_out _))
  | l, .ifStmt condition then_branch else_branch, k => by
    have ht := stmtList_keeps indentStr then_branch (k + 1)
    have he := stmtList_keeps indentStr else_branch (k + 1)
    have hc := keepsTable_of_frame (generateExpressionCode_frame condition)
    have hi := keepsTable_of_frame (emitIndent_frame k)
    have h3 := keepsTable_comp (keepsTable_comp (keepsTable_comp (keepsTable_comp
      (keepsTable_comp (keepsTable_out "if (") hc) (keepsTable_out ") \x7b\n")) ht) hi)
      (keepsTable_out "\x7d")
    cases hnull : else_branch.isNull with
    | true =>
      have h : stmtNode indentStr l (NodeData.ifStmt condition then_branch else_branch) k
          = fun st => ((emitIndent k (stmtList indentStr then_branch (k + 1)
              ((generateExpressionCode condition (st.out "if (")).out ") \x7b\n"))).out
                "\x7d").out "\n" := by
        funext st; simp [stmtNode, hnull]
      rw [h]
      have h4 := keepsTable_comp h3 (keepsTable_out "\n")
      exact h4
    | false =>
      have h : stmtNode indentStr l (NodeData.ifStmt condition then_branch else_branch) k
          = fun st => (emitIndent k (stmtList indentStr else_branch (k + 1)
              (((emitIndent k (stmtList indentStr then_branch (k + 1)
                ((generateExpressionCode condition (st.out "if (")).out ") \x7b\n"))).out
                  "\x7d").out " else \x7b\n"))).out "\x7d\n" := by
        funext st; simp [stmtNode, hnull]
      rw [h]
      have h4 := keepsTable_comp (keepsTable_comp (keepsTable_comp (keepsTable_comp h3
        (keepsTable_out " else \x7b\n")) he) hi) (keepsTable_out "\x7d\n")
      exact h4
  | l, .whileStmt condition body, k => by
    have hb := stmtList_keeps indentStr body (k + 1)
    have hc := keepsTable_of_frame (generateExpressionCode_frame condition)
    have hi := keepsTable_of_frame (emitIndent_frame k)
    have h : stmtNode indentStr l (NodeData.whileStmt condition body) k
        = fun st => (emitIndent k (stmtList indentStr body (k + 1)
            ((generateExpressionCode condition (st.out "while (")).out ") \x7b\n"))).out
              "\x7d\n" := by
      funext st; simp [stmtNode]
    rw [h]
    have h4 := keepsTable_comp (keepsTable_comp (keepsTable_comp (keepsTable_comp
      (keepsTable_comp (keepsTable_out "while (") hc) (keepsTable_out ") \x7b\n")) hb) hi)
      (keepsTable_out "\x7d\n")
    exact h4
  | l, .funcCall name args, k => by
    have h : stmtNode indentStr l (NodeData.funcCall name args) k
        = stmtFuncCall indentStr name args := by
      funext st; simp [stmtNode]
    rw [h]; exact keepsTable_of_frame (stmtFuncCall_frame _ _ _)
theorem stmtList_keeps (indentStr : String) :
    ∀ (n : Node) (k : Nat), KeepsTable (stmtList indentStr n k)
  | .null, k => by
    have h : stmtList indentStr Node.null k = fun st => st := by
      funext st; simp [stmtList]
    rw [h]; exact keepsTable_of_frame exprFrame_ident
  | .mk nx l d, k => by
    have hn := stmtList_keeps indentStr nx k
    have hd := stmtNode_keeps indentStr l d k
    have hi := keepsTable_of_frame (emitIndent_frame k)
    have h : stmtList indentStr (Node.mk nx l d) k = fun st =>
        stmtList indentStr nx k (stmtNode indentStr l d k (emitIndent k st)) := by
      funext st; simp [stmtList]
    rw [h]
    exact keepsTable_comp (keepsTable_comp hi hd) hn
end

theorem generateStatementCode_keeps (indentStr : String) (n : Node) (k : Nat) :
    KeepsTable (generateStatementCode indentStr n k) := by
  cases n with
  | null =>
    have h : generateStatementCode indentStr Node.null k = fun st => st := by
      funext st; simp [generateStatementCode]
    rw [h]; exact keepsTable_of_frame exprFrame_ident
  | mk nx l d =>
    have h : generateStatementCode indentStr (Node.mk nx l d) k = fun st =>
        stmtNode indentStr l d k (emitIndent k st) := by
      funext st; simp [generateStatementCode]
    rw [h]
    exact keepsTable_comp (keepsTable_of_frame (emitIndent_frame k)) (stmtNode_keeps _ _ _ _)

theorem strJoin_cons (s : String) (rest : List String) :
    String.join (s :: rest) = s ++ String.join rest := by
  apply String.ext
  simp [String.join_eq, String.data_append]

theorem strJoin_nil : String.join [] = "" := rfl

theorem foldl_out_eq (l : List String) (st : GenState) :
    l.foldl GenState.out st = st.out (String.join l) := by
  induction l generalizing st with
  | nil =>
    show st = { st with outfile := st.outfile ++ "" }
    rw [String.append_empty]
  | cons s rest ih =>
    rw [List.foldl_cons, ih]
    simp only [GenState.out]
    rw [strJoin_cons, String.append_assoc]

theorem declLoop_eq (l : List Symbol) (st : GenState) :
    declLoop l st = st.out (String.join (l.map declLine)) := by
  induction l generalizing st with
  | nil =>
    show st = { st with outfile := st.outfile ++ "" }
    rw [String.append_empty]
  | cons c rest ih =>
    simp only [declLoop, ih, List.map_cons, strJoin_cons, GenState.out, String.append_assoc]

theorem emitDeclarations_eq (st : GenState) :
    emitDeclarations st = st.out ("    // Variable Declarations\n"
      ++ String.join ((entries st.globalSymTab).map declLine) ++ "\n    // Code Body\n") := by
  obtain ⟨g, o, e⟩ := st
  cases g with
  | none =>
    simp only [emitDeclarations, GenState.out, entries, List.map_nil, strJoin_nil,
      String.append_empty, String.append_assoc]
  | some t =>
    simp only [emitDeclarations, GenState.out, entries, declLoop_eq, String.append_assoc]

/-- Everything `generateCode` does before the statement pass, in one step: the
statement loop starts on the unchanged table with the boilerplate and the
declaration block appended to `outfile`. -/
theorem generateCode_eq (indentStr undef : String) (astRoot : Node) (st : GenState) :
    generateCode indentStr undef astRoot st =
      ((stmtList indentStr astRoot 1
        { globalSymTab := st.globalSymTab,
          outfile := st.outfile ++ (String.join (prologueLines undef)
            ++ ("    // Variable Declarations\n"
              ++ String.join ((entries st.globalSymTab).map declLine)
              ++ "\n    // Code Body\n")),
          errfile := st.errfile }).out "\n    return 0;\n").out "\x7d\n" := by
  simp only [generateCode, foldl_out_eq, emitDeclarations_eq, GenState.out, String.append_assoc]

theorem generateCode_keeps (indentStr undef : String) (astRoot : Node) :
    KeepsTable (generateCode indentStr undef astRoot) := by
  intro st
  rw [generateCode_eq]
  exact stmtList_keeps indentStr astRoot 1
    { globalSymTab := st.globalSymTab,
      outfile := st.outfile ++ (String.join (prologueLines undef)
        ++ ("    // Variable Declarations\n"
          ++ String.join ((entries st.globalSymTab).map declLine)
          ++ "\n    // Code Body\n")),
      errfile := st.errfile }

theorem lookupFrom_upgraded {l l' : List Symbol} (h : List.Forall₂ Symbol.UpgradedTo l l')
    (name : String) :
    (lookupFrom name l = none ∧ lookupFrom name l' = none) ∨
      ∃ e e', lookupFrom name l = some e ∧ lookupFrom name l' = some e' ∧ e.UpgradedTo e' := by
  induction h with
  | nil => exact Or.inl ⟨rfl, rfl⟩
  | @cons a b l1 l2 hab _ ih =>
    have hn : b.name = a.name := hab.1
    by_cases hc : a.name = name
    · exact Or.inr ⟨a, b, by simp [lookupFrom, hc], by simp [lookupFrom, hn, hc], hab⟩
    · simpa [lookupFrom, hn, hc] using ih

theorem names_upgraded {l l' : List Symbol} (h : List.Forall₂ Symbol.UpgradedTo l l') :
    l'.map Symbol.name = l.map Symbol.name := by
  induction h with
  | nil => rfl
  | cons hab _ ih => simp [hab.1, ih]

theorem lookupFrom_setTypeFrom (name : String) (type : DataType) (l : List Symbol) (n : String) :
    lookupFrom n (setTypeFrom name type l) =
      if n = name then (lookupFrom n l).map (fun e => { e with type := type })
      else lookupFrom n l := by
  induction l with
  | nil => simp [lookupFrom, setTypeFrom]
  | cons c rest ih =>
    by_cases hc : c.name = name
    · by_cases hn : n = name
      · subst hn
        simp [setTypeFrom, lookupFrom, hc]
      · have hcn : ¬ c.name = n := fun h => hn (h.symm.trans hc)
        have hnn : ¬ name = n := fun h => hn h.symm
        simp [setTypeFrom, lookupFrom, hc, hn, hnn]
    · by_cases hn : n = name
      · subst hn
        simp only [setTypeFrom, hc, if_false, lookupFrom, ih, if_true]
      · simp only [setTypeFrom, hc, if_false, lookupFrom, ih, hn]

theorem names_setTypeFrom (name : String) (type : DataType) (l : List Symbol) :
    (setTypeFrom name type l).map Symbol.name = l.map Symbol.name := by
  induction l with
  | nil => rfl
  | cons c rest ih =>
    by_cases hc : c.name = name
    · simp [setTypeFrom, hc]
    · simp [setTypeFrom, hc, ih]

/-- The names of a table after `symtab_insert`: unchanged when the name was
there, the new name in front otherwise. -/
theorem symtab_insert_names (t t' : SymTab) (name : String) (type : DataType) (lineno : Int)
    (s : Symbol) (h : symtab_insert (some t) name type lineno = some (s, t')) :
    (name ∈ t.head.map Symbol.name ∧ t'.head.map Symbol.name = t.head.map Symbol.name) ∨
      (name ∉ t.head.map Symbol.name ∧
        t'.head.map Symbol.name = name :: t.head.map Symbol.name) := by
  cases hl : symtab_lookup (some t) name with
  | none =>
    right
    simp only [symtab_insert, hl, Option.some.injEq, Prod.mk.injEq] at h
    have hnone := (lookupFrom_none_iff name t.head).mp hl
    refine ⟨?_, ?_⟩
    · intro hmem
      obtain ⟨x, hx, hxn⟩ := List.mem_map.mp hmem
      exact hnone x hx hxn
    · rw [← h.2]; rfl
  | some existing =>
    left
    obtain ⟨before, after, hsplit, _, he⟩ := lookupFrom_some_split name t.head existing hl
    refine ⟨?_, ?_⟩
    · rw [hsplit]; simp [he]
    · simp only [symtab_insert, hl] at h
      split at h
      · simp only [Option.some.injEq, Prod.mk.injEq] at h
        rw [← h.2]
        exact names_setTypeFrom _ _ _
      · simp only [Option.some.injEq, Prod.mk.injEq] at h
        rw [← h.2]

/-- What `symtab_insert` does to the entry `symtab_lookup` finds for any name
that was in the table: name and line stay, and the type stays unless it was
Undefined. -/
theorem symtab_insert_lookup (t t' : SymTab) (name : String) (type : DataType) (lineno : Int)
    (s : Symbol) (h : symtab_insert (some t) name type lineno = some (s, t'))
    (n : String) (e : Symbol) (hn : symtab_lookup (some t) n = some e) :
    ∃ e', symtab_lookup (some t') n = some e' ∧ e'.name = e.name ∧
      e'.declared_lineno = e.declared_lineno ∧
      (e'.type = e.type ∨ e.type = DataType.TYPE_UNDEFINED) := by
  cases hl : symtab_lookup (some t) name with
  | none =>
    simp only [symtab_insert, hl, Option.some.injEq, Prod.mk.injEq] at h
    have hne : ¬ name = n := by
      intro hh
      rw [hh] at hl
      rw [hl] at hn
      cases hn
    refine ⟨e, ?_, rfl, rfl, Or.inl rfl⟩
    rw [← h.2]
    simpa [symtab_lookup, lookupFrom, hne] using hn
  | some existing =>
    simp only [symtab_insert, hl] at h
    split at h
    · rename_i hm
      simp only [Option.some.injEq, Prod.mk.injEq] at h
      rw [← h.2]
      simp only [symtab_lookup, SymTab.setType, lookupFrom_setTypeFrom]
      by_cases hnn : n = name
      · subst hnn
        rw [hl] at hn
        cases hn
        simp only [symtab_lookup] at hl
        simp only [hl, if_true, Option.map_some']
        exact ⟨_, rfl, rfl, rfl, Or.inr hm.1⟩
      · simp only [hnn, if_false]
        exact ⟨e, hn, rfl, rfl, Or.inl rfl⟩
    · simp only [Option.some.injEq, Prod.mk.injEq] at h
      rw [← h.2]
      exact ⟨e, hn, rfl, rfl, Or.inl rfl⟩

theorem typeKept_trans {a b c : DataType} (h1 : TypeKept a b) (h2 : TypeKept b c) :
    TypeKept a c := by
  refine ⟨fun ha => h2.1 (h1.1 ha), fun ha => ?_⟩
  rcases h1.2 ha with hb | hb
  · exact h2.2 hb
  · exact Or.inr (h2.1 hb)

theorem regStep_lookup {g g' : Option SymTab} (h : RegStep g g') (n : String) (e : Symbol)
    (hn : symtab_lookup g n = some e) :
    ∃ e', symtab_lookup g' n = some e' ∧ e'.name = e.name ∧
      e'.declared_lineno = e.declared_lineno ∧ TypeKept e.type e'.type := by
  cases h with
  | init =>
    cases g with
    | none => simp [symtab_lookup] at hn
    | some t => exact ⟨e, hn, rfl, rfl, fun h => h, fun h => Or.inl h⟩
  | insert name type lineno s t' hins =>
    cases g with
    | none => simp [symtab_lookup] at hn
    | some t =>
      obtain ⟨e', h1, h2, h3, h4⟩ := symtab_insert_lookup t t' name type lineno s hins n e hn
      refine ⟨e', h1, h2, h3, ?_, ?_⟩
      · intro hv
        rcases h4 with h4 | h4
        · rw [h4]; exact hv
        · rw [h4] at hv; cases hv
      · intro hv
        rcases h4 with h4 | h4
        · rw [h4]; exact Or.inl hv
        · rw [h4] at hv; cases hv
  | generate indentStr undef astRoot out err =>
    have hk := generateCode_keeps indentStr undef astRoot ⟨g, out, err⟩
    generalize (generateCode indentStr undef astRoot ⟨g, out, err⟩).globalSymTab = g' at hk
    cases g with
    | none => simp [symtab_lookup] at hn
    | some t =>
      cases g' with
      | none => simp [TabUpgraded] at hk
      | some t' =>
        simp only [TabUpgraded] at hk
        rcases lookupFrom_upgraded hk.2 n with ⟨h1, _⟩ | ⟨a, b, h1, h2, h3⟩
        · simp only [symtab_lookup] at hn
          rw [h1] at hn; cases hn
        · simp only [symtab_lookup] at hn
          rw [h1] at hn
          cases hn
          refine ⟨b, h2, h3.1, h3.2.1, ?_, ?_⟩
          · intro hv
            rcases h3.2.2 with h4 | h4
            · rw [h4]; exact hv
            · exact h4
          · intro hv
            rcases h3.2.2 with h4 | h4
            · rw [h4]; exact Or.inl hv
            · exact Or.inr h4

theorem regStep_names_nodup {g g' : Option SymTab} (h : RegStep g g')
    (hg : ((entries g).map Symbol.name).Nodup) : ((entries g').map Symbol.name).Nodup := by
  cases h with
  | init =>
    cases g with
    | none => simp [symtab_init, entries]
    | some t => exact hg
  | insert name type lineno s t' hins =>
    cases g with
    | none => simp [symtab_insert] at hins
    | some t =>
      rcases symtab_insert_names t t' name type lineno s hins with ⟨_, h2⟩ | ⟨h1, h2⟩
      · simp only [entries] at hg ⊢
        rw [h2]; exact hg
      · simp only [entries] at hg ⊢
        rw [h2]; exact List.nodup_cons.mpr ⟨h1, hg⟩
  | generate indentStr undef astRoot out err =>
    have hk := generateCode_keeps indentStr undef astRoot ⟨g, out, err⟩
    generalize (generateCode indentStr undef astRoot ⟨g, out, err⟩).globalSymTab = g' at hk
    cases g with
    | none =>
      cases g' with
      | none => exact hg
      | some t' => simp [TabUpgraded] at hk
    | some t =>
      cases g' with
      | none => simp [TabUpgraded] at hk
      | some t' =>
        simp only [TabUpgraded] at hk
        simp only [entries] at hg ⊢
        rw [names_upgraded hk.2]; exact hg

theorem filter_name_eq_lookup (l : List Symbol) (hl : (l.map Symbol.name).Nodup) (name : String) :
    l.filter (fun s => decide (s.name = name)) = (lookupFrom name l).toList := by
  induction l with
  | nil => rfl
  | cons c rest ih =>
    simp only [List.map_cons, List.nodup_cons] at hl
    by_cases hc : c.name = name
    · have hrest : rest.filter (fun s => decide (s.name = name)) = [] := by
        apply List.filter_eq_nil_iff.mpr
        intro x hx
        simp only [decide_eq_true_eq]
        intro hxn
        exact hl.1 (List.mem_map.mpr ⟨x, hx, hxn.trans hc.symm⟩)
      simp [List.filter_cons, lookupFrom, hc, hrest]
    · simp [List.filter_cons, lookupFrom, hc, ih hl.2]

theorem strJoin_append (l1 l2 : List String) :
    String.join (l1 ++ l2) = String.join l1 ++ String.join l2 := by
  induction l1 with
  | nil => simp [strJoin_nil, String.empty_append]
  | cons s rest ih => simp [strJoin_cons, ih, String.append_assoc]

theorem insertAll_none (ops : List (String × DataType × Int)) : insertAll none ops = none := by
  cases ops with
  | nil => rfl
  | cons op rest =>
    obtain ⟨n, ty, ln⟩ := op
    simp [insertAll, symtab_insert]

theorem insertAll_append (g : Option SymTab) (p q : List (String × DataType × Int)) :
    insertAll g (p ++ q) = insertAll (insertAll g p) q := by
  induction p generalizing g with
  | nil => rfl
  | cons op rest ih =>
    obtain ⟨n, ty, ln⟩ := op
    simp only [List.cons_append, insertAll]
    cases symtab_insert g n ty ln with
    | none => simp [insertAll_none]
    | some r => exact ih _

/-- The names of the table after a sequence of inserts: the old names with new
ones in front, the new ones being among the inserted names, and every inserted
name is there. -/
theorem insertAll_names (ops : List (String × DataType × Int)) (t t' : SymTab)
    (h : insertAll (some t) ops = some t') :
    ∃ extra, t'.head.map Symbol.name = extra ++ t.head.map Symbol.name ∧
      (∀ x ∈ extra, x ∈ ops.map (fun op => op.1)) ∧
      (∀ x ∈ ops.map (fun op => op.1), x ∈ t'.head.map Symbol.name) := by
  induction ops generalizing t with
  | nil =>
    simp only [insertAll, Option.some.injEq] at h
    subst h
    exact ⟨[], by simp, by simp, by simp⟩
  | cons op rest ih =>
    obtain ⟨n, ty, ln⟩ := op
    simp only [insertAll] at h
    cases hins : symtab_insert (some t) n ty ln with
    | none => simp [hins] at h
    | some r =>
      obtain ⟨s, t1⟩ := r
      simp only [hins] at h
      obtain ⟨extra, h1, h2, h3⟩ := ih t1 h
      have hmem : n ∈ t1.head.map Symbol.name := by
        rcases symtab_insert_names t t1 n ty ln s hins with ⟨k1, k2⟩ | ⟨_, k2⟩
        · rw [k2]; exact k1
        · rw [k2]; simp
      have hn' : n ∈ t'.head.map Symbol.name := by
        rw [h1]; exact List.mem_append_right _ hmem
      rcases symtab_insert_names t t1 n ty ln s hins with ⟨_, k2⟩ | ⟨_, k2⟩
      · refine ⟨extra, by rw [h1, k2], ?_, ?_⟩
        · intro x hx
          simp only [List.map_cons, List.mem_cons]
          exact Or.inr (h2 x hx)
        · intro x hx
          simp only [List.map_cons, List.mem_cons] at hx
          rcases hx with rfl | hx
          · exact hn'
          · exact h3 x hx
      · refine ⟨extra ++ [n], by rw [h1, k2]; simp, ?_, ?_⟩
        · intro x hx
          simp only [List.map_cons, List.mem_cons]
          rcases List.mem_append.mp hx with hx | hx
          · exact Or.inr (h2 x hx)
          · simp only [List.mem_singleton] at hx
            exact Or.inl hx
        · intro x hx
          simp only [List.map_cons, List.mem_cons] at hx
          rcases hx with rfl | hx
          · exact hn'
          · exact h3 x hx

theorem symtab_insert_isSome (t : SymTab) (name : String) (type : DataType) (lineno : Int) :
    ∃ r, symtab_insert (some t) name type lineno = some r := by
  unfold symtab_insert
  simp only
  split
  · split
    · exact ⟨_, rfl⟩
    · exact ⟨_, rfl⟩
  · exact ⟨_, rfl⟩

theorem insertAll_isSome (ops : List (String × DataType × Int)) (t : SymTab) :
    ∃ t', insertAll (some t) ops = some t' := by
  induction ops generalizing t with
  | nil => exact ⟨t, rfl⟩
  | cons op rest ih =>
    obtain ⟨n, ty, ln⟩ := op
    obtain ⟨r, hr⟩ := symtab_insert_isSome t n ty ln
    simp only [insertAll, hr]
    exact ih _

/-- After the inserts `p`, an insert of `a`, and the inserts `q`, where `b` is
not inserted in `p` and is inserted in `q`: the name `b` stands before the name
`a` in the list of the table. -/
theorem insertAll_order (p q : List (String × DataType × Int)) (a b : String)
    (ta : DataType) (la : Int) (t : SymTab) (hab : a ≠ b)
    (hp : b ∉ p.map (fun op => op.1)) (hq : b ∈ q.map (fun op => op.1))
    (ht : insertAll (symtab_init none) (p ++ (a, ta, la) :: q) = some t) :
    ∃ n1 n2 n3, t.head.map Symbol.name = n1 ++ b :: (n2 ++ a :: n3) := by
  -- the table after `p` and the insert of `a`
  have hsplit : p ++ (a, ta, la) :: q = (p ++ [(a, ta, la)]) ++ q := by simp
  rw [hsplit, insertAll_append] at ht
  obtain ⟨t1, ht1⟩ := insertAll_isSome (p ++ [(a, ta, la)]) ⟨[], 0⟩
  have ht1' : insertAll (symtab_init none) (p ++ [(a, ta, la)]) = some t1 := ht1
  rw [ht1'] at ht
  obtain ⟨e1, h11, h12, h13⟩ := insertAll_names _ _ _ ht1
  have ha1 : a ∈ t1.head.map Symbol.name := h13 a (by simp)
  have hb1 : b ∉ t1.head.map Symbol.name := by
    intro hb
    rw [h11] at hb
    simp only [List.map_nil, List.append_nil] at hb
    have := h12 b hb
    simp only [List.map_append, List.map_cons, List.map_nil, List.mem_append,
      List.mem_singleton] at this
    rcases this with h | h
    · exact hp h
    · exact hab h.symm
  -- the first insert of `b` in `q`
  obtain ⟨qn1, qn2, hqn, hqb⟩ := List.eq_append_cons_of_mem hq
  obtain ⟨q1, q2', hq12, hq1, hq2⟩ := List.map_eq_append_iff.mp hqn
  obtain ⟨opb, q2, hq2c, hopb, _⟩ := List.map_eq_cons_iff.mp hq2
  have hqsplit : q = q1 ++ ([opb] ++ q2) := by rw [hq12, hq2c]; rfl
  rw [hqsplit, insertAll_append, insertAll_append] at ht
  obtain ⟨t2, ht2⟩ := insertAll_isSome q1 t1
  rw [ht2] at ht
  obtain ⟨e2, h21, h22, _⟩ := insertAll_names _ _ _ ht2
  have hb2 : b ∉ t2.head.map Symbol.name := by
    intro hb
    rw [h21] at hb
    rcases List.mem_append.mp hb with h | h
    · exact hqb (hq1 ▸ h22 b h)
    · exact hb1 h
  obtain ⟨t3, ht3⟩ := insertAll_isSome [opb] t2
  rw [ht3] at ht
  have h3 : t3.head.map Symbol.name = b :: t2.head.map Symbol.name := by
    obtain ⟨nb, tyb, lb⟩ := opb
    simp only at hopb
    subst hopb
    simp only [insertAll] at ht3
    cases hins : symtab_insert (some t2) nb tyb lb with
    | none => simp [hins] at ht3
    | some r =>
      obtain ⟨s, t3'⟩ := r
      simp only [hins, Option.some.injEq] at ht3
      subst ht3
      rcases symtab_insert_names t2 t3' nb tyb lb s hins with ⟨k1, _⟩ | ⟨_, k2⟩
      · exact absurd k1 hb2
      · exact k2
  obtain ⟨e4, h41, _, _⟩ := insertAll_names _ _ _ ht
  obtain ⟨m1, m2, hm⟩ := List.append_of_mem ha1
  refine ⟨e4, e2 ++ m1, m2, ?_⟩
  rw [h41, h3, h21, hm]
  simp

/-- What `generateExpressionCode` does to a state, in terms of the texts it
writes from the empty streams. -/
theorem generateExpressionCode_eq (n : Node) (st : GenState) :
    generateExpressionCode n st =
      { globalSymTab := st.globalSymTab,
        outfile := st.outfile ++ exprText st.globalSymTab n,
        errfile := st.errfile ++ exprDiag st.globalSymTab n } :=
  generateExpressionCode_frame n st

theorem exprArgs_eq (n : Node) (first_arg : Bool) (st : GenState) :
    exprArgs n first_arg st =
      { globalSymTab := st.globalSymTab,
        outfile := st.outfile ++ (exprArgs n first_arg ⟨st.globalSymTab, "", ""⟩).outfile,
        errfile := st.errfile ++ (exprArgs n first_arg ⟨st.globalSymTab, "", ""⟩).errfile } :=
  exprArgs_frame n first_arg st

/-- The `load_vector` assignment with an argument list of any other shape than
an identifier followed by a number literal prints the error comment. -/
theorem assignLoadVector_bad (indentStr : String) (lineno : Int) (name : String) (args : Node)
    (hshape : ∀ (f : String) (c : ℚ) (fline cline : Int),
      args ≠ .mk (.mk .null cline (.num c)) fline (.id f)) (s : GenState) :
    assignLoadVector indentStr lineno name args s =
      s.out ("/* Codegen Error: Invalid arguments for load_vector assignment on line "
        ++ fmtD lineno ++ " */\n") := by
  unfold assignLoadVector
  split
  · rename_i cline c fline f
    exact absurd rfl (hshape f c fline cline)
  · rfl

/-- The count of a table after `symtab_insert`: the same or one more. -/
theorem symtab_insert_count (t t' : SymTab) (name : String) (type : DataType) (lineno : Int)
    (s : Symbol) (h : symtab_insert (some t) name type lineno = some (s, t')) :
    t.count ≤ t'.count ∧ t.head.length ≤ t'.head.length := by
  have hlen : t'.head.length = (t'.head.map Symbol.name).length := by simp
  have hlen0 : t.head.length = (t.head.map Symbol.name).length := by simp
  have hnames := symtab_insert_names t t' name type lineno s h
  refine ⟨?_, ?_⟩
  · cases hl : symtab_lookup (some t) name with
    | none =>
      simp only [symtab_insert, hl, Option.some.injEq, Prod.mk.injEq] at h
      rw [← h.2]
      show t.count ≤ t.count + 1
      omega
    | some existing =>
      simp only [symtab_insert, hl] at h
      split at h
      · simp only [Option.some.injEq, Prod.mk.injEq] at h
        rw [← h.2]
        exact Int.le_refl _
      · simp only [Option.some.injEq, Prod.mk.injEq] at h
        rw [← h.2]
  · rw [hlen, hlen0]
    rcases hnames with ⟨_, h2⟩ | ⟨_, h2⟩
    · rw [h2]
    · rw [h2]
      simp

/-- The statement `fname(args)` for one of the built-ins that take one
identifier, called with an argument list of any other shape: the error comment
of that built-in. -/
theorem stmtFuncCall_bad_single (indentStr : String) (args : Node)
    (hshape : ∀ (l : Int) (s : String), args ≠ .mk .null l (.id s)) (st : GenState) :
    stmtFuncCall indentStr "print_vector" args st =
        st.out "/* Codegen Error: Invalid arguments for print_vector */\n" ∧
      stmtFuncCall indentStr "average" args st =
        st.out "/* Codegen Error: Invalid arguments for average */\n" ∧
      stmtFuncCall indentStr "max_val" args st =
        st.out "/* Codegen Error: Invalid arguments for max_val */\n" ∧
      stmtFuncCall indentStr "save_plot" args st =
        st.out "/* Codegen Error: Invalid argument for save_plot (expecting filename ID/string) */\n" := by
  refine ⟨?_, ?_, ?_, ?_⟩
  · unfold stmtFuncCall
    simp only [if_true]
  · unfold stmtFuncCall
    simp only [String.reduceEq, if_false, if_true]
  · unfold stmtFuncCall
    simp only [String.reduceEq, if_false, if_true]
  · unfold stmtFuncCall
    simp only [String.reduceEq, if_false, if_true]

theorem stmtFuncCall_bad_plot (indentStr : String) (args : Node)
    (hshape : ∀ (lx ly : Int) (x y : String), args ≠ .mk (.mk .null ly (.id y)) lx (.id x))
    (st : GenState) :
    stmtFuncCall indentStr "plot_xy" args st =
      st.out "/* Codegen Error: Invalid arguments for plot_xy (expecting two vector IDs) */\n" := by
  unfold stmtFuncCall
  simp only [String.reduceEq, if_false, if_true]
  split
  · rename_i ly y lx x
    exact absurd rfl (hshape lx ly x y)
  · rfl

theorem emitBinOp_eq (op : OpType) (st : GenState) :
    emitBinOp op st =
      { globalSymTab := st.globalSymTab,
        outfile := st.outfile ++ (emitBinOp op ⟨none, "", ""⟩).outfile,
        errfile := st.errfile ++ (emitBinOp op ⟨none, "", ""⟩).errfile } := by
  cases op <;> simp [emitBinOp, GenState.out, GenState.err, String.append_empty]

theorem emitUnaryOp_eq (op : OpType) (st : GenState) :
    emitUnaryOp op st =
      { globalSymTab := st.globalSymTab,
        outfile := st.outfile ++ (emitUnaryOp op ⟨none, "", ""⟩).outfile,
        errfile := st.errfile ++ (emitUnaryOp op ⟨none, "", ""⟩).errfile } := by
  cases op <;> simp [emitUnaryOp, GenState.out, GenState.err, String.append_empty]

/-- The text and the diagnostics of a binary operation node: an opening
parenthesis, the left operand, what the operator switch prints, the right
operand, a closing parenthesis. -/
theorem generateExpressionCode_binOp (next : Node) (lineno : Int) (op : OpType)
    (left right : Node) (st : GenState) :
    generateExpressionCode (.mk next lineno (.binOp op left right)) st =
      { globalSymTab := st.globalSymTab,
        outfile := st.outfile ++ ("(" ++ (exprText st.globalSymTab left
          ++ ((emitBinOp op ⟨none, "", ""⟩).outfile
            ++ (exprText st.globalSymTab right ++ ")")))),
        errfile := st.errfile ++ (exprDiag st.globalSymTab left
          ++ ((emitBinOp op ⟨none, "", ""⟩).errfile ++ exprDiag st.globalSymTab right)) } := by
  simp only [generateExpressionCode, exprNode]
  rw [generateExpressionCode_eq left, emitBinOp_eq, generateExpressionCode_eq right]
  simp only [GenState.out, String.append_assoc]

/-- The text and the diagnostics of a unary operation node: an opening
parenthesis, what the operator switch prints, the operand, a closing
parenthesis. -/
theorem generateExpressionCode_unaryOp (next : Node) (lineno : Int) (op : OpType)
    (operand : Node) (st : GenState) :
    generateExpressionCode (.mk next lineno (.unaryOp op operand)) st =
      { globalSymTab := st.globalSymTab,
        outfile := st.outfile ++ ("(" ++ ((emitUnaryOp op ⟨none, "", ""⟩).outfile
          ++ (exprText st.globalSymTab operand ++ ")"))),
        errfile := st.errfile ++ ((emitUnaryOp op ⟨none, "", ""⟩).errfile
          ++ exprDiag st.globalSymTab operand) } := by
  simp only [generateExpressionCode, exprNode]
  rw [emitUnaryOp_eq, generateExpressionCode_eq operand]
  simp only [GenState.out, String.append_assoc]

theorem exprText_mk (g : Option SymTab) (next : Node) (lineno : Int) (data : NodeData) :
    exprText g (.mk next lineno data) = (exprNode lineno data ⟨g, "", ""⟩).outfile := by
  simp only [exprText, generateExpressionCode]

theorem exprText_null (g : Option SymTab) : exprText g .null = "" := by
  simp only [exprText, generateExpressionCode]

theorem exprText_binOp (g : Option SymTab) (next : Node) (lineno : Int) (op : OpType)
    (left right : Node) :
    exprText g (.mk next lineno (.binOp op left right)) =
      "(" ++ (exprText g left ++ ((emitBinOp op ⟨none, "", ""⟩).outfile
        ++ (exprText g right ++ ")"))) := by
  rw [exprText, generateExpressionCode_binOp]
  simp only [String.empty_append]

theorem exprText_unaryOp (g : Option SymTab) (next : Node) (lineno : Int) (op : OpType)
    (operand : Node) :
    exprText g (.mk next lineno (.unaryOp op operand)) =
      "(" ++ ((emitUnaryOp op ⟨none, "", ""⟩).outfile ++ (exprText g operand ++ ")")) := by
  rw [exprText, generateExpressionCode_unaryOp]
  simp only [String.empty_append]

theorem emitBinOp_no_paren (op : OpType) (c : Char) (hc : c = '(' ∨ c = ')') :
    (emitBinOp op ⟨none, "", ""⟩).outfile.data.count c = 0 := by
  rcases hc with rfl | rfl <;> cases op <;> decide

theorem emitUnaryOp_no_paren (op : OpType) (c : Char) (hc : c = '(' ∨ c = ')') :
    (emitUnaryOp op ⟨none, "", ""⟩).outfile.data.count c = 0 := by
  rcases hc with rfl | rfl <;> cases op <;> decide

theorem paren_pair_count (c : Char) (hc : c = '(' ∨ c = ')') :
    List.count c ['('] + List.count c [')'] = 1 := by
  rcases hc with rfl | rfl <;> decide

mutual
theorem paren_count (c : Char) (hc : c = '(' ∨ c = ')') (g : Option SymTab) :
    ∀ n : Node, (exprText g n).data.count c = opCount n + leafCount c g n
  | .null => by
    simp [exprText_null, opCount, leafCount]
  | .mk nx l d => by
    rw [exprText_mk]
    simp only [opCount, leafCount]
    exact paren_count_data c hc g l d
theorem paren_count_data (c : Char) (hc : c = '(' ∨ c = ')') (g : Option SymTab) :
    ∀ (l : Int) (d : NodeData),
      (exprNode l d ⟨g, "", ""⟩).outfile.data.count c = opCountData d + leafCountData c g l d
  | l, .binOp op left right => by
    have hl := paren_count c hc g left
    have hr := paren_count c hc g right
    have hp := paren_pair_count c hc
    have ho := emitBinOp_no_paren op c hc
    have ht := exprText_binOp g .null l op left right
    rw [exprText_mk] at ht
    rw [ht]
    simp only [String.data_append, List.count_append, hl, hr, ho, opCountData, leafCountData]
    omega
  | l, .unaryOp op operand => by
    have hd := paren_count c hc g operand
    have hp := paren_pair_count c hc
    have ho := emitUnaryOp_no_paren op c hc
    have ht := exprText_unaryOp g .null l op operand
    rw [exprText_mk] at ht
    rw [ht]
    simp only [String.data_append, List.count_append, hd, ho, opCountData, leafCountData]
    omega
  | l, .num dval => by simp [opCountData, leafCountData]
  | l, .id sval => by simp [opCountData, leafCountData]
  | l, .vec elements => by simp [opCountData, leafCountData]
  | l, .assignOp name value => by simp [opCountData, leafCountData]
  | l, .ifStmt c1 t e => by simp [opCountData, leafCountData]
  | l, .whileStmt c1 b => by simp [opCountData, leafCountData]
  | l, .funcCall name args => by simp [opCountData, leafCountData]
end

theorem untouched_of_frame {f : GenState → GenState} (name : String) (h : ExprFrame f) :
    Untouched name f := by
  intro st
  rw [h st]

theorem untouched_comp {f g : GenState → GenState} {name : String} (hf : Untouched name f)
    (hg : Untouched name g) : Untouched name (fun st => g (f st)) :=
  fun st => (hg (f st)).trans (hf st)

theorem untouched_out (name s : String) : Untouched name (fun st => st.out s) :=
  untouched_of_frame name (exprFrame_out s)

theorem lookup_setType_other (g : Option SymTab) (target name : String) (type : DataType)
    (h : name ≠ target) :
    symtab_lookup (Option.map (fun t : SymTab => t.setType target type) g) name
      = symtab_lookup g name := by
  cases g with
  | none => rfl
  | some t => simp [symtab_lookup, SymTab.setType, lookupFrom_setTypeFrom, h]

theorem assignLoadVector_untouched (indentStr : String) (lineno : Int) (target name : String)
    (args : Node) (h : validLoadArgs args = true → name ≠ target) :
    Untouched name (assignLoadVector indentStr lineno target args) := by
  intro st
  unfold assignLoadVector
  split
  · have hne : name ≠ target := h (by simp [validLoadArgs])
    simp only [GenState.out]
    split
    · exact lookup_setType_other _ _ _ _ hne
    · rfl
  · rfl

theorem stmtAssign_untouched (indentStr : String) (lineno : Int) (target name : String)
    (value : Node) (p : Node → Bool) (hp : ∀ a, validLoadArgs a = true → p a = true)
    (h : name ∉ loadTargetsData p (.assignOp target value)) :
    Untouched name (stmtAssign indentStr lineno target value) := by
  intro st
  unfold stmtAssign
  split
  · rfl
  · split
    · rename_i vnext vline fname args
      split
      · rename_i hf
        apply assignLoadVector_untouched
        intro hv
        intro hnt
        apply h
        simp [loadTargetsData, hf, hp args hv, hnt]
      · exact untouched_of_frame name (assignPlain_frame _ _) st
    · exact untouched_of_frame name (assignPlain_frame _ _) st

mutual
theorem stmtNode_untouched (indentStr name : String) (p : Node → Bool)
    (hp : ∀ a, validLoadArgs a = true → p a = true) :
    ∀ (l : Int) (d : NodeData) (k : Nat), name ∉ loadTargetsData p d →
      Untouched name (stmtNode indentStr l d k)
  | l, .assignOp target value, k => by
    intro h
    have he : stmtNode indentStr l (NodeData.assignOp target value) k
        = stmtAssign indentStr l target value := by
      funext st; simp [stmtNode]
    rw [he]; exact stmtAssign_untouched _ _ _ _ _ p hp h
  | l, .num dval, k => by
    intro _
    have he : stmtNode indentStr l (NodeData.num dval) k
        = fun st => (exprNode l (.num dval) st).out ";\n" := by
      funext st; simp [stmtNode]
    rw [he]
    exact untouched_of_frame name (exprFrame_comp (exprNode_frame _ _) (exprFrame_out _))
  | l, .id sval, k => by
    intro _
    have he : stmtNode indentStr l (NodeData.id sval) k
        = fun st => (exprNode l (.id sval) st).out ";\n" := by
      funext st; simp [stmtNode]
    rw [he]
    exact untouched_of_frame name (exprFrame_comp (exprNode_frame _ _) (exprFrame_out _))
  | l, .binOp op left right, k => by
    intro _
    have he : stmtNode indentStr l (NodeData.binOp op left right) k
        = fun st => (exprNode l (.binOp op left right) st).out ";\n" := by
      funext st; simp [stmtNode]
    rw [he]
    exact untouched_of_frame name (exprFrame_comp (exprNode_frame _ _) (exprFrame_out _))
  | l, .unaryOp op operand, k => by
    intro _
    have he : stmtNode indentStr l (NodeData.unaryOp op operand) k
        = fun st => (exprNode l (.unaryOp op operand) st).out ";\n" := by
      funext st; simp [stmtNode]
    rw [he]
    exact untouched_of_frame name (exprFrame_comp (exprNode_frame _ _) (exprFrame_out _))
  | l, .vec elements, k => by
    intro _
    have he : stmtNode indentStr l (NodeData.vec elements) k
        = fun st => (exprNode l (.vec elements) st).out ";\n" := by
      funext st; simp [stmtNode]
    rw [he]
    exact untouched_of_frame name (exprFrame_comp (exprNode_frame _ _) (exprFrame_out _))
  | l, .ifStmt condition then_branch else_branch, k => by
    intro h
    simp only [loadTargetsData, List.mem_append, not_or] at h
    have ht := stmtList_untouched indentStr name p hp then_branch (k + 1) h.1
    have hel := stmtList_untouched indentStr name p hp else_branch (k + 1) h.2
    have hc := untouched_of_frame name (generateExpressionCode_frame condition)
    have hi := untouched_of_frame name (emitIndent_frame k)
    have h3 := untouched_comp (untouched_comp (untouched_comp (untouched_comp
      (untouched_comp (untouched_out name "if (") hc) (untouched_out name ") \x7b\n")) ht) hi)
      (untouched_out name "\x7d")
    cases hnull : else_branch.isNull with
    | true =>
      have he : stmtNode indentStr l (NodeData.ifStmt condition then_branch else_branch) k
          = fun st => ((emitIndent k (stmtList indentStr then_branch (k + 1)
              ((generateExpressionCode condition (st.out "if (")).out ") \x7b\n"))).out
                "\x7d").out "\n" := by
        funext st; simp [stmtNode, hnull]
      rw [he]
      have h4 := untouched_comp h3 (untouched_out name "\n")
      exact h4
    | false =>
      have he : stmtNode indentStr l (NodeData.ifStmt condition then_branch else_branch) k
          = fun st => (emitIndent k (stmtList indentStr else_branch (k + 1)
              (((emitIndent k (stmtList indentStr then_branch (k + 1)
                ((generateExpressionCode condition (st.out "if (")).out ") \x7b\n"))).out
                  "\x7d").out " else \x7b\n"))).out "\x7d\n" := by
        funext st; simp [stmtNode, hnull]
      rw [he]
      have h4 := untouched_comp (untouched_comp (untouched_comp (untouched_comp h3
        (untouched_out name " else \x7b\n")) hel) hi) (untouched_out name "\x7d\n")
      exact h4
  | l, .whileStmt condition body, k => by
    intro h
    simp only [loadTargetsData] at h
    have hb := stmtList_untouched indentStr name p hp body (k + 1) h
    have hc := untouched_of_frame name (generateExpressionCode_frame condition)
    have hi := untouched_of_frame name (emitIndent_frame k)
    have he : stmtNode indentStr l (NodeData.whileStmt condition body) k
        = fun st => (emitIndent k (stmtList indentStr body (k + 1)
            ((generateExpressionCode condition (st.out "while (")).out ") \x7b\n"))).out
              "\x7d\n" := by
      funext st; simp [stmtNode]
    rw [he]
    have h4 := untouched_comp (untouched_comp (untouched_comp (untouched_comp
      (untouched_comp (untouched_out name "while (") hc) (untouched_out name ") \x7b\n")) hb) hi)
      (untouched_out name "\x7d\n")
    exact h4
  | l, .funcCall fname args, k => by
    intro _
    have he : stmtNode indentStr l (NodeData.funcCall fname args) k
        = stmtFuncCall indentStr fname args := by
      funext st; simp [stmtNode]
    rw [he]; exact untouched_of_frame name (stmtFuncCall_frame _ _ _)
theorem stmtList_untouched (indentStr name : String) (p : Node → Bool)
    (hp : ∀ a, validLoadArgs a = true → p a = true) :
    ∀ (n : Node) (k : Nat), name ∉ loadTargets p n → Untouched name (stmtList indentStr n k)
  | .null, k => by
    intro _
    have he : stmtList indentStr Node.null k = fun st => st := by
      funext st; simp [stmtList]
    rw [he]; exact untouched_of_frame name exprFrame_ident
  | .mk nx l d, k => by
    intro h
    simp only [loadTargets, List.mem_append, not_or] at h
    have hn := stmtList_untouched indentStr name p hp nx k h.2
    have hd := stmtNode_untouched indentStr name p hp l d k h.1
    have hi := untouched_of_frame name (emitIndent_frame k)
    have he : stmtList indentStr (Node.mk nx l d) k = fun st =>
        stmtList indentStr nx k (stmtNode indentStr l d k (emitIndent k st)) := by
      funext st; simp [stmtList]
    rw [he]
    have h4 := untouched_comp (untouched_comp hi hd) hn
    exact h4
end

/-- A `generateCode` pass leaves the entry of a name alone when the program has
no `load_vector` assignment to it whose argument list passes `p`, for any test
`p` that the well-formed argument lists pass. -/
theorem generateCode_untouched (indentStr undef name : String) (p : Node → Bool)
    (hp : ∀ a, validLoadArgs a = true → p a = true) (astRoot : Node)
    (h : name ∉ loadTargets p astRoot) : Untouched name (generateCode indentStr undef astRoot) := by
  intro st
  rw [generateCode_eq]
  exact stmtList_untouched indentStr name p hp astRoot 1 h
    { globalSymTab := st.globalSymTab,
      outfile := st.outfile ++ (String.join (prologueLines undef)
        ++ ("    // Variable Declarations\n"
          ++ String.join ((entries st.globalSymTab).map declLine)
          ++ "\n    // Code Body\n")),
      errfile := st.errfile }

theorem sameNames_refl (g : Option SymTab) : SameNames g g := fun _ => rfl

theorem sameNames_symm {g g' : Option SymTab} (h : SameNames g g') : SameNames g' g :=
  fun n => (h n).symm

theorem sameNames_trans {g1 g2 g3 : Option SymTab} (h1 : SameNames g1 g2)
    (h2 : SameNames g2 g3) : SameNames g1 g3 :=
  fun n => (h1 n).trans (h2 n)

theorem sameNames_of_upgraded {g g' : Option SymTab} (h : TabUpgraded g g') : SameNames g g' := by
  intro n
  cases g with
  | none =>
    cases g' with
    | none => rfl
    | some t' => simp [TabUpgraded] at h
  | some t =>
    cases g' with
    | none => simp [TabUpgraded] at h
    | some t' =>
      simp only [TabUpgraded] at h
      rcases lookupFrom_upgraded h.2 n with ⟨h1, h2⟩ | ⟨a, b, h1, h2, _⟩
      · simp [symtab_lookup, h1, h2]
      · simp [symtab_lookup, h1, h2]

theorem uniform_ident : Uniform (fun st => st) := by
  intro st st' h
  exact ⟨h, "", "", by simp [String.append_empty], by simp [String.append_empty],
    by simp [String.append_empty], by simp [String.append_empty]⟩

theorem uniform_out (s : String) : Uniform (fun st => st.out s) := by
  intro st st' h
  exact ⟨h, s, "", rfl, rfl, by simp [GenState.out, String.append_empty],
    by simp [GenState.out, String.append_empty]⟩

theorem uniform_err (s : String) : Uniform (fun st => st.err s) := by
  intro st st' h
  exact ⟨h, "", s, by simp [GenState.err, String.append_empty],
    by simp [GenState.err, String.append_empty], rfl, rfl⟩

theorem uniform_comp {f g : GenState → GenState} (hf : Uniform f) (hg : Uniform g) :
    Uniform (fun st => g (f st)) := by
  intro st st' h
  obtain ⟨h1, o1, e1, a1, a2, a3, a4⟩ := hf st st' h
  obtain ⟨h2, o2, e2, b1, b2, b3, b4⟩ := hg (f st) (f st') h1
  refine ⟨h2, o1 ++ o2, e1 ++ e2, ?_, ?_, ?_, ?_⟩
  · rw [b1, a1, String.append_assoc]
  · rw [b2, a2, String.append_assoc]
  · rw [b3, a3, String.append_assoc]
  · rw [b4, a4, String.append_assoc]

/-- A step chosen by whether a name is in the table. -/
theorem uniform_branch {f a b : GenState → GenState} (name : String) (ha : Uniform a)
    (hb : Uniform b)
    (h : ∀ st : GenState,
      f st = if (symtab_lookup st.globalSymTab name).isSome then b st else a st) :
    Uniform f := by
  intro st st' hs
  rw [h st, h st']
  have hn := hs name
  cases h1 : (symtab_lookup st.globalSymTab name).isSome with
  | true =>
    rw [h1] at hn
    simp only [← hn, if_true]
    exact hb st st' hs
  | false =>
    rw [h1] at hn
    simp only [← hn]
    exact ha st st' hs

theorem lookup_setType_isSome (g : Option SymTab) (target : String) (type : DataType)
    (n : String) :
    (symtab_lookup (Option.map (fun t : SymTab => t.setType target type) g) n).isSome
      = (symtab_lookup g n).isSome := by
  cases g with
  | none => rfl
  | some t =>
    simp only [Option.map_some', symtab_lookup, SymTab.setType, lookupFrom_setTypeFrom]
    by_cases hn : n = target
    · simp only [hn, if_true]
      cases lookupFrom target t.head <;> rfl
    · simp only [hn, if_false]

theorem uniform_setType (target : String) :
    Uniform (fun st => { st with
      globalSymTab :=
        Option.map (fun t : SymTab => t.setType target DataType.TYPE_VECTOR) st.globalSymTab }) := by
  intro st st' h
  refine ⟨?_, "", "", by simp [String.append_empty], by simp [String.append_empty],
    by simp [String.append_empty], by simp [String.append_empty]⟩
  intro n
  simp only [lookup_setType_isSome]
  exact h n

theorem emitIndent_uniform (k : Nat) : Uniform (emitIndent k) := by
  have h : emitIndent k = fun st => st.out (spaces (4 * k)) := by
    funext st; exact emitIndent_eq k st
  rw [h]; exact uniform_out _

theorem emitBinOp_uniform (op : OpType) : Uniform (emitBinOp op) := by
  cases op
  · exact uniform_out _
  · exact uniform_out _
  · exact uniform_out _
  · exact uniform_out _
  · exact uniform_err _

theorem emitUnaryOp_uniform (op : OpType) : Uniform (emitUnaryOp op) := by
  cases op
  · exact uniform_err _
  · exact uniform_err _
  · exact uniform_err _
  · exact uniform_err _
  · exact uniform_out _

mutual
theorem generateExpressionCode_uniform : ∀ n : Node, Uniform (generateExpressionCode n)
  | .null => by
    have h : generateExpressionCode Node.null = fun st => st := by
      funext st; simp [generateExpressionCode]
    rw [h]; exact uniform_ident
  | .mk nx l d => by
    have h : generateExpressionCode (Node.mk nx l d) = exprNode l d := by
      funext st; simp [generateExpressionCode]
    rw [h]; exact exprNode_uniform l d
theorem exprNode_uniform : ∀ (l : Int) (d : NodeData), Uniform (exprNode l d)
  | l, .num dval => by
    have h : exprNode l (NodeData.num dval) = fun st => st.out (fmtF dval) := by
      funext st; simp [exprNode]
    rw [h]; exact uniform_out _
  | l, .id sval => by
    have ha := uniform_comp
      (uniform_err ("Codegen Error line " ++ fmtD l ++ ": Use of undeclared identifier '"
        ++ sval ++ "'\n"))
      (uniform_out ("/* Error: Undeclared ID " ++ sval ++ " */"))
    refine uniform_branch sval ha (uniform_out sval) ?_
    intro st
    cases hl : symtab_lookup st.globalSymTab sval <;> simp [exprNode, hl]
  | l, .binOp op left right => by
    have hl := generateExpressionCode_uniform left
    have hr := generateExpressionCode_uniform right
    have h : exprNode l (NodeData.binOp op left right) = fun st =>
        (generateExpressionCode right
          (emitBinOp op (generateExpressionCode left (st.out "(")))).out ")" := by
      funext st; simp [exprNode]
    rw [h]
    have h4 := uniform_comp (uniform_comp (uniform_comp (uniform_comp (uniform_out "(") hl)
      (emitBinOp_uniform op)) hr) (uniform_out ")")
    exact h4
  | l, .unaryOp op operand => by
    have ho := generateExpressionCode_uniform operand
    have h : exprNode l (NodeData.unaryOp op operand) = fun st =>
        (generateExpressionCode operand (emitUnaryOp op (st.out "("))).out ")" := by
      funext st; simp [exprNode]
    rw [h]
    have h4 := uniform_comp (uniform_comp (uniform_comp (uniform_out "(")
      (emitUnaryOp_uniform op)) ho) (uniform_out ")")
    exact h4
  | l, .vec elements => by
    have h : exprNode l (NodeData.vec elements) =
        fun st => st.out "/* Vector Literal Not Yet Implemented */" := by
      funext st; simp [exprNode]
    rw [h]; exact uniform_out _
  | l, .funcCall name args => by
    have ha := exprArgs_uniform args true
    by_cases hn : name = "load_vector"
    · have h : exprNode l (NodeData.funcCall name args) = fun st =>
          st.out "/* load_vector used in expression - requires return value handling */" := by
        funext st; simp [exprNode, hn]
      rw [h]; exact uniform_out _
    · have h : exprNode l (NodeData.funcCall name args) = fun st =>
          (exprArgs args true (st.out (name ++ "("))).out ")" := by
        funext st; simp [exprNode, hn]
      rw [h]
      have h4 := uniform_comp (uniform_comp (uniform_out (name ++ "(")) ha) (uniform_out ")")
      exact h4
  | l, .assignOp name value => by
    have h : exprNode l (NodeData.assignOp name value) = fun st =>
        st.err ("Codegen Error: Unsupported expression node type "
          ++ fmtD (NodeData.assignOp name value).type.toInt ++ " on line " ++ fmtD l ++ "\n") := by
      funext st; simp [exprNode]
    rw [h]; exact uniform_err _
  | l, .ifStmt c t e => by
    have h : exprNode l (NodeData.ifStmt c t e) = fun st =>
        st.err ("Codegen Error: Unsupported expression node type "
          ++ fmtD (NodeData.ifStmt c t e).type.toInt ++ " on line " ++ fmtD l ++ "\n") := by
      funext st; simp [exprNode]
    rw [h]; exact uniform_err _
  | l, .whileStmt c b => by
    have h : exprNode l (NodeData.whileStmt c b) = fun st =>
        st.err ("Codegen Error: Unsupported expression node type "
          ++ fmtD (NodeData.whileStmt c b).type.toInt ++ " on line " ++ fmtD l ++ "\n") := by
      funext st; simp [exprNode]
    rw [h]; exact uniform_err _
theorem exprArgs_uniform : ∀ (n : Node) (first_arg : Bool), Uniform (exprArgs n first_arg)
  | .null, first_arg => by
    have h : exprArgs Node.null first_arg = fun st => st := by
      funext st; simp [exprArgs]
    rw [h]; exact uniform_ident
  | .mk nx l d, first_arg => by
    have hn := exprArgs_uniform nx false
    have hd := exprNode_uniform l d
    have h : exprArgs (Node.mk nx l d) first_arg = fun st =>
        exprArgs nx false (exprNode l d
          ((fun st0 : GenState => if first_arg then st0 else st0.out ", ") st)) := by
      funext st; simp [exprArgs]
    rw [h]
    have hsep : Uniform (fun st0 : GenState => if first_arg then st0 else st0.out ", ") := by
      cases first_arg
      · exact uniform_out _
      · exact uniform_ident
    have h4 := uniform_comp (uniform_comp hsep hd) hn
    exact h4
end

theorem assignPlain_uniform (name : String) (value : Node) : Uniform (assignPlain name value) := by
  show Uniform (fun st => (generateExpressionCode value (st.out (name ++ " = "))).out ";\n")
  have h4 := uniform_comp (uniform_comp (uniform_out (name ++ " = "))
    (generateExpressionCode_uniform value)) (uniform_out ";\n")
  exact h4

theorem validLoadArgs_cases (args : Node) :
    (∃ (cline : Int) (c : ℚ) (fline : Int) (f : String),
        args = .mk (.mk .null cline (.num c)) fline (.id f)) ∨
      (∀ (f : String) (c : ℚ) (fline cline : Int),
        args ≠ .mk (.mk .null cline (.num c)) fline (.id f)) := by
  by_cases h : ∃ (cline : Int) (c : ℚ) (fline : Int) (f : String),
      args = Node.mk (.mk .null cline (.num c)) fline (.id f)
  · exact Or.inl h
  · right
    intro f c fline cline he
    exact h ⟨cline, c, fline, f, he⟩

theorem assignLoadVector_uniform (indentStr : String) (lineno : Int) (name : String)
    (args : Node) : Uniform (assignLoadVector indentStr lineno name args) := by
  rcases validLoadArgs_cases args with ⟨cline, c, fline, f, rfl⟩ | hbad
  · have hset : Uniform (fun st : GenState =>
        match symtab_lookup st.globalSymTab name with
        | some _ =>
          { st with
            globalSymTab :=
              Option.map (fun t => t.setType name DataType.TYPE_VECTOR) st.globalSymTab }
        | none => st) := by
      refine uniform_branch name uniform_ident (uniform_setType name) ?_
      intro st
      cases hl : symtab_lookup st.globalSymTab name <;> simp
    have h4 := uniform_comp (uniform_comp (uniform_comp (uniform_comp (uniform_comp hset
      (uniform_out ("size_t " ++ name ++ "_rows = count_file_rows(\"" ++ f ++ "\");\n")))
      (uniform_out (indentStr ++ name ++ " = create_vector(" ++ name ++ "_rows);\n")))
      (uniform_out (indentStr ++ "if (" ++ name ++ "_rows > 0) \x7b\n")))
      (uniform_out (indentStr ++ "    read_double_column(\"" ++ f ++ "\", "
        ++ fmtD (castInt c) ++ ", " ++ name ++ ".data, " ++ name ++ ".size);\n")))
      (uniform_out (indentStr ++ "\x7d\n"))
    exact h4
  · have h : assignLoadVector indentStr lineno name args = fun s =>
        s.out ("/* Codegen Error: Invalid arguments for load_vector assignment on line "
          ++ fmtD lineno ++ " */\n") := by
      funext s; exact assignLoadVector_bad indentStr lineno name args hbad s
    rw [h]; exact uniform_out _

theorem assignValue_uniform (indentStr : String) (lineno : Int) (name : String)
    (value : Node) : Uniform (assignValue indentStr lineno name value) := by
  unfold assignValue
  split
  · split
    · exact assignLoadVector_uniform _ _ _ _
    · exact assignPlain_uniform _ _
  · exact assignPlain_uniform _ _

theorem stmtAssign_eq (indentStr : String) (lineno : Int) (name : String) (value : Node)
    (st : GenState) :
    stmtAssign indentStr lineno name value st =
      if (symtab_lookup st.globalSymTab name).isSome then
        assignValue indentStr lineno name value st
      else
        st.err ("Codegen Error line " ++ fmtD lineno
          ++ ": Assignment to undeclared identifier '" ++ name ++ "' (Internal Error?)\n") := by
  unfold stmtAssign assignValue
  cases hl : symtab_lookup st.globalSymTab name with
  | none => simp
  | some e => simp

theorem stmtAssign_uniform (indentStr : String) (lineno : Int) (name : String) (value : Node) :
    Uniform (stmtAssign indentStr lineno name value) :=
  uniform_branch name (uniform_err _) (assignValue_uniform indentStr lineno name value)
    (stmtAssign_eq indentStr lineno name value)

theorem stmtFuncCall_uniform (indentStr : String) (name : String) (args : Node) :
    Uniform (stmtFuncCall indentStr name args) := by
  unfold stmtFuncCall
  split
  · split
    · exact uniform_out _
    · exact uniform_out _
  split
  · split
    · exact uniform_out _
    · exact uniform_out _
  split
  · split
    · exact uniform_out _
    · exact uniform_out _
  split
  · split
    · exact uniform_comp (uniform_comp (uniform_comp (uniform_comp (uniform_comp
        (uniform_out _) (uniform_out _)) (uniform_out _)) (uniform_out _))
        (uniform_out _)) (uniform_out _)
    · exact uniform_out _
  split
  · split
    · exact uniform_out _
    · exact uniform_out _
  split
  · exact uniform_out _
  split
  · have h4 := uniform_comp (uniform_comp (uniform_out (name ++ "(")) (exprArgs_uniform args true))
      (uniform_out ");\n")
    exact h4
  · exact uniform_ident

mutual
theorem stmtNode_uniform (indentStr : String) :
    ∀ (l : Int) (d : NodeData) (k : Nat), Uniform (stmtNode indentStr l d k)
  | l, .assignOp name value, k => by
    have h : stmtNode indentStr l (NodeData.assignOp name value) k
        = stmtAssign indentStr l name value := by
      funext st; simp [stmtNode]
    rw [h]; exact stmtAssign_uniform _ _ _ _
  | l, .num dval, k => by
    have h : stmtNode indentStr l (NodeData.num dval) k
        = fun st => (exprNode l (.num dval) st).out ";\n" := by
      funext st; simp [stmtNode]
    rw [h]
    have h4 := uniform_comp (exprNode_uniform l (.num dval)) (uniform_out ";\n")
    exact h4
  | l, .id sval, k => by
    have h : stmtNode indentStr l (NodeData.id sval) k
        = fun st => (exprNode l (.id sval) st).out ";\n" := by
      funext st; simp [stmtNode]
    rw [h]
    have h4 := uniform_comp (exprNode_uniform l (.id sval)) (uniform_out ";\n")
    exact h4
  | l, .binOp op left right, k => by
    have h : stmtNode indentStr l (NodeData.binOp op left right) k
        = fun st => (exprNode l (.binOp op left right) st).out ";\n" := by
      funext st; simp [stmtNode]
    rw [h]
    have h4 := uniform_comp (exprNode_uniform l (.binOp op left right)) (uniform_out ";\n")
    exact h4
  | l, .unaryOp op operand, k => by
    have h : stmtNode indentStr l (NodeData.unaryOp op operand) k
        = fun st => (exprNode l (.unaryOp op operand) st).out ";\n" := by
      funext st; simp [stmtNode]
    rw [h]
    have h4 := uniform_comp (exprNode_uniform l (.unaryOp op operand)) (uniform_out ";\n")
    exact h4
  | l, .vec elements, k => by
    have h : stmtNode indentStr l (NodeData.vec elements) k
        = fun st => (exprNode l (.vec elements) st).out ";\n" := by
      funext st; simp [stmtNode]
    rw [h]
    have h4 := uniform_comp (exprNode_uniform l (.vec elements)) (uniform_out ";\n")
    exact h4
  | l, .ifStmt condition then_branch else_branch, k => by
    have ht := stmtList_uniform indentStr then_branch (k + 1)
    have he := stmtList_uniform indentStr else_branch (k + 1)
    have hc := generateExpressionCode_uniform condition
    have hi := emitIndent_uniform k
    have h3 := uniform_comp (uniform_comp (uniform_comp (uniform_comp
      (uniform_comp (uniform_out "if (") hc) (uniform_out ") \x7b\n")) ht) hi)
      (uniform_out "\x7d")
    cases hnull : else_branch.isNull with
    | true =>
      have h : stmtNode indentStr l (NodeData.ifStmt condition then_branch else_branch) k
          = fun st => ((emitIndent k (stmtList indentStr then_branch (k + 1)
              ((generateExpressionCode condition (st.out "if (")).out ") \x7b\n"))).out
                "\x7d").out "\n" := by
        funext st; simp [stmtNode, hnull]
      rw [h]
      have h4 := uniform_comp h3 (uniform_out "\n")
      exact h4
    | false =>
      have h : stmtNode indentStr l (NodeData.ifStmt condition then_branch else_branch) k
          = fun st => (emitIndent k (stmtList indentStr else_branch (k + 1)
              (((emitIndent k (stmtList indentStr then_branch (k + 1)
                ((generateExpressionCode condition (st.out "if (")).out ") \x7b\n"))).out
                  "\x7d").out " else \x7b\n"))).out "\x7d\n" := by
        funext st; simp [stmtNode, hnull]
      rw [h]
      have h4 := uniform_comp (uniform_comp (uniform_comp (uniform_comp h3
        (uniform_out " else \x7b\n")) he) hi) (uniform_out "\x7d\n")
      exact h4
  | l, .whileStmt condition body, k => by
    have hb := stmtList_uniform indentStr body (k + 1)
    have hc := generateExpressionCode_uniform condition
    have hi := emitIndent_uniform k
    have h : stmtNode indentStr l (NodeData.whileStmt condition body) k
        = fun st => (emitIndent k (stmtList indentStr body (k + 1)
            ((generateExpressionCode condition (st.out "while (")).out ") \x7b\n"))).out
              "\x7d\n" := by
      funext st; simp [stmtNode]
    rw [h]
    have h4 := uniform_comp (uniform_comp (uniform_comp (uniform_comp
      (uniform_comp (uniform_out "while (") hc) (uniform_out ") \x7b\n")) hb) hi)
      (uniform_out "\x7d\n")
    exact h4
  | l, .funcCall name args, k => by
    have h : stmtNode indentStr l (NodeData.funcCall name args) k
        = stmtFuncCall indentStr name args := by
      funext st; simp [stmtNode]
    rw [h]; exact stmtFuncCall_uniform _ _ _
theorem stmtList_uniform (indentStr : String) :
    ∀ (n : Node) (k : Nat), Uniform (stmtList indentStr n k)
  | .null, k => by
    have h : stmtList indentStr Node.null k = fun st => st := by
      funext st; simp [stmtList]
    rw [h]; exact uniform_ident
  | .mk nx l d, k => by
    have hn := stmtList_uniform indentStr nx k
    have hd := stmtNode_uniform indentStr l d k
    have hi := emitIndent_uniform k
    have h : stmtList indentStr (Node.mk nx l d) k = fun st =>
        stmtList indentStr nx k (stmtNode indentStr l d k (emitIndent k st)) := by
      funext st; simp [stmtList]
    rw [h]
    have h4 := uniform_comp (uniform_comp hi hd) hn
    exact h4
end

theorem generateStatementCode_uniform (indentStr : String) (n : Node) (k : Nat) :
    Uniform (generateStatementCode indentStr n k) := by
  cases n with
  | null =>
    have h : generateStatementCode indentStr Node.null k = fun st => st := by
      funext st; simp [generateStatementCode]
    rw [h]; exact uniform_ident
  | mk nx l d =>
    have h : generateStatementCode indentStr (Node.mk nx l d) k = fun st =>
        stmtNode indentStr l d k (emitIndent k st) := by
      funext st; simp [generateStatementCode]
    rw [h]
    have h4 := uniform_comp (emitIndent_uniform k) (stmtNode_uniform indentStr l d k)
    exact h4

/-- What a uniform step writes from a state is what it writes from the empty
streams on any table with the same names. -/
theorem uniform_text {f : GenState → GenState} (hf : Uniform f) (st : GenState)
    (g : Option SymTab) (h : SameNames st.globalSymTab g) :
    (f st).outfile = st.outfile ++ (f ⟨g, "", ""⟩).outfile ∧
      (f st).errfile = st.errfile ++ (f ⟨g, "", ""⟩).errfile := by
  obtain ⟨_, o, e, a1, a2, a3, a4⟩ := hf st ⟨g, "", ""⟩ h
  simp only [String.empty_append] at a2 a4
  rw [a1, a2, a3, a4]
  exact ⟨rfl, rfl⟩

/-- The statement loop writes, one after the other, what `generateStatementCode`
writes for each statement of the chain on its own, on any table with the same
names as the one the loop starts on. -/
theorem stmtList_text (indentStr : String) (k : Nat) (g : Option SymTab) :
    ∀ (n : Node) (st : GenState), SameNames st.globalSymTab g →
      (stmtList indentStr n k st).outfile = st.outfile ++ String.join ((chainNodes n).map
          (fun s => (generateStatementCode indentStr s k ⟨g, "", ""⟩).outfile)) ∧
        (stmtList indentStr n k st).errfile = st.errfile ++ String.join ((chainNodes n).map
          (fun s => (generateStatementCode indentStr s k ⟨g, "", ""⟩).errfile))
  | .null, st, _ => by
    simp [stmtList, chainNodes, strJoin_nil, String.append_empty]
  | .mk nx l d, st, h => by
    have hstep : stmtList indentStr (Node.mk nx l d) k st =
        stmtList indentStr nx k (generateStatementCode indentStr (Node.mk nx l d) k st) := by
      simp only [stmtList, generateStatementCode]
    have hk := generateStatementCode_keeps indentStr (Node.mk nx l d) k st
    have hs : SameNames (generateStatementCode indentStr (Node.mk nx l d) k st).globalSymTab g :=
      sameNames_trans (sameNames_symm (sameNames_of_upgraded hk)) h
    obtain ⟨r1, r2⟩ := stmtList_text indentStr k g nx _ hs
    obtain ⟨t1, t2⟩ := uniform_text (generateStatementCode_uniform indentStr (Node.mk nx l d) k)
      st g h
    rw [hstep, r1, r2, t1, t2]
    simp only [chainNodes, List.map_cons, strJoin_cons, String.append_assoc, and_self]

theorem appendOnly_of_frame {f : GenState → GenState} (h : ExprFrame f) : AppendOnly f := by
  intro st
  rw [h st]
  exact ⟨sameNames_refl _, _, _, rfl, rfl⟩

theorem appendOnly_of_uniform {f : GenState → GenState} (hu : Uniform f) (hk : KeepsTable f) :
    AppendOnly f := by
  intro st
  obtain ⟨_, o, e, a1, _, a3, _⟩ := hu st st (sameNames_refl _)
  exact ⟨sameNames_of_upgraded (hk st), o, e, a1, a3⟩

theorem appendOnly_out (s : String) : AppendOnly (fun st => st.out s) :=
  appendOnly_of_frame (exprFrame_out s)

theorem appendOnly_comp {f g : GenState → GenState} (hf : AppendOnly f) (hg : AppendOnly g) :
    AppendOnly (fun st => g (f st)) := by
  intro st
  obtain ⟨s1, o1, e1, a1, a2⟩ := hf st
  obtain ⟨s2, o2, e2, b1, b2⟩ := hg (f st)
  refine ⟨sameNames_trans s1 s2, o1 ++ o2, e1 ++ e2, ?_, ?_⟩
  · rw [b1, a1, String.append_assoc]
  · rw [b2, a2, String.append_assoc]

theorem marks_then {g : Option SymTab} {m d : String} {f f' : GenState → GenState}
    (hf : Marks g m d f) (hf' : AppendOnly f') : Marks g m d (fun st => f' (f st)) := by
  intro st hs
  obtain ⟨p, q, p', q', a1, a2⟩ := hf st hs
  obtain ⟨_, o, e, b1, b2⟩ := hf' (f st)
  refine ⟨p, q ++ o, p', q' ++ e, ?_, ?_⟩
  · rw [b1, a1]; simp only [String.append_assoc]
  · rw [b2, a2]; simp only [String.append_assoc]

theorem marks_after {g : Option SymTab} {m d : String} {f f' : GenState → GenState}
    (hf : AppendOnly f) (hf' : Marks g m d f') : Marks g m d (fun st => f' (f st)) := by
  intro st hs
  obtain ⟨s1, o, e, a1, a2⟩ := hf st
  obtain ⟨p, q, p', q', b1, b2⟩ := hf' (f st) (sameNames_trans (sameNames_symm s1) hs)
  refine ⟨o ++ p, q, e ++ p', q', ?_, ?_⟩
  · rw [b1, a1]; simp only [String.append_assoc]
  · rw [b2, a2]; simp only [String.append_assoc]

theorem marks_congr {g : Option SymTab} {m d : String} {f f' : GenState → GenState}
    (h : ∀ st : GenState, SameNames st.globalSymTab g → f st = f' st) (hf' : Marks g m d f') :
    Marks g m d f := by
  intro st hs
  rw [h st hs]
  exact hf' st hs

theorem lookup_none_of_sameNames {g g' : Option SymTab} (h : SameNames g' g) (s : String)
    (hn : symtab_lookup g s = none) : symtab_lookup g' s = none := by
  have := h s
  rw [hn] at this
  cases hl : symtab_lookup g' s with
  | none => rfl
  | some e => rw [hl] at this; cases this

theorem marks_id (g : Option SymTab) (l : Int) (s : String) (hn : symtab_lookup g s = none) :
    Marks g (undeclaredMarker s) (undeclaredDiag l s) (exprNode l (.id s)) := by
  intro st hs
  have hl := lookup_none_of_sameNames hs s hn
  refine ⟨"", "", "", "", ?_, ?_⟩
  · simp only [exprNode, hl, GenState.out, GenState.err, undeclaredMarker, String.empty_append,
      String.append_empty]
  · simp only [exprNode, hl, GenState.out, GenState.err, undeclaredDiag, String.empty_append,
      String.append_empty]

mutual
theorem exprIds_marks (g : Option SymTab) (l : Int) (s : String)
    (hn : symtab_lookup g s = none) :
    ∀ n : Node, (l, s) ∈ exprIds n →
      Marks g (undeclaredMarker s) (undeclaredDiag l s) (generateExpressionCode n)
  | .null => by
    intro h
    simp [exprIds] at h
  | .mk nx l0 d => by
    intro h
    simp only [exprIds] at h
    have he : generateExpressionCode (Node.mk nx l0 d) = exprNode l0 d := by
      funext st; simp [generateExpressionCode]
    rw [he]; exact exprIdsData_marks g l s hn l0 d h
theorem exprIdsData_marks (g : Option SymTab) (l : Int) (s : String)
    (hn : symtab_lookup g s = none) :
    ∀ (l0 : Int) (d : NodeData), (l, s) ∈ exprIdsData l0 d →
      Marks g (undeclaredMarker s) (undeclaredDiag l s) (exprNode l0 d)
  | l0, .id sval => by
    intro h
    simp only [exprIdsData, List.mem_singleton, Prod.mk.injEq] at h
    rw [← h.1, ← h.2]
    exact marks_id g l s hn
  | l0, .binOp op left right => by
    intro h
    simp only [exprIdsData, List.mem_append] at h
    have he : exprNode l0 (NodeData.binOp op left right) = fun st =>
        (generateExpressionCode right
          (emitBinOp op (generateExpressionCode left (st.out "(")))).out ")" := by
      funext st; simp [exprNode]
    rw [he]
    have al := appendOnly_of_frame (generateExpressionCode_frame left)
    have ar := appendOnly_of_frame (generateExpressionCode_frame right)
    have ao : AppendOnly (emitBinOp op) := by
      intro st
      rw [emitBinOp_eq]
      exact ⟨sameNames_refl _, _, _, rfl, rfl⟩
    rcases h with h | h
    · have hm := exprIds_marks g l s hn left h
      have h4 := marks_then (marks_then (marks_then (marks_after (appendOnly_out "(") hm)
        ao) ar) (appendOnly_out ")")
      exact h4
    · have hm := exprIds_marks g l s hn right h
      have h4 := marks_then (marks_after (appendOnly_comp (appendOnly_comp (appendOnly_out "(")
        al) ao) hm) (appendOnly_out ")")
      exact h4
  | l0, .unaryOp op operand => by
    intro h
    simp only [exprIdsData] at h
    have he : exprNode l0 (NodeData.unaryOp op operand) = fun st =>
        (generateExpressionCode operand (emitUnaryOp op (st.out "("))).out ")" := by
      funext st; simp [exprNode]
    rw [he]
    have ao : AppendOnly (emitUnaryOp op) := by
      intro st
      rw [emitUnaryOp_eq]
      exact ⟨sameNames_refl _, _, _, rfl, rfl⟩
    have hm := exprIds_marks g l s hn operand h
    have h4 := marks_then (marks_after (appendOnly_comp (appendOnly_out "(") ao) hm)
      (appendOnly_out ")")
    exact h4
  | l0, .funcCall name args => by
    intro h
    by_cases hname : name = "load_vector"
    · simp [exprIdsData, hname] at h
    · simp only [exprIdsData, hname, if_false] at h
      have he : exprNode l0 (NodeData.funcCall name args) = fun st =>
          (exprArgs args true (st.out (name ++ "("))).out ")" := by
        funext st; simp [exprNode, hname]
      rw [he]
      have hm := exprIdsArgs_marks g l s hn args true h
      have h4 := marks_then (marks_after (appendOnly_out (name ++ "(")) hm) (appendOnly_out ")")
      exact h4
  | l0, .num dval => by
    intro h
    simp [exprIdsData] at h
  | l0, .vec elements => by
    intro h
    simp [exprIdsData] at h
  | l0, .assignOp name value => by
    intro h
    simp [exprIdsData] at h
  | l0, .ifStmt c t e => by
    intro h
    simp [exprIdsData] at h
  | l0, .whileStmt c b => by
    intro h
    simp [exprIdsData] at h
theorem exprIdsArgs_marks (g : Option SymTab) (l : Int) (s : String)
    (hn : symtab_lookup g s = none) :
    ∀ (n : Node) (first_arg : Bool), (l, s) ∈ exprIdsArgs n →
      Marks g (undeclaredMarker s) (undeclaredDiag l s) (exprArgs n first_arg)
  | .null, first_arg => by
    intro h
    simp [exprIdsArgs] at h
  | .mk nx l0 d, first_arg => by
    intro h
    simp only [exprIdsArgs, List.mem_append] at h
    have he : exprArgs (Node.mk nx l0 d) first_arg = fun st =>
        exprArgs nx false (exprNode l0 d
          ((fun st0 : GenState => if first_arg then st0 else st0.out ", ") st)) := by
      funext st; simp [exprArgs]
    rw [he]
    have hsep : AppendOnly (fun st0 : GenState => if first_arg then st0 else st0.out ", ") := by
      cases first_arg
      · exact appendOnly_out _
      · exact appendOnly_of_frame exprFrame_ident
    have ad := appendOnly_of_frame (exprNode_frame l0 d)
    have an := appendOnly_of_frame (exprArgs_frame nx false)
    rcases h with h | h
    · have hm := exprIdsData_marks g l s hn l0 d h
      have h4 := marks_then (marks_after hsep hm) an
      exact h4
    · have hm := exprIdsArgs_marks g l s hn nx false h
      have h4 := marks_after (appendOnly_comp hsep ad) hm
      exact h4
end

theorem stmtFuncCall_generic (indentStr name : String) (args : Node)
    (h : name ∉ builtinNames) :
    stmtFuncCall indentStr name args =
      fun st => (exprArgs args true (st.out (name ++ "("))).out ");\n" := by
  simp only [builtinNames, List.mem_cons, List.mem_singleton, not_or, List.not_mem_nil,
    or_false] at h
  obtain ⟨h1, h2, h3, h4, h5, h6, h7⟩ := h
  funext st
  unfold stmtFuncCall
  simp [h1, h2, h3, h4, h5, h6, h7]

theorem assignValue_of_ids (indentStr : String) (lineno : Int) (name : String) (value : Node)
    (l : Int) (s : String) (h : (l, s) ∈ exprIds value) :
    assignValue indentStr lineno name value = assignPlain name value := by
  funext st
  unfold assignValue
  split
  · rename_i vnext vline fname args
    by_cases hf : fname = "load_vector"
    · simp [exprIds, exprIdsData, hf] at h
    · simp only [hf, if_false]
  · rfl

theorem stmtList_appendOnly (indentStr : String) (n : Node) (k : Nat) :
    AppendOnly (stmtList indentStr n k) :=
  appendOnly_of_uniform (stmtList_uniform indentStr n k) (stmtList_keeps indentStr n k)

theorem emitIndent_appendOnly (k : Nat) : AppendOnly (emitIndent k) :=
  appendOnly_of_frame (emitIndent_frame k)

mutual
theorem stmtIdsData_marks (indentStr : String) (g : Option SymTab) (l : Int) (s : String)
    (hn : symtab_lookup g s = none) :
    ∀ (l0 : Int) (d : NodeData) (k : Nat), (l, s) ∈ stmtIdsData g l0 d →
      Marks g (undeclaredMarker s) (undeclaredDiag l s) (stmtNode indentStr l0 d k)
  | l0, .assignOp name value, k => by
    intro h
    simp only [stmtIdsData] at h
    cases hl : (symtab_lookup g name).isSome with
    | false => simp [hl] at h
    | true =>
      simp only [hl, if_true] at h
      have hm := exprIds_marks g l s hn value h
      have h4 := marks_then (marks_after (appendOnly_out (name ++ " = ")) hm)
        (appendOnly_out ";\n")
      refine marks_congr ?_ h4
      intro st hs
      have hst : (symtab_lookup st.globalSymTab name).isSome = true := by
        rw [hs name]; exact hl
      simp only [stmtNode, stmtAssign_eq, hst, if_true,
        assignValue_of_ids indentStr l0 name value l s h, assignPlain]
  | l0, .num dval, k => by
    intro h
    simp [stmtIdsData, exprIdsData] at h
  | l0, .vec elements, k => by
    intro h
    simp [stmtIdsData, exprIdsData] at h
  | l0, .id sval, k => by
    intro h
    simp only [stmtIdsData] at h
    have he : stmtNode indentStr l0 (NodeData.id sval) k
        = fun st => (exprNode l0 (.id sval) st).out ";\n" := by
      funext st; simp [stmtNode]
    rw [he]
    have h4 := marks_then (exprIdsData_marks g l s hn l0 (.id sval) h) (appendOnly_out ";\n")
    exact h4
  | l0, .binOp op left right, k => by
    intro h
    simp only [stmtIdsData] at h
    have he : stmtNode indentStr l0 (NodeData.binOp op left right) k
        = fun st => (exprNode l0 (.binOp op left right) st).out ";\n" := by
      funext st; simp [stmtNode]
    rw [he]
    have h4 := marks_then (exprIdsData_marks g l s hn l0 (.binOp op left right) h)
      (appendOnly_out ";\n")
    exact h4
  | l0, .unaryOp op operand, k => by
    intro h
    simp only [stmtIdsData] at h
    have he : stmtNode indentStr l0 (NodeData.unaryOp op operand) k
        = fun st => (exprNode l0 (.unaryOp op operand) st).out ";\n" := by
      funext st; simp [stmtNode]
    rw [he]
    have h4 := marks_then (exprIdsData_marks g l s hn l0 (.unaryOp op operand) h)
      (appendOnly_out ";\n")
    exact h4
  | l0, .ifStmt condition then_branch else_branch, k => by
    intro h
    simp only [stmtIdsData, List.mem_append] at h
    have ac := appendOnly_of_frame (generateExpressionCode_frame condition)
    have at1 := stmtList_appendOnly indentStr then_branch (k + 1)
    have ae := stmtList_appendOnly indentStr else_branch (k + 1)
    have ai := emitIndent_appendOnly k
    -- the part up to the closing brace of the then block
    have a3 := appendOnly_comp (appendOnly_comp (appendOnly_comp (appendOnly_comp
      (appendOnly_comp (appendOnly_out "if (") ac) (appendOnly_out ") \x7b\n")) at1) ai)
      (appendOnly_out "\x7d")
    have m3 : (l, s) ∈ exprIds condition ∨ (l, s) ∈ stmtIds g then_branch →
        Marks g (undeclaredMarker s) (undeclaredDiag l s)
          (fun st => (emitIndent k (stmtList indentStr then_branch (k + 1)
            ((generateExpressionCode condition (st.out "if (")).out ") \x7b\n"))).out "\x7d") := by
      intro hc
      rcases hc with hc | hc
      · have hm := exprIds_marks g l s hn condition hc
        have h4 := marks_then (marks_then (marks_then (marks_then
          (marks_after (appendOnly_out "if (") hm) (appendOnly_out ") \x7b\n")) at1) ai)
          (appendOnly_out "\x7d")
        exact h4
      · have hm := stmtIds_marks indentStr g l s hn then_branch (k + 1) hc
        have h4 := marks_then (marks_then (marks_after (appendOnly_comp
          (appendOnly_comp (appendOnly_out "if (") ac) (appendOnly_out ") \x7b\n")) hm) ai)
          (appendOnly_out "\x7d")
        exact h4
    cases hnull : else_branch.isNull with
    | true =>
      have he : stmtNode indentStr l0 (NodeData.ifStmt condition then_branch else_branch) k
          = fun st => ((emitIndent k (stmtList indentStr then_branch (k + 1)
              ((generateExpressionCode condition (st.out "if (")).out ") \x7b\n"))).out
                "\x7d").out "\n" := by
        funext st; simp [stmtNode, hnull]
      rw [he]
      have hen : stmtIds g else_branch = [] := by
        cases else_branch with
        | null => simp [stmtIds]
        | mk a b c => simp [Node.isNull] at hnull
      rw [hen] at h
      simp only [List.not_mem_nil, or_false] at h
      have h4 := marks_then (m3 h) (appendOnly_out "\n")
      exact h4
    | false =>
      have he : stmtNode indentStr l0 (NodeData.ifStmt condition then_branch else_branch) k
          = fun st => (emitIndent k (stmtList indentStr else_branch (k + 1)
              (((emitIndent k (stmtList indentStr then_branch (k + 1)
                ((generateExpressionCode condition (st.out "if (")).out ") \x7b\n"))).out
                  "\x7d").out " else \x7b\n"))).out "\x7d\n" := by
        funext st; simp [stmtNode, hnull]
      rw [he]
      rcases h with h | h | h
      · have h4 := marks_then (marks_then (marks_then (marks_then (m3 (Or.inl h))
          (appendOnly_out " else \x7b\n")) ae) ai) (appendOnly_out "\x7d\n")
        exact h4
      · have h4 := marks_then (marks_then (marks_then (marks_then (m3 (Or.inr h))
          (appendOnly_out " else \x7b\n")) ae) ai) (appendOnly_out "\x7d\n")
        exact h4
      · have hm := stmtIds_marks indentStr g l s hn else_branch (k + 1) h
        have h4 := marks_then (marks_then (marks_after (appendOnly_comp a3
          (appendOnly_out " else \x7b\n")) hm) ai) (appendOnly_out "\x7d\n")
        exact h4
  | l0, .whileStmt condition body, k => by
    intro h
    simp only [stmtIdsData, List.mem_append] at h
    have ac := appendOnly_of_frame (generateExpressionCode_frame condition)
    have ab := stmtList_appendOnly indentStr body (k + 1)
    have ai := emitIndent_appendOnly k
    have he : stmtNode indentStr l0 (NodeData.whileStmt condition body) k
        = fun st => (emitIndent k (stmtList indentStr body (k + 1)
            ((generateExpressionCode condition (st.out "while (")).out ") \x7b\n"))).out
              "\x7d\n" := by
      funext st; simp [stmtNode]
    rw [he]
    rcases h with h | h
    · have hm := exprIds_marks g l s hn condition h
      have h4 := marks_then (marks_then (marks_then (marks_then
        (marks_after (appendOnly_out "while (") hm) (appendOnly_out ") \x7b\n")) ab) ai)
        (appendOnly_out "\x7d\n")
      exact h4
    · have hm := stmtIds_marks indentStr g l s hn body (k + 1) h
      have h4 := marks_then (marks_then (marks_after (appendOnly_comp
        (appendOnly_comp (appendOnly_out "while (") ac) (appendOnly_out ") \x7b\n")) hm) ai)
        (appendOnly_out "\x7d\n")
      exact h4
  | l0, .funcCall name args, k => by
    intro h
    by_cases hb : name ∈ builtinNames
    · simp [stmtIdsData, hb] at h
    · simp only [stmtIdsData, hb, if_false] at h
      have he : stmtNode indentStr l0 (NodeData.funcCall name args) k
          = fun st => (exprArgs args true (st.out (name ++ "("))).out ");\n" := by
        rw [← stmtFuncCall_generic indentStr name args hb]
        funext st; simp [stmtNode]
      rw [he]
      have hm := exprIdsArgs_marks g l s hn args true h
      have h4 := marks_then (marks_after (appendOnly_out (name ++ "(")) hm)
        (appendOnly_out ");\n")
      exact h4
theorem stmtIds_marks (indentStr : String) (g : Option SymTab) (l : Int) (s : String)
    (hn : symtab_lookup g s = none) :
    ∀ (n : Node) (k : Nat), (l, s) ∈ stmtIds g n →
      Marks g (undeclaredMarker s) (undeclaredDiag l s) (stmtList indentStr n k)
  | .null, k => by
    intro h
    simp [stmtIds] at h
  | .mk nx l0 d, k => by
    intro h
    simp only [stmtIds, List.mem_append] at h
    have he : stmtList indentStr (Node.mk nx l0 d) k = fun st =>
        stmtList indentStr nx k (stmtNode indentStr l0 d k (emitIndent k st)) := by
      funext st; simp [stmtList]
    rw [he]
    have ai := emitIndent_appendOnly k
    have an := stmtList_appendOnly indentStr nx k
    have ad : AppendOnly (stmtNode indentStr l0 d k) :=
      appendOnly_of_uniform (stmtNode_uniform indentStr l0 d k) (stmtNode_keeps indentStr l0 d k)
    rcases h with h | h
    · have hm := stmtIdsData_marks indentStr g l s hn l0 d k h
      have h4 := marks_then (marks_after ai hm) an
      exact h4
    · have hm := stmtIds_marks indentStr g l s hn nx k h
      have h4 := marks_after (appendOnly_comp ai ad) hm
      exact h4
end

theorem isNameChar_ne (c : Char) (h : isNameChar c = true) :
    c ≠ ' ' ∧ c ≠ ')' ∧ c ≠ '(' ∧ c ≠ '-' := by
  refine ⟨?_, ?_, ?_, ?_⟩ <;> rintro rfl <;> exact absurd h (by decide)

theorem delim_nil : Delim [] := by
  intro c rest h
  cases h

theorem delim_space (rest : List Char) : Delim (' ' :: rest) := by
  intro c r h
  cases h
  exact Or.inl rfl

theorem delim_close (rest : List Char) : Delim (')' :: rest) := by
  intro c r h
  cases h
  exact Or.inr rfl

/-- Two names followed by delimited texts: if the concatenations agree, so do
the names and the texts. -/
theorem name_prefix_unique :
    ∀ (l1 l2 s t : List Char), (∀ c ∈ l1, isNameChar c = true) →
      (∀ c ∈ l2, isNameChar c = true) → Delim s → Delim t → l1 ++ s = l2 ++ t →
      l1 = l2 ∧ s = t
  | [], [], s, t, _, _, _, _, h => ⟨rfl, h⟩
  | [], c :: l2, s, t, _, h2, hs, _, h => by
    rcases hs c (l2 ++ t) h with hc | hc
    · exact absurd hc (isNameChar_ne c (h2 c (by simp))).1
    · exact absurd hc (isNameChar_ne c (h2 c (by simp))).2.1
  | c :: l1, [], s, t, h1, _, _, ht, h => by
    rcases ht c (l1 ++ s) h.symm with hc | hc
    · exact absurd hc (isNameChar_ne c (h1 c (by simp))).1
    · exact absurd hc (isNameChar_ne c (h1 c (by simp))).2.1
  | c :: l1, c' :: l2, s, t, h1, h2, hs, ht, h => by
    simp only [List.cons_append, List.cons.injEq] at h
    obtain ⟨r1, r2⟩ := name_prefix_unique l1 l2 s t (fun x hx => h1 x (by simp [hx]))
      (fun x hx => h2 x (by simp [hx])) hs ht h.2
    exact ⟨by rw [h.1, r1], r2⟩

theorem binOp_text_cases (op : OpType) (h : op ≠ OpType.OP_UMINUS) :
    ∃ o : Char, (emitBinOp op ⟨none, "", ""⟩).outfile.data = [' ', o, ' '] ∧
      (op = OpType.OP_PLUS ∧ o = '+' ∨ op = OpType.OP_STAR ∧ o = '*' ∨
        op = OpType.OP_MINUS ∧ o = '-' ∨ op = OpType.OP_DIV ∧ o = '/') := by
  cases op
  · exact ⟨'+', rfl, Or.inl ⟨rfl, rfl⟩⟩
  · exact ⟨'*', rfl, Or.inr (Or.inl ⟨rfl, rfl⟩)⟩
  · exact ⟨'-', rfl, Or.inr (Or.inr (Or.inl ⟨rfl, rfl⟩))⟩
  · exact ⟨'/', rfl, Or.inr (Or.inr (Or.inr ⟨rfl, rfl⟩))⟩
  · exact absurd rfl h

theorem ok_var {g : Option SymTab} {name : String} (h : (Arith.var name).ok g = true) :
    (symtab_lookup g name).isSome = true ∧ ∀ c ∈ name.data, isNameChar c = true := by
  simp only [Arith.ok, Bool.and_eq_true, List.all_eq_true] at h
  exact h

theorem ok_bin {g : Option SymTab} {op : OpType} {l r : Arith}
    (h : (Arith.bin op l r).ok g = true) :
    op ≠ OpType.OP_UMINUS ∧ l.ok g = true ∧ r.ok g = true := by
  simp only [Arith.ok, Bool.and_eq_true, decide_eq_true_eq] at h
  exact h

/-- The text of a well-formed tree followed by a delimited text does not start
with a minus sign. -/
theorem render_head (g : Option SymTab) (a : Arith) (ha : a.ok g = true) (s : List Char)
    (hs : Delim s) (c : Char) (rest : List Char)
    (h : a.render ++ s = c :: rest) : c ≠ '-' := by
  cases a with
  | var name =>
    obtain ⟨_, hc⟩ := ok_var ha
    simp only [Arith.render] at h
    cases hd : name.data with
    | nil =>
      rw [hd] at h
      rcases hs c rest h with rfl | rfl <;> decide
    | cons x xs =>
      rw [hd] at h
      simp only [List.cons_append, List.cons.injEq] at h
      rw [← h.1]
      exact (isNameChar_ne x (hc x (by simp [hd]))).2.2.2
  | bin op l r =>
    simp only [Arith.render, List.cons_append, List.cons.injEq] at h
    rw [← h.1]
    decide
  | neg e =>
    simp only [Arith.render, List.cons_append, List.cons.injEq] at h
    rw [← h.1]
    decide

/-- The text of a well-formed tree determines the tree: if the texts of two
trees, each followed by a delimited text, agree, then the trees are equal and
so are the texts that follow. -/
theorem render_inj (g : Option SymTab) :
    ∀ (a b : Arith), a.ok g = true → b.ok g = true → ∀ (s t : List Char), Delim s → Delim t →
      a.render ++ s = b.render ++ t → a = b ∧ s = t
  | .var x, .var y, ha, hb, s, t, hs, ht, h => by
    obtain ⟨r1, r2⟩ := name_prefix_unique x.data y.data s t (ok_var ha).2 (ok_var hb).2 hs ht h
    exact ⟨by rw [String.ext r1], r2⟩
  | .var x, .bin op l r, ha, _, s, t, hs, _, h => by
    exfalso
    simp only [Arith.render, List.cons_append] at h
    cases hd : x.data with
    | nil =>
      rw [hd] at h
      rcases hs _ _ h with hc | hc <;> exact absurd hc (by decide)
    | cons c cs =>
      rw [hd] at h
      simp only [List.cons_append, List.cons.injEq] at h
      exact (isNameChar_ne c ((ok_var ha).2 c (by simp [hd]))).2.2.1 h.1
  | .var x, .neg e, ha, _, s, t, hs, _, h => by
    exfalso
    simp only [Arith.render, List.cons_append] at h
    cases hd : x.data with
    | nil =>
      rw [hd] at h
      rcases hs _ _ h with hc | hc <;> exact absurd hc (by decide)
    | cons c cs =>
      rw [hd] at h
      simp only [List.cons_append, List.cons.injEq] at h
      exact (isNameChar_ne c ((ok_var ha).2 c (by simp [hd]))).2.2.1 h.1
  | .bin op l r, .var y, _, hb, s, t, _, ht, h => by
    exfalso
    simp only [Arith.render, List.cons_append] at h
    cases hd : y.data with
    | nil =>
      rw [hd] at h
      rcases ht _ _ h.symm with hc | hc <;> exact absurd hc (by decide)
    | cons c cs =>
      rw [hd] at h
      simp only [List.cons_append, List.cons.injEq] at h
      exact (isNameChar_ne c ((ok_var hb).2 c (by simp [hd]))).2.2.1 h.1.symm
  | .neg e, .var y, _, hb, s, t, _, ht, h => by
    exfalso
    simp only [Arith.render, List.cons_append] at h
    cases hd : y.data with
    | nil =>
      rw [hd] at h
      rcases ht _ _ h.symm with hc | hc <;> exact absurd hc (by decide)
    | cons c cs =>
      rw [hd] at h
      simp only [List.cons_append, List.cons.injEq] at h
      exact (isNameChar_ne c ((ok_var hb).2 c (by simp [hd]))).2.2.1 h.1.symm
  | .bin op l r, .bin op' l' r', ha, hb, s, t, hs, ht, h => by
    obtain ⟨hop, hl, hr⟩ := ok_bin ha
    obtain ⟨hop', hl', hr'⟩ := ok_bin hb
    obtain ⟨o, ho, hcase⟩ := binOp_text_cases op hop
    obtain ⟨o', ho', hcase'⟩ := binOp_text_cases op' hop'
    simp only [Arith.render, List.cons_append, List.cons.injEq, true_and, ho, ho',
      List.append_assoc] at h
    obtain ⟨e1, h1⟩ := render_inj g l l' hl hl' _ _ (delim_space _) (delim_space _) h
    simp only [List.cons.injEq, true_and] at h1
    obtain ⟨e2, h2⟩ := render_inj g r r' hr hr' _ _ (delim_close _) (delim_close _) h1.2
    simp only [List.cons_append, List.nil_append, List.cons.injEq, true_and] at h2
    have eop : op = op' := by
      have hoo := h1.1
      rcases hcase with ⟨a1, a2⟩ | ⟨a1, a2⟩ | ⟨a1, a2⟩ | ⟨a1, a2⟩ <;>
        rcases hcase' with ⟨b1, b2⟩ | ⟨b1, b2⟩ | ⟨b1, b2⟩ | ⟨b1, b2⟩ <;>
        first
          | (rw [a2, b2] at hoo; exact absurd hoo (by decide))
          | (rw [a1, b1])
    exact ⟨by rw [e1, e2, eop], h2⟩
  | .bin op l r, .neg e, ha, _, s, t, _, _, h => by
    exfalso
    obtain ⟨hop, hl, _⟩ := ok_bin ha
    obtain ⟨o, ho, _⟩ := binOp_text_cases op hop
    simp only [Arith.render, List.cons_append, List.cons.injEq, true_and, ho,
      List.append_assoc] at h
    exact render_head g l hl _ (delim_space _) _ _ h rfl
  | .neg e, .bin op l r, _, hb, s, t, _, _, h => by
    exfalso
    obtain ⟨hop, hl, _⟩ := ok_bin hb
    obtain ⟨o, ho, _⟩ := binOp_text_cases op hop
    simp only [Arith.render, List.cons_append, List.cons.injEq, true_and, ho,
      List.append_assoc] at h
    exact render_head g l hl _ (delim_space _) _ _ h.symm rfl
  | .neg e, .neg e', ha, hb, s, t, hs, ht, h => by
    simp only [Arith.render, List.cons_append, List.cons.injEq, true_and,
      List.append_assoc] at h
    have ha' : e.ok g = true := by simpa [Arith.ok] using ha
    have hb' : e'.ok g = true := by simpa [Arith.ok] using hb
    obtain ⟨e1, h1⟩ := render_inj g e e' ha' hb' _ _ (delim_close _) (delim_close _) h
    simp only [List.cons_append, List.nil_append, List.cons.injEq, true_and] at h1
    exact ⟨by rw [e1], h1⟩

theorem toArithData_binOp_inv (op : OpType) (left right : Node) (t : Arith)
    (h : toArithData (.binOp op left right) = some t) :
    ∃ a b, toArith left = some a ∧ toArith right = some b ∧ t = .bin op a b := by
  simp only [toArithData] at h
  split at h
  · cases h
  · cases hl : toArith left with
    | none => simp [hl] at h
    | some a =>
      cases hr : toArith right with
      | none => simp [hl, hr] at h
      | some b =>
        simp only [hl, hr, Option.some_bind, Option.map_some', Option.some.injEq] at h
        exact ⟨a, b, rfl, rfl, h.symm⟩

theorem toArithData_unaryOp_inv (op : OpType) (operand : Node) (t : Arith)
    (h : toArithData (.unaryOp op operand) = some t) :
    op = OpType.OP_UMINUS ∧ ∃ a, toArith operand = some a ∧ t = .neg a := by
  simp only [toArithData] at h
  split at h
  · rename_i hop
    cases ho : toArith operand with
    | none => simp [ho] at h
    | some a =>
      simp only [ho, Option.map_some', Option.some.injEq] at h
      exact ⟨hop, a, rfl, h.symm⟩
  · cases h

mutual
theorem exprText_render (g : Option SymTab) :
    ∀ (n : Node) (t : Arith), toArith n = some t → t.ok g = true →
      (exprText g n).data = t.render
  | .null, t => by
    intro h
    simp [toArith] at h
  | .mk nx l d, t => by
    intro h ho
    rw [exprText_mk]
    simp only [toArith] at h
    exact exprNode_render g l d t h ho
theorem exprNode_render (g : Option SymTab) :
    ∀ (l : Int) (d : NodeData) (t : Arith), toArithData d = some t → t.ok g = true →
      (exprNode l d ⟨g, "", ""⟩).outfile.data = t.render
  | l, .id sval, t => by
    intro h ho
    simp only [toArithData, Option.some.injEq] at h
    subst h
    obtain ⟨hs, _⟩ := ok_var ho
    cases hl : symtab_lookup g sval with
    | none => rw [hl] at hs; cases hs
    | some e => simp [exprNode, hl, GenState.out, Arith.render]
  | l, .binOp op left right, t => by
    intro h ho
    obtain ⟨a, b, hl, hr, rfl⟩ := toArithData_binOp_inv op left right t h
    obtain ⟨_, hoa, hob⟩ := ok_bin ho
    have ht := exprText_binOp g .null l op left right
    rw [exprText_mk] at ht
    rw [ht]
    simp only [String.data_append, exprText_render g left a hl hoa,
      exprText_render g right b hr hob, Arith.render]
    rfl
  | l, .unaryOp op operand, t => by
    intro h ho
    obtain ⟨rfl, a, ha, rfl⟩ := toArithData_unaryOp_inv op operand t h
    have hoa : a.ok g = true := by simpa [Arith.ok] using ho
    have ht := exprText_unaryOp g .null l OpType.OP_UMINUS operand
    rw [exprText_mk] at ht
    rw [ht]
    simp only [String.data_append, exprText_render g operand a ha hoa, Arith.render]
    rfl
  | l, .num dval, t => by
    intro h
    simp [toArithData] at h
  | l, .vec elements, t => by
    intro h
    simp [toArithData] at h
  | l, .assignOp name value, t => by
    intro h
    simp [toArithData] at h
  | l, .ifStmt c t1 e, t => by
    intro h
    simp [toArithData] at h
  | l, .whileStmt c b, t => by
    intro h
    simp [toArithData] at h
  | l, .funcCall name args, t => by
    intro h
    simp [toArithData] at h
end

/-- What the switch of `generateStatementCode` writes from a state is what it
writes from the empty streams on any table with the same names. -/
theorem stmtNode_text (indentStr : String) (l : Int) (d : NodeData) (k : Nat) (st : GenState)
    (g : Option SymTab) (h : SameNames st.globalSymTab g) :
    (stmtNode indentStr l d k st).outfile =
        st.outfile ++ (stmtNode indentStr l d k ⟨g, "", ""⟩).outfile ∧
      (stmtNode indentStr l d k st).errfile =
        st.errfile ++ (stmtNode indentStr l d k ⟨g, "", ""⟩).errfile :=
  uniform_text (stmtNode_uniform indentStr l d k) st g h

/-- The text of a statement is the indentation followed by the text of its
switch. -/
theorem generateStatementCode_indent (indentStr : String) (nx : Node) (l : Int) (d : NodeData)
    (k : Nat) (g : Option SymTab) :
    (generateStatementCode indentStr (.mk nx l d) k ⟨g, "", ""⟩).outfile =
      spaces (4 * k) ++ (stmtNode indentStr l d k ⟨g, "", ""⟩).outfile := by
  have h := (stmtNode_text indentStr l d k ⟨g, "" ++ spaces (4 * k), ""⟩ g (sameNames_refl g)).1
  simp only [generateStatementCode, emitIndent_eq, GenState.out]
  rw [h]
  simp

/-- The nodes of a chain are nodes, not NULL. -/
theorem chainNodes_mk : ∀ (n s : Node), s ∈ chainNodes n →
    ∃ (nx : Node) (l : Int) (d : NodeData), s = .mk nx l d
  | .null, s, h => by simp [chainNodes] at h
  | .mk nx l d, s, h => by
    simp only [chainNodes, List.mem_cons] at h
    rcases h with h | h
    · exact ⟨nx, l, d, h⟩
    · exact chainNodes_mk nx s h

/-- A block of statements after an opening line: the texts of its statements,
each as it is on its own on the table `g`. -/
theorem stmtList_block (indentStr : String) (k : Nat) (body : Node) (g : Option SymTab)
    (o e : String) :
    (stmtList indentStr body k ⟨g, o, e⟩).outfile = o ++ String.join ((chainNodes body).map
        (fun s => (generateStatementCode indentStr s k ⟨g, "", ""⟩).outfile)) ∧
      (stmtList indentStr body k ⟨g, o, e⟩).errfile = e ++ String.join ((chainNodes body).map
        (fun s => (generateStatementCode indentStr s k ⟨g, "", ""⟩).errfile)) ∧
      SameNames (stmtList indentStr body k ⟨g, o, e⟩).globalSymTab g :=
  ⟨(stmtList_text indentStr k g body ⟨g, o, e⟩ (sameNames_refl g)).1,
   (stmtList_text indentStr k g body ⟨g, o, e⟩ (sameNames_refl g)).2,
   sameNames_symm (sameNames_of_upgraded (stmtList_keeps indentStr body k ⟨g, o, e⟩))⟩

theorem join_intersperse (sep : String) : ∀ (rest : List String) (a : String),
    String.join (List.intersperse sep (a :: rest)) =
      a ++ String.join (rest.map (fun x => sep ++ x))
  | [], a => by
    simp [List.intersperse, strJoin_cons, strJoin_nil]
  | b :: r, a => by
    rw [List.intersperse_cons_cons, strJoin_cons, strJoin_cons, join_intersperse sep r b,
      List.map_cons, strJoin_cons, String.append_assoc]

/-- The argument loop after the first argument writes each argument's text
behind a separator. -/
theorem exprArgs_rest_text (g : Option SymTab) : ∀ n : Node,
    (exprArgs n false ⟨g, "", ""⟩).outfile =
      String.join ((chainNodes n).map (fun a => ", " ++ exprText g a))
  | .null => by simp [exprArgs, chainNodes, strJoin_nil]
  | .mk nx l d => by
    have h : exprArgs (.mk nx l d) false ⟨g, "", ""⟩ =
        exprArgs nx false (exprNode l d ((⟨g, "", ""⟩ : GenState).out ", ")) := by
      simp [exprArgs]
    rw [h, exprArgs_eq, exprNode_frame l d _]
    simp only [GenState.out, chainNodes, List.map_cons, strJoin_cons, exprText_mk,
      exprArgs_rest_text g nx, String.empty_append, String.append_assoc]

/-- The argument loop writes the texts of the arguments in order, separated by
a comma and a space. -/
theorem exprArgs_text (g : Option SymTab) (n : Node) :
    (exprArgs n true ⟨g, "", ""⟩).outfile =
      String.join (List.intersperse ", " ((chainNodes n).map (exprText g))) := by
  cases n with
  | null => simp [exprArgs, chainNodes, strJoin_nil]
  | mk nx l d =>
    have h : exprArgs (.mk nx l d) true ⟨g, "", ""⟩ =
        exprArgs nx false (exprNode l d ⟨g, "", ""⟩) := by
      simp [exprArgs]
    have hg : (exprNode l d ⟨g, "", ""⟩).globalSymTab = g := by
      rw [exprNode_frame l d _]
    rw [h, exprArgs_eq, chainNodes, List.map_cons, join_intersperse, List.map_map, hg]
    simp only [exprArgs_rest_text g nx, exprText_mk, Function.comp_def]

/-- An argument list with no argument, with more than one, or with one that is
not an identifier is not a single identifier. -/
theorem not_single_id (args : Node)
    (hbad : args = .null ∨
      (∃ (n2 : Node) (l2 : Int) (d2 : NodeData) (l1 : Int) (d1 : NodeData),
        args = .mk (.mk n2 l2 d2) l1 d1) ∨
      (∃ (l1 : Int) (d1 : NodeData), args = .mk .null l1 d1 ∧ d1.type ≠ NodeType.NODE_ID)) :
    ∀ (l : Int) (s : String), args ≠ .mk .null l (.id s) := by
  intro l s he
  rcases hbad with h | ⟨n2, l2, d2, l1, d1, h⟩ | ⟨l1, d1, h, ht⟩
  · rw [h] at he; cases he
  · rw [h] at he; cases he
  · rw [h] at he
    cases he
    exact ht rfl

/-- Storing into the slot added at the end of a list. -/
theorem store_last (x y : Node) : ∀ elements : List Node,
    (elements ++ [y]).set elements.length x = elements ++ [x]
  | [] => rfl
  | a :: rest => by
    simp only [List.cons_append, List.length_cons, List.set_cons_succ, store_last x y rest]

/-- Appending a node to a vector literal. -/
theorem appendToVec_vec (vnext : Node) (vline : Int) (elements : List Node) (x : Node)
    (errfile : String) (h : x ≠ Node.null) :
    appendToVec (.mk vnext vline (.vec elements)) x errfile =
      (.mk vnext vline (.vec (elements ++ [x])), errfile) := by
  cases x with
  | null => exact absurd rfl h
  | mk enext elineno edata =>
    simp only [appendToVec, Nat.add_sub_cancel]
    rw [store_last]

theorem appendAll_vec (vnext : Node) (vline : Int) (errfile : String) :
    ∀ (es elements : List Node), (∀ x ∈ es, x ≠ Node.null) →
      appendAll (.mk vnext vline (.vec elements), errfile) es =
        (.mk vnext vline (.vec (elements ++ es)), errfile)
  | [], elements, _ => by simp [appendAll]
  | e :: rest, elements, h => by
    have he : e ≠ Node.null := h e (List.mem_cons_self _ _)
    have hr : ∀ x ∈ rest, x ≠ Node.null := fun x hx => h x (List.mem_cons_of_mem _ hx)
    simp only [appendAll]
    rw [appendToVec_vec vnext vline elements e errfile he,
      appendAll_vec vnext vline errfile rest (elements ++ [e]) hr]
    simp

/-! ### Which entries a code-generation pass upgrades -/

theorem upgradedIn_refl (T : List String) (e : Symbol) : e.UpgradedIn T e :=
  ⟨rfl, rfl, Or.inl rfl⟩

theorem upgradedIn_trans {T : List String} {a b c : Symbol} (h1 : a.UpgradedIn T b)
    (h2 : b.UpgradedIn T c) : a.UpgradedIn T c := by
  obtain ⟨n1, l1, t1⟩ := h1
  obtain ⟨n2, l2, t2⟩ := h2
  refine ⟨n2.trans n1, l2.trans l1, ?_⟩
  rcases t2 with t2 | ⟨m2, t2⟩
  · rcases t1 with t1 | ⟨m1, t1⟩
    · exact Or.inl (t2.trans t1)
    · exact Or.inr ⟨m1, t2.trans t1⟩
  · exact Or.inr ⟨n1 ▸ m2, t2⟩

theorem forall₂_upgradedIn_refl (T : List String) (l : List Symbol) :
    List.Forall₂ (Symbol.UpgradedIn T) l l := by
  induction l with
  | nil => exact List.Forall₂.nil
  | cons c rest ih => exact List.Forall₂.cons (upgradedIn_refl T c) ih

theorem forall₂_upgradedIn_trans {T : List String} {l1 l2 l3 : List Symbol}
    (h1 : List.Forall₂ (Symbol.UpgradedIn T) l1 l2)
    (h2 : List.Forall₂ (Symbol.UpgradedIn T) l2 l3) :
    List.Forall₂ (Symbol.UpgradedIn T) l1 l3 := by
  induction h1 generalizing l3 with
  | nil => cases h2; exact List.Forall₂.nil
  | cons hab _ ih =>
    cases h2 with
    | cons hbc hrest => exact List.Forall₂.cons (upgradedIn_trans hab hbc) (ih hrest)

theorem forall₂_upgradedIn_setType (T : List String) (name : String) (hn : name ∈ T)
    (l : List Symbol) :
    List.Forall₂ (Symbol.UpgradedIn T) l (setTypeFrom name DataType.TYPE_VECTOR l) := by
  induction l with
  | nil => exact List.Forall₂.nil
  | cons c rest ih =>
    by_cases hc : c.name = name
    · simp only [setTypeFrom, hc, if_true]
      exact List.Forall₂.cons ⟨hc.symm ▸ rfl, rfl, Or.inr ⟨hc ▸ hn, rfl⟩⟩
        (forall₂_upgradedIn_refl T rest)
    · simp only [setTypeFrom, hc, if_false]
      exact List.Forall₂.cons (upgradedIn_refl T c) ih

theorem tabUpgradedIn_refl (T : List String) (g : Option SymTab) : TabUpgradedIn T g g := by
  cases g with
  | none => trivial
  | some t => exact ⟨rfl, forall₂_upgradedIn_refl T t.head⟩

theorem tabUpgradedIn_trans {T : List String} {g1 g2 g3 : Option SymTab}
    (h1 : TabUpgradedIn T g1 g2) (h2 : TabUpgradedIn T g2 g3) : TabUpgradedIn T g1 g3 := by
  cases g1 <;> cases g2 <;> cases g3 <;> simp only [TabUpgradedIn] at h1 h2 ⊢
  exact ⟨h2.1.trans h1.1, forall₂_upgradedIn_trans h1.2 h2.2⟩

theorem tabUpgradedIn_setType (T : List String) (g : Option SymTab) (name : String)
    (hn : name ∈ T) :
    TabUpgradedIn T g (Option.map (fun t => t.setType name DataType.TYPE_VECTOR) g) := by
  cases g with
  | none => trivial
  | some t => exact ⟨rfl, forall₂_upgradedIn_setType T name hn t.head⟩

theorem keepsIn_of_frame (T : List String) {f : GenState → GenState} (h : ExprFrame f) :
    KeepsIn T f := by
  intro st
  rw [h st]
  exact tabUpgradedIn_refl T _

theorem keepsIn_comp {T : List String} {f g : GenState → GenState} (hf : KeepsIn T f)
    (hg : KeepsIn T g) : KeepsIn T (fun st => g (f st)) :=
  fun st => tabUpgradedIn_trans (hf st) (hg (f st))

theorem keepsIn_out (T : List String) (s : String) : KeepsIn T (fun st => st.out s) :=
  keepsIn_of_frame T (exprFrame_out s)

theorem assignLoadVector_keepsIn (T : List String) (indentStr : String) (lineno : Int)
    (name : String) (args : Node) (h : validLoadArgs args = true → name ∈ T) :
    KeepsIn T (assignLoadVector indentStr lineno name args) := by
  intro st
  unfold assignLoadVector
  split
  · have hn : name ∈ T := h (by simp [validLoadArgs])
    simp only [GenState.out]
    split
    · exact tabUpgradedIn_setType T _ _ hn
    · exact tabUpgradedIn_refl T _
  · exact tabUpgradedIn_refl T _

theorem stmtAssign_keepsIn (T : List String) (indentStr : String) (lineno : Int)
    (name : String) (value : Node)
    (h : ∀ x ∈ loadTargetsData validLoadArgs (.assignOp name value), x ∈ T) :
    KeepsIn T (stmtAssign indentStr lineno name value) := by
  intro st
  unfold stmtAssign
  split
  · exact tabUpgradedIn_refl T _
  · split
    · rename_i vnext vline fname args
      split
      · rename_i hf
        apply assignLoadVector_keepsIn
        intro hv
        apply h
        simp [loadTargetsData, hf, hv]
      · exact keepsIn_of_frame T (assignPlain_frame _ _) st
    · exact keepsIn_of_frame T (assignPlain_frame _ _) st

mutual
theorem stmtNode_keepsIn (T : List String) (indentStr : String) :
    ∀ (l : Int) (d : NodeData) (k : Nat), (∀ x ∈ loadTargetsData validLoadArgs d, x ∈ T) →
      KeepsIn T (stmtNode indentStr l d k)
  | l, .assignOp name value, k => by
    intro h
    have he : stmtNode indentStr l (NodeData.assignOp name value) k
        = stmtAssign indentStr l name value := by
      funext st; simp [stmtNode]
    rw [he]; exact stmtAssign_keepsIn T _ _ _ _ h
  | l, .num dval, k => by
    intro _
    have he : stmtNode indentStr l (NodeData.num dval) k
        = fun st => (exprNode l (.num dval) st).out ";\n" := by
      funext st; simp [stmtNode]
    rw [he]; exact keepsIn_of_frame T (exprFrame_comp (exprNode_frame _ _) (exprFrame_out _))
  | l, .id sval, k => by
    intro _
    have he : stmtNode indentStr l (NodeData.id sval) k
        = fun st => (exprNode l (.id sval) st).out ";\n" := by
      funext st; simp [stmtNode]
    rw [he]; exact keepsIn_of_frame T (exprFrame_comp (exprNode_frame _ _) (exprFrame_out _))
  | l, .binOp op left right, k => by
    intro _
    have he : stmtNode indentStr l (NodeData.binOp op left right) k
        = fun st => (exprNode l (.binOp op left right) st).out ";\n" := by
      funext st; simp [stmtNode]
    rw [he]; exact keepsIn_of_frame T (exprFrame_comp (exprNode_frame _ _) (exprFrame_out _))
  | l, .unaryOp op operand, k => by
    intro _
    have he : stmtNode indentStr l (NodeData.unaryOp op operand) k
        = fun st => (exprNode l (.unaryOp op operand) st).out ";\n" := by
      funext st; simp [stmtNode]
    rw [he]; exact keepsIn_of_frame T (exprFrame_comp (exprNode_frame _ _) (exprFrame_out _))
  | l, .vec elements, k => by
    intro _
    have he : stmtNode indentStr l (NodeData.vec elements) k
        = fun st => (exprNode l (.vec elements) st).out ";\n" := by
      funext st; simp [stmtNode]
    rw [he]; exact keepsIn_of_frame T (exprFrame_comp (exprNode_frame _ _) (exprFrame_out _))
  | l, .ifStmt condition then_branch else_branch, k => by
    intro h
    simp only [loadTargetsData, List.mem_append] at h
    have ht := stmtList_keepsIn T indentStr then_branch (k + 1) (fun x hx => h x (Or.inl hx))
    have hel := stmtList_keepsIn T indentStr else_branch (k + 1) (fun x hx => h x (Or.inr hx))
    have hc := keepsIn_of_frame T (generateExpressionCode_frame condition)
    have hi := keepsIn_of_frame T (emitIndent_frame k)
    have h3 := keepsIn_comp (keepsIn_comp (keepsIn_comp (keepsIn_comp
      (keepsIn_comp (keepsIn_out T "if (") hc) (keepsIn_out T ") \x7b\n")) ht) hi)
      (keepsIn_out T "\x7d")
    cases hnull : else_branch.isNull with
    | true =>
      have he : stmtNode indentStr l (NodeData.ifStmt condition then_branch else_branch) k
          = fun st => ((emitIndent k (stmtList indentStr then_branch (k + 1)
              ((generateExpressionCode condition (st.out "if (")).out ") \x7b\n"))).out
                "\x7d").out "\n" := by
        funext st; simp [stmtNode, hnull]
      rw [he]
      have h4 := keepsIn_comp h3 (keepsIn_out T "\n")
      exact h4
    | false =>
      have he : stmtNode indentStr l (NodeData.ifStmt condition then_branch else_branch) k
          = fun st => (emitIndent k (stmtList indentStr else_branch (k + 1)
              (((emitIndent k (stmtList indentStr then_branch (k + 1)
                ((generateExpressionCode condition (st.out "if (")).out ") \x7b\n"))).out
                  "\x7d").out " else \x7b\n"))).out "\x7d\n" := by
        funext st; simp [stmtNode, hnull]
      rw [he]
      have h4 := keepsIn_comp (keepsIn_comp (keepsIn_comp (keepsIn_comp h3
        (keepsIn_out T " else \x7b\n")) hel) hi) (keepsIn_out T "\x7d\n")
      exact h4
  | l, .whileStmt condition body, k => by
    intro h
    simp only [loadTargetsData] at h
    have hb := stmtList_keepsIn T indentStr body (k + 1) h
    have hc := keepsIn_of_frame T (generateExpressionCode_frame condition)
    have hi := keepsIn_of_frame T (emitIndent_frame k)
    have he : stmtNode indentStr l (NodeData.whileStmt condition body) k
        = fun st => (emitIndent k (stmtList indentStr body (k + 1)
            ((generateExpressionCode condition (st.out "while (")).out ") \x7b\n"))).out
              "\x7d\n" := by
      funext st; simp [stmtNode]
    rw [he]
    have h4 := keepsIn_comp (keepsIn_comp (keepsIn_comp (keepsIn_comp
      (keepsIn_comp (keepsIn_out T "while (") hc) (keepsIn_out T ") \x7b\n")) hb) hi)
      (keepsIn_out T "\x7d\n")
    exact h4
  | l, .funcCall name args, k => by
    intro _
    have he : stmtNode indentStr l (NodeData.funcCall name args) k
        = stmtFuncCall indentStr name args := by
      funext st; simp [stmtNode]
    rw [he]; exact keepsIn_of_frame T (stmtFuncCall_frame _ _ _)
theorem stmtList_keepsIn (T : List String) (indentStr : String) :
    ∀ (n : Node) (k : Nat), (∀ x ∈ loadTargets validLoadArgs n, x ∈ T) →
      KeepsIn T (stmtList indentStr n k)
  | .null, k => by
    intro _
    have he : stmtList indentStr Node.null k = fun st => st := by
      funext st; simp [stmtList]
    rw [he]; exact keepsIn_of_frame T exprFrame_ident
  | .mk nx l d, k => by
    intro h
    simp only [loadTargets, List.mem_append] at h
    have hn := stmtList_keepsIn T indentStr nx k (fun x hx => h x (Or.inr hx))
    have hd := stmtNode_keepsIn T indentStr l d k (fun x hx => h x (Or.inl hx))
    have hi := keepsIn_of_frame T (emitIndent_frame k)
    have he : stmtList indentStr (Node.mk nx l d) k = fun st =>
        stmtList indentStr nx k (stmtNode indentStr l d k (emitIndent k st)) := by
      funext st; simp [stmtList]
    rw [he]
    have h4 := keepsIn_comp (keepsIn_comp hi hd) hn
    exact h4
end

/-- Two tables that hold the same set of names hold the same names for
`symtab_lookup`. -/
theorem sameNames_of_names (g g' : Option SymTab)
    (h : ∀ n : String, n ∈ (entries g).map Symbol.name ↔ n ∈ (entries g').map Symbol.name) :
    SameNames g g' := by
  have key : ∀ (g : Option SymTab) (n : String),
      (symtab_lookup g n).isSome = true ↔ n ∈ (entries g).map Symbol.name := by
    intro g n
    cases g with
    | none => simp [symtab_lookup, entries]
    | some t =>
      simp only [symtab_lookup, entries, List.mem_map]
      rw [← not_iff_not, Bool.not_eq_true, Option.not_isSome, Option.isNone_iff_eq_none,
        lookupFrom_none_iff]
      constructor
      · intro h1 ⟨s, hs, hn⟩
        exact h1 s hs hn
      · intro h1 s hs hn
        exact h1 ⟨s, hs, hn⟩
  intro n
  exact Bool.eq_iff_iff.mpr ((key g n).trans ((h n).trans (key g' n).symm))

/-! ### The first character of a statement's text -/

theorem noLead_empty : NoLeadingSpace "" := by
  intro rest h
  cases h

theorem noLead_lit (p : String) (c : Char) (r : List Char) (hp : p.data = c :: r)
    (hc : c ≠ ' ') : NoLeadingSpace p := by
  intro rest h
  rw [hp] at h
  injection h with h1 _
  exact hc h1

theorem noLead_append (p t : String) (c : Char) (r : List Char) (hp : p.data = c :: r)
    (hc : c ≠ ' ') : NoLeadingSpace (p ++ t) := by
  intro rest h
  rw [String.data_append, hp, List.cons_append] at h
  injection h with h1 _
  exact hc h1

theorem digitChar_ne_space (n : Nat) (h : n < 10) : Nat.digitChar n ≠ ' ' := by
  interval_cases n <;> decide

theorem toDigitsCore_head : ∀ (fuel n : Nat) (ds : List Char),
    (0 < fuel ∨ ∃ (x : Nat) (r : List Char), x < 10 ∧ ds = Nat.digitChar x :: r) →
      ∃ (x : Nat) (r : List Char), x < 10 ∧ Nat.toDigitsCore 10 fuel n ds = Nat.digitChar x :: r
  | 0, n, ds, h => by
    rcases h with h | h
    · exact absurd h (Nat.lt_irrefl 0)
    · simpa [Nat.toDigitsCore] using h
  | fuel + 1, n, ds, _ => by
    have hlt : n % 10 < 10 := Nat.mod_lt n (by decide)
    simp only [Nat.toDigitsCore]
    split
    · exact ⟨n % 10, ds, hlt, rfl⟩
    · exact toDigitsCore_head fuel (n / 10) (Nat.digitChar (n % 10) :: ds)
        (Or.inr ⟨n % 10, ds, hlt, rfl⟩)

theorem repr_head (n : Nat) :
    ∃ (c : Char) (r : List Char), (Nat.repr n).data = c :: r ∧ c ≠ ' ' := by
  obtain ⟨x, r, hx, h⟩ := toDigitsCore_head (n + 1) n [] (Or.inl (Nat.succ_pos n))
  exact ⟨Nat.digitChar x, r, by simp [Nat.repr, Nat.toDigits, h, List.asString],
    digitChar_ne_space x hx⟩

theorem fmtF_noLead (d : ℚ) (t : String) : NoLeadingSpace (fmtF d ++ t) := by
  unfold fmtF
  by_cases hneg : d.num < 0
  · simp only [hneg, if_true, String.append_assoc]
    exact noLead_append _ _ '-' [] rfl (by decide)
  · simp only [hneg, if_false, String.empty_append, String.append_assoc]
    obtain ⟨c, r, h, hc⟩ := repr_head
      ((if 2 * (d.num.natAbs * 1000000 % d.den) > d.den ∨
          (2 * (d.num.natAbs * 1000000 % d.den) = d.den ∧
            d.num.natAbs * 1000000 / d.den % 2 = 1)
        then d.num.natAbs * 1000000 / d.den + 1 else d.num.natAbs * 1000000 / d.den) / 1000000)
    exact noLead_append _ _ c r h hc

/-- The text of the switch of `generateStatementCode` for a statement whose
name, if its text starts with one, starts with a name character does not start
with a space. -/
theorem stmtNode_noLead (indentStr : String) (g : Option SymTab) (l : Int) (k : Nat) :
    ∀ d : NodeData, HeadNamed d → NoLeadingSpace (stmtNode indentStr l d k ⟨g, "", ""⟩).outfile
  | .assignOp name value, h => by
    obtain ⟨c, r, hn, hc⟩ := h name rfl
    have hc1 := (isNameChar_ne c hc).1
    simp only [stmtNode, stmtAssign]
    cases hl : symtab_lookup g name with
    | none => exact noLead_empty
    | some e =>
      have hplain : NoLeadingSpace (assignPlain name value ⟨g, "", ""⟩).outfile := by
        simp only [assignPlain, GenState.out]
        rw [generateExpressionCode_eq]
        simp only [String.empty_append, String.append_assoc]
        exact noLead_append _ _ c r hn hc1
      simp only []
      split
      · split
        · unfold assignLoadVector
          split
          · simp only [hl, GenState.out, String.empty_append, String.append_assoc]
            exact noLead_append _ _ 's' _ rfl (by decide)
          · simp only [GenState.out, String.empty_append, String.append_assoc]
            exact noLead_append _ _ '/' _ rfl (by decide)
        · exact hplain
      · exact hplain
  | .num dval, _ => by
    simp only [stmtNode, exprNode, GenState.out, String.empty_append]
    exact fmtF_noLead dval _
  | .id sval, h => by
    obtain ⟨c, r, hn, hc⟩ := h sval rfl
    have hc1 := (isNameChar_ne c hc).1
    simp only [stmtNode, exprNode]
    split
    · simp only [GenState.out, GenState.err, String.empty_append, String.append_assoc]
      exact noLead_append _ _ '/' _ rfl (by decide)
    · simp only [GenState.out, String.empty_append]
      exact noLead_append _ _ c r hn hc1
  | .binOp op left right, _ => by
    have h1 := exprText_binOp g .null l op left right
    rw [exprText_mk] at h1
    simp only [stmtNode, GenState.out, h1, String.append_assoc]
    exact noLead_append _ _ '(' _ rfl (by decide)
  | .unaryOp op operand, _ => by
    have h1 := exprText_unaryOp g .null l op operand
    rw [exprText_mk] at h1
    simp only [stmtNode, GenState.out, h1, String.append_assoc]
    exact noLead_append _ _ '(' _ rfl (by decide)
  | .vec elements, _ => by
    simp only [stmtNode, exprNode, GenState.out, String.empty_append, String.append_assoc]
    exact noLead_append _ _ '/' _ rfl (by decide)
  | .ifStmt condition then_branch else_branch, _ => by
    have h0 : stmtNode indentStr l (.ifStmt condition then_branch else_branch) k ⟨g, "", ""⟩ =
        (if else_branch.isNull then
          ((emitIndent k (stmtList indentStr then_branch (k + 1)
            ((generateExpressionCode condition ((⟨g, "", ""⟩ : GenState).out "if (")).out
              ") \x7b\n"))).out "\x7d").out "\n"
        else
          (emitIndent k (stmtList indentStr else_branch (k + 1)
            (((emitIndent k (stmtList indentStr then_branch (k + 1)
              ((generateExpressionCode condition ((⟨g, "", ""⟩ : GenState).out "if (")).out
                ") \x7b\n"))).out "\x7d").out " else \x7b\n"))).out "\x7d\n") := by
      simp only [stmtNode]
    rw [h0, generateExpressionCode_eq]
    simp only [emitIndent_eq, GenState.out]
    obtain ⟨t1, -, -⟩ := stmtList_block indentStr (k + 1) then_branch g
      ("" ++ "if (" ++ exprText g condition ++ ") \x7b\n") ("" ++ exprDiag g condition)
    split
    · rw [t1]
      simp only [String.empty_append, String.append_assoc]
      exact noLead_append _ _ 'i' _ rfl (by decide)
    · obtain ⟨_, o, _, a1, _⟩ := stmtList_appendOnly indentStr else_branch (k + 1)
        { globalSymTab := (stmtList indentStr then_branch (k + 1)
            ⟨g, "" ++ "if (" ++ exprText g condition ++ ") \x7b\n",
              "" ++ exprDiag g condition⟩).globalSymTab,
          outfile := (stmtList indentStr then_branch (k + 1)
            ⟨g, "" ++ "if (" ++ exprText g condition ++ ") \x7b\n",
              "" ++ exprDiag g condition⟩).outfile ++ spaces (4 * k) ++ "\x7d" ++ " else \x7b\n",
          errfile := (stmtList indentStr then_branch (k + 1)
            ⟨g, "" ++ "if (" ++ exprText g condition ++ ") \x7b\n",
              "" ++ exprDiag g condition⟩).errfile }
      rw [a1, t1]
      simp only [String.empty_append, String.append_assoc]
      exact noLead_append _ _ 'i' _ rfl (by decide)
  | .whileStmt condition body, _ => by
    have h0 : stmtNode indentStr l (.whileStmt condition body) k ⟨g, "", ""⟩ =
        (emitIndent k (stmtList indentStr body (k + 1)
          ((generateExpressionCode condition ((⟨g, "", ""⟩ : GenState).out "while (")).out
            ") \x7b\n"))).out "\x7d\n" := by
      simp only [stmtNode]
    rw [h0, generateExpressionCode_eq]
    simp only [emitIndent_eq, GenState.out]
    rw [(stmtList_block indentStr (k + 1) body g _ _).1]
    simp only [String.empty_append, String.append_assoc]
    exact noLead_append _ _ 'w' _ rfl (by decide)
  | .funcCall name args, h => by
    obtain ⟨c, r, hn, hc⟩ := h name rfl
    have hc1 := (isNameChar_ne c hc).1
    simp only [stmtNode]
    unfold stmtFuncCall
    split
    · split
      · simp only [GenState.out, String.empty_append, String.append_assoc]
        exact noLead_append _ _ 'p' _ rfl (by decide)
      · simp only [GenState.out, String.empty_append]
        exact noLead_lit _ '/' _ rfl (by decide)
    split
    · split
      · simp only [GenState.out, String.empty_append, String.append_assoc]
        exact noLead_append _ _ 'p' _ rfl (by decide)
      · simp only [GenState.out, String.empty_append]
        exact noLead_lit _ '/' _ rfl (by decide)
    split
    · split
      · simp only [GenState.out, String.empty_append, String.append_assoc]
        exact noLead_append _ _ 'p' _ rfl (by decide)
      · simp only [GenState.out, String.empty_append]
        exact noLead_lit _ '/' _ rfl (by decide)
    split
    · split
      · simp only [GenState.out, String.empty_append, String.append_assoc]
        exact noLead_append _ _ 'i' _ rfl (by decide)
      · simp only [GenState.out, String.empty_append]
        exact noLead_lit _ '/' _ rfl (by decide)
    split
    · split
      · simp only [GenState.out, String.empty_append, String.append_assoc]
        exact noLead_append _ _ '/' _ rfl (by decide)
      · simp only [GenState.out, String.empty_append]
        exact noLead_lit _ '/' _ rfl (by decide)
    split
    · simp only [GenState.out, String.empty_append]
      exact noLead_lit _ '/' _ rfl (by decide)
    split
    · rw [exprArgs_eq]
      simp only [GenState.out, String.empty_append, String.append_assoc]
      exact noLead_append _ _ c r hn hc1
    · exact noLead_empty

/-- The quotient `Int.tdiv` of numerator and denominator is the truncation
towards zero. -/
theorem tdiv_trunc (d : ℚ) : Int.tdiv d.num d.den = truncTowardsZero d := by
  unfold truncTowardsZero
  by_cases h : 0 ≤ d
  · rw [if_pos h, Rat.floor_def]
    exact Int.tdiv_eq_ediv (Rat.num_nonneg.mpr h) (Int.ofNat_nonneg _)
  · rw [if_neg h]
    have hneg : 0 ≤ -d := by linarith [not_le.mp h]
    have h1 : ⌈d⌉ = -⌊-d⌋ := by rw [Int.floor_neg, neg_neg]
    rw [h1, Rat.floor_def, Rat.neg_num, Rat.neg_den]
    have h2 : 0 ≤ -d.num := by
      have := Rat.num_nonneg.mpr hneg
      rwa [Rat.neg_num] at this
    rw [← Int.tdiv_eq_ediv h2 (Int.ofNat_nonneg _), Int.neg_tdiv, neg_neg]

/-- The conversion `(int)d` in terms of the truncation towards zero. -/
theorem castInt_eq (d : ℚ) :
    castInt d = if -2147483648 ≤ truncTowardsZero d ∧ truncTowardsZero d ≤ 2147483647
      then truncTowardsZero d else -2147483648 := by
  simp only [castInt, tdiv_trunc]

theorem castInt_intCast (n : Int) (h : -2147483648 ≤ n ∧ n ≤ 2147483647) :
    castInt (n : ℚ) = n := by
  have ht : truncTowardsZero (n : ℚ) = n := by
    unfold truncTowardsZero
    split <;> simp
  rw [castInt_eq, ht, if_pos h]

/-- What one registry operation does to an entry whose type is not Undefined:
the entry stays as it is, unless the operation is a `generateCode` pass with a
`load_vector` assignment to its name, which may set its type to Vector. -/
theorem runOp_lookup (op : RegOp) (g g1 : Option SymTab) (h : runOp g op = some g1)
    (name : String) (e : Symbol) (hn : symtab_lookup g name = some e)
    (hc : e.type ≠ DataType.TYPE_UNDEFINED) :
    ∃ e', symtab_lookup g1 name = some e' ∧ e'.name = e.name ∧
      e'.declared_lineno = e.declared_lineno ∧
      (e'.type = e.type ∨ (e'.type = DataType.TYPE_VECTOR ∧ name ∈ op.targets)) := by
  cases op with
  | init =>
    simp only [runOp, Option.some.injEq] at h
    cases g with
    | none => simp [symtab_lookup] at hn
    | some t =>
      rw [← h]
      exact ⟨e, hn, rfl, rfl, Or.inl rfl⟩
  | insert iname itype ilineno =>
    cases g with
    | none => simp [symtab_lookup] at hn
    | some t =>
      simp only [runOp] at h
      cases hi : symtab_insert (some t) iname itype ilineno with
      | none => rw [hi] at h; cases h
      | some r =>
        obtain ⟨s, t'⟩ := r
        rw [hi] at h
        simp only [Option.some.injEq] at h
        obtain ⟨e', h1, h2, h3, h4⟩ := symtab_insert_lookup t t' iname itype ilineno s hi name e hn
        rw [← h]
        refine ⟨e', h1, h2, h3, Or.inl ?_⟩
        rcases h4 with h4 | h4
        · exact h4
        · exact absurd h4 hc
  | generate indentStr undef astRoot out err =>
    simp only [runOp, Option.some.injEq] at h
    by_cases ht : name ∈ loadTargets validLoadArgs astRoot
    · obtain ⟨e', h1, h2, h3, h4⟩ :=
        regStep_lookup (RegStep.generate g indentStr undef astRoot out err) name e hn
      rw [← h]
      refine ⟨e', h1, h2, h3, ?_⟩
      cases hte : e.type with
      | TYPE_UNDEFINED => exact absurd hte hc
      | TYPE_SCALAR =>
        rcases h4.2 hte with h5 | h5
        · exact Or.inl h5
        · exact Or.inr ⟨h5, ht⟩
      | TYPE_VECTOR => exact Or.inl (h4.1 hte)
    · have hu := generateCode_untouched indentStr undef name validLoadArgs (fun _ ha => ha)
        astRoot ht ⟨g, out, err⟩
      rw [← h]
      exact ⟨e, hu.trans hn, rfl, rfl, Or.inl rfl⟩

theorem runOps_lookup : ∀ (ops : List RegOp) (g g' : Option SymTab),
    runOps g ops = some g' → ∀ (name : String) (e : Symbol),
    symtab_lookup g name = some e → e.type ≠ DataType.TYPE_UNDEFINED →
    ∃ e', symtab_lookup g' name = some e' ∧ e'.name = e.name ∧
      e'.declared_lineno = e.declared_lineno ∧
      (e'.type = e.type ∨
        (e'.type = DataType.TYPE_VECTOR ∧ ∃ op ∈ ops, name ∈ op.targets))
  | [], g, g', h, name, e, hn, _ => by
    simp only [runOps, Option.some.injEq] at h
    rw [← h]
    exact ⟨e, hn, rfl, rfl, Or.inl rfl⟩
  | op :: rest, g, g', h, name, e, hn, hc => by
    simp only [runOps] at h
    cases h1 : runOp g op with
    | none => rw [h1] at h; cases h
    | some g1 =>
      rw [h1] at h
      obtain ⟨e1, a1, a2, a3, a4⟩ := runOp_lookup op g g1 h1 name e hn hc
      have hc1 : e1.type ≠ DataType.TYPE_UNDEFINED := by
        rcases a4 with a4 | ⟨a4, _⟩
        · rw [a4]; exact hc
        · rw [a4]; decide
      obtain ⟨e2, b1, b2, b3, b4⟩ := runOps_lookup rest g1 g' h name e1 a1 hc1
      refine ⟨e2, b1, b2.trans a2, b3.trans a3, ?_⟩
      rcases b4 with b4 | ⟨b4, op2, hop2, hin2⟩
      · rcases a4 with a4 | ⟨a4, hin⟩
        · exact Or.inl (b4.trans a4)
        · exact Or.inr ⟨b4.trans a4, op, List.mem_cons_self _ _, hin⟩
      · exact Or.inr ⟨b4, op2, List.mem_cons_of_mem _ hop2, hin2⟩

/-! ### The last character of a statement's text -/

theorem endsNewline_append (a b : String) (h : EndsNewline b) : EndsNewline (a ++ b) := by
  unfold EndsNewline at h ⊢
  rw [String.data_append, List.getLast?_append, h]
  rfl

theorem endsNewline_join (l : List String) (h : ∀ x ∈ l, EndsNewline x) :
    ∀ p : String, EndsNewline p → EndsNewline (p ++ String.join l) := by
  induction l with
  | nil =>
    intro p hp
    rw [strJoin_nil, String.append_empty]
    exact hp
  | cons a rest ih =>
    intro p hp
    rw [strJoin_cons, ← String.append_assoc]
    exact ih (fun x hx => h x (List.mem_cons_of_mem _ hx)) (p ++ a)
      (endsNewline_append p a (h a (List.mem_cons_self _ _)))

/-- The text of the switch of `generateStatementCode` ends with a newline for
every statement for which anything is written after the indentation. -/
theorem stmtNode_endsNewline (indentStr : String) (g : Option SymTab) (l : Int) (k : Nat) :
    ∀ d : NodeData, emitsLine g d = true →
      EndsNewline (stmtNode indentStr l d k ⟨g, "", ""⟩).outfile
  | .assignOp name value, h => by
    simp only [emitsLine] at h
    simp only [stmtNode, stmtAssign]
    cases hl : symtab_lookup g name with
    | none => rw [hl] at h; cases h
    | some e =>
      have hplain : EndsNewline (assignPlain name value ⟨g, "", ""⟩).outfile := by
        simp only [assignPlain, GenState.out]
        rw [generateExpressionCode_eq]
        exact endsNewline_append _ _ rfl
      simp only []
      split
      · split
        · unfold assignLoadVector
          split
          · simp only [hl, GenState.out, String.append_assoc]
            repeat apply endsNewline_append
            rfl
          · simp only [GenState.out, String.append_assoc]
            repeat apply endsNewline_append
            rfl
        · exact hplain
      · exact hplain
  | .num dval, _ => by
    simp only [stmtNode, GenState.out]
    exact endsNewline_append _ _ rfl
  | .id sval, _ => by
    simp only [stmtNode, GenState.out]
    exact endsNewline_append _ _ rfl
  | .binOp op left right, _ => by
    simp only [stmtNode, GenState.out]
    exact endsNewline_append _ _ rfl
  | .unaryOp op operand, _ => by
    simp only [stmtNode, GenState.out]
    exact endsNewline_append _ _ rfl
  | .vec elements, _ => by
    simp only [stmtNode, GenState.out]
    exact endsNewline_append _ _ rfl
  | .ifStmt condition then_branch else_branch, _ => by
    simp only [stmtNode, emitIndent_eq, GenState.out]
    split
    · exact endsNewline_append _ _ rfl
    · exact endsNewline_append _ _ rfl
  | .whileStmt condition body, _ => by
    simp only [stmtNode, emitIndent_eq, GenState.out]
    exact endsNewline_append _ _ rfl
  | .funcCall name args, h => by
    simp only [emitsLine, decide_eq_true_eq] at h
    simp only [stmtNode]
    unfold stmtFuncCall
    split
    · split
      · simp only [GenState.out, String.append_assoc]
        repeat apply endsNewline_append
        rfl
      · exact endsNewline_append _ _ rfl
    split
    · split
      · simp only [GenState.out, String.append_assoc]
        repeat apply endsNewline_append
        rfl
      · exact endsNewline_append _ _ rfl
    split
    · split
      · simp only [GenState.out, String.append_assoc]
        repeat apply endsNewline_append
        rfl
      · exact endsNewline_append _ _ rfl
    split
    · split
      · simp only [GenState.out, String.append_assoc]
        repeat apply endsNewline_append
        rfl
      · exact endsNewline_append _ _ rfl
    split
    · split
      · simp only [GenState.out, String.append_assoc]
        repeat apply endsNewline_append
        rfl
      · exact endsNewline_append _ _ rfl
    split
    · exact endsNewline_append _ _ rfl
    exact endsNewline_append _ _ rfl

/-- Nothing is written after the indentation for an assignment to a name that
is not in the table and for a `load_vector` call used as a statement. -/
theorem stmtNode_silent (indentStr : String) (g : Option SymTab) (l : Int) (k : Nat) :
    ∀ d : NodeData, emitsLine g d = false → (stmtNode indentStr l d k ⟨g, "", ""⟩).outfile = ""
  | .assignOp name value, h => by
    simp only [emitsLine] at h
    simp only [stmtNode, stmtAssign]
    cases hl : symtab_lookup g name with
    | none => rfl
    | some e => rw [hl] at h; cases h
  | .funcCall name args, h => by
    simp only [emitsLine, decide_eq_false_iff_not, not_not] at h
    subst h
    simp only [stmtNode]
    unfold stmtFuncCall
    simp
  | .num dval, h => by simp [emitsLine] at h
  | .id sval, h => by simp [emitsLine] at h
  | .binOp op left right, h => by simp [emitsLine] at h
  | .unaryOp op operand, h => by simp [emitsLine] at h
  | .vec elements, h => by simp [emitsLine] at h
  | .ifStmt c t e, h => by simp [emitsLine] at h
  | .whileStmt c b, h => by simp [emitsLine] at h

/-! ## The claims -/

/-- C4. `symtab_insert(name, type, line)` on a name that is already in the
registry returns the existing entry after the merge rule has been applied to
it: the entry `existing` that `symtab_lookup` finds (the first one called
`name`) gets the requested type when its type is Undefined and the requested
type is not, and keeps its type in every other case. Its declaration line, the
entry count and every other entry, before and after it in the list, stay as
they are. -/
theorem symtab_insert_existing_merge (t : SymTab) (name : String) (type : DataType)
    (lineno : Int) (existing : Symbol) (h : symtab_lookup (some t) name = some existing) :
    ∃ before after merged,
      merged = { name := existing.name,
                 type := if existing.type = DataType.TYPE_UNDEFINED
                           ∧ type ≠ DataType.TYPE_UNDEFINED then type else existing.type,
                 declared_lineno := existing.declared_lineno } ∧
      t.head = before ++ existing :: after ∧ (∀ s ∈ before, s.name ≠ name) ∧
      existing.name = name ∧
      symtab_insert (some t) name type lineno =
        some (merged, { head := before ++ merged :: after, count := t.count }) ∧
      symtab_lookup (some { head := before ++ merged :: after, count := t.count }) name
        = some merged := by
  obtain ⟨before, after, hl, hb, he⟩ := lookupFrom_some_split name t.head existing h
  refine ⟨before, after, _, rfl, hl, hb, he, ?_, ?_⟩
  · by_cases hm : existing.type = DataType.TYPE_UNDEFINED ∧ type ≠ DataType.TYPE_UNDEFINED
    · simp only [symtab_insert, h, hm, and_self, if_true, SymTab.setType, ne_eq, not_false_eq_true]
      rw [hl, setTypeFrom_split name type before after existing hb he]
    · simp only [symtab_insert, h, hm, if_false]
      cases t
      simp only at hl
      subst hl
      rfl
  · exact lookupFrom_split name before after _ hb he

/-- C4, at a concrete table: inserting `x` as a vector on line 9 into the table
holding `y` (scalar) and `x` (undefined, line 1) upgrades `x` in place. -/
theorem symtab_insert_existing_merge_witness :
    symtab_lookup (some ⟨[⟨"y", DataType.TYPE_SCALAR, 2⟩, ⟨"x", DataType.TYPE_UNDEFINED, 1⟩], 2⟩) "x"
        = some ⟨"x", DataType.TYPE_UNDEFINED, 1⟩ ∧
      ∃ before after merged,
        merged = { name := "x",
                   type := if DataType.TYPE_UNDEFINED = DataType.TYPE_UNDEFINED
                     ∧ DataType.TYPE_VECTOR ≠ DataType.TYPE_UNDEFINED then DataType.TYPE_VECTOR
                     else DataType.TYPE_UNDEFINED,
                   declared_lineno := 1 } ∧
        [⟨"y", DataType.TYPE_SCALAR, 2⟩, ⟨"x", DataType.TYPE_UNDEFINED, 1⟩]
          = before ++ (⟨"x", DataType.TYPE_UNDEFINED, 1⟩ : Symbol) :: after ∧
        (∀ s ∈ before, s.name ≠ "x") ∧ "x" = "x" ∧
        symtab_insert
            (some ⟨[⟨"y", DataType.TYPE_SCALAR, 2⟩, ⟨"x", DataType.TYPE_UNDEFINED, 1⟩], 2⟩)
            "x" DataType.TYPE_VECTOR 9
          = some (merged, { head := before ++ merged :: after, count := 2 }) ∧
        symtab_lookup (some { head := before ++ merged :: after, count := 2 }) "x"
          = some merged :=
  ⟨by decide,
   symtab_insert_existing_merge
     ⟨[⟨"y", DataType.TYPE_SCALAR, 2⟩, ⟨"x", DataType.TYPE_UNDEFINED, 1⟩], 2⟩ "x"
     DataType.TYPE_VECTOR 9 ⟨"x", DataType.TYPE_UNDEFINED, 1⟩ (by decide)⟩

/-- C5. For an initialized registry and a name that is not in it,
`symtab_insert(name, type, line)` stores a new entry: it returns the entry with
exactly that name, type and line, `symtab_lookup(name)` finds that entry
afterwards, the count is one larger, the new entry stands at the head of the
list in front of the old entries, and `symtab_lookup` of every other name
returns what it returned before. -/
theorem symtab_insert_new_entry (t : SymTab) (name : String) (type : DataType) (lineno : Int)
    (h : symtab_lookup (some t) name = none) :
    ∃ t', symtab_insert (some t) name type lineno = some (⟨name, type, lineno⟩, t') ∧
      symtab_lookup (some t') name = some ⟨name, type, lineno⟩ ∧
      t'.count = t.count + 1 ∧
      t'.head = ⟨name, type, lineno⟩ :: t.head ∧
      ∀ other, other ≠ name → symtab_lookup (some t') other = symtab_lookup (some t) other := by
  refine ⟨{ head := ⟨name, type, lineno⟩ :: t.head, count := t.count + 1 }, ?_, ?_, rfl, rfl, ?_⟩
  · simp only [symtab_insert, h]
  · simp [symtab_lookup, lookupFrom]
  · intro other ho
    have : ¬ name = other := fun e => ho e.symm
    simp [symtab_lookup, lookupFrom, this]

/-- C5, at a concrete table: inserting `z` into the table that holds `x`. -/
theorem symtab_insert_new_entry_witness :
    symtab_lookup (some ⟨[⟨"x", DataType.TYPE_SCALAR, 1⟩], 1⟩) "z" = none ∧
      ∃ t', symtab_insert (some ⟨[⟨"x", DataType.TYPE_SCALAR, 1⟩], 1⟩) "z" DataType.TYPE_VECTOR 4
          = some (⟨"z", DataType.TYPE_VECTOR, 4⟩, t') ∧
        symtab_lookup (some t') "z" = some ⟨"z", DataType.TYPE_VECTOR, 4⟩ ∧
        t'.count = (1 : Int) + 1 ∧
        t'.head = ⟨"z", DataType.TYPE_VECTOR, 4⟩ :: [⟨"x", DataType.TYPE_SCALAR, 1⟩] ∧
        ∀ other, other ≠ "z" → symtab_lookup (some t') other
          = symtab_lookup (some ⟨[⟨"x", DataType.TYPE_SCALAR, 1⟩], 1⟩) other :=
  ⟨by decide,
   symtab_insert_new_entry ⟨[⟨"x", DataType.TYPE_SCALAR, 1⟩], 1⟩ "z" DataType.TYPE_VECTOR 4
     (by decide)⟩

/-- C3 fails as stated: with `x` recorded as Scalar, a `generateCode` pass over
`x = load_vector(d, 0)` is a registry operation after which the type of `x` is
Vector. -/
theorem upgrade_only_counterexample :
    runOps (some ⟨[⟨"x", DataType.TYPE_SCALAR, 1⟩], 1⟩) [RegOp.generate "" "" progLoadX "" ""]
        = some (some ⟨[⟨"x", DataType.TYPE_VECTOR, 1⟩], 1⟩) ∧
      symtab_lookup (some ⟨[⟨"x", DataType.TYPE_SCALAR, 1⟩], 1⟩) "x"
        = some ⟨"x", DataType.TYPE_SCALAR, 1⟩ ∧
      symtab_lookup (some ⟨[⟨"x", DataType.TYPE_VECTOR, 1⟩], 1⟩) "x"
        = some ⟨"x", DataType.TYPE_VECTOR, 1⟩ ∧
      DataType.TYPE_VECTOR ≠ DataType.TYPE_SCALAR :=
  ⟨by
    simp only [runOps, runOp]
    rw [generateCode_eq]
    rfl,
   by decide, by decide, by decide⟩

/-- C3, amended. Over every sequence of registry operations (`symtab_init`,
`symtab_insert` calls that return, `generateCode` passes over any programs), an
entry whose type is Scalar or Vector stays in the registry under its name and
line, and its type is never replaced by a different one, with one exception:
the type can become Vector when one of the operations is a `generateCode` pass
over a program that contains, at any nesting depth, an assignment of
`load_vector(<identifier>, <number literal>)` to the entry's name. So no
`symtab_insert` replaces a Scalar or a Vector type, a Vector type is never
replaced, and a Scalar type is replaced only by such a pass, and then by
Vector. -/
theorem types_kept_over_compilation (ops : List RegOp) (g g' : Option SymTab)
    (h : runOps g ops = some g') (name : String) (e : Symbol)
    (hn : symtab_lookup g name = some e)
    (hc : e.type = DataType.TYPE_SCALAR ∨ e.type = DataType.TYPE_VECTOR) :
    ∃ e', symtab_lookup g' name = some e' ∧ e'.name = e.name ∧
      e'.declared_lineno = e.declared_lineno ∧
      (e'.type = e.type ∨
        (e'.type = DataType.TYPE_VECTOR ∧ ∃ op ∈ ops, name ∈ op.targets)) ∧
      ((∀ op ∈ ops, name ∉ op.targets) → e' = e) := by
  have hc1 : e.type ≠ DataType.TYPE_UNDEFINED := by
    rcases hc with hc | hc <;> rw [hc] <;> decide
  obtain ⟨e', h1, h2, h3, h4⟩ := runOps_lookup ops g g' h name e hn hc1
  refine ⟨e', h1, h2, h3, h4, ?_⟩
  intro hno
  rcases h4 with h4 | ⟨_, op, hop, hin⟩
  · cases e
    cases e'
    simp only at h2 h3 h4
    rw [h2, h3, h4]
  · exact absurd hin (hno op hop)

/-- C3, amended, at a concrete run on the registry that holds `y` (Undefined)
and `x` (Scalar): `x` is inserted again as Vector, then `generateCode` runs
over `y = load_vector(data, 2)`, then `x` is inserted again as Undefined. The
entry of `x` is Scalar at the end; the entry of `y` has become Vector. -/
theorem types_kept_over_compilation_witness :
    runOps (some ⟨[⟨"y", DataType.TYPE_UNDEFINED, 2⟩, ⟨"x", DataType.TYPE_SCALAR, 1⟩], 2⟩)
        [RegOp.insert "x" DataType.TYPE_VECTOR 9, RegOp.generate "" "" progLoadY "" "",
          RegOp.insert "x" DataType.TYPE_UNDEFINED 10]
        = some (some ⟨[⟨"y", DataType.TYPE_VECTOR, 2⟩, ⟨"x", DataType.TYPE_SCALAR, 1⟩], 2⟩) ∧
      symtab_lookup
          (some ⟨[⟨"y", DataType.TYPE_UNDEFINED, 2⟩, ⟨"x", DataType.TYPE_SCALAR, 1⟩], 2⟩) "x"
        = some ⟨"x", DataType.TYPE_SCALAR, 1⟩ ∧
      (∃ e', symtab_lookup
          (some ⟨[⟨"y", DataType.TYPE_VECTOR, 2⟩, ⟨"x", DataType.TYPE_SCALAR, 1⟩], 2⟩) "x"
            = some e' ∧
        e'.name = "x" ∧ e'.declared_lineno = 1 ∧
        (e'.type = DataType.TYPE_SCALAR ∨
          (e'.type = DataType.TYPE_VECTOR ∧
            ∃ op ∈ [RegOp.insert "x" DataType.TYPE_VECTOR 9,
              RegOp.generate "" "" progLoadY "" "",
              RegOp.insert "x" DataType.TYPE_UNDEFINED 10], "x" ∈ op.targets)) ∧
        ((∀ op ∈ [RegOp.insert "x" DataType.TYPE_VECTOR 9,
              RegOp.generate "" "" progLoadY "" "",
              RegOp.insert "x" DataType.TYPE_UNDEFINED 10], "x" ∉ op.targets) →
          e' = ⟨"x", DataType.TYPE_SCALAR, 1⟩)) ∧
      symtab_lookup
          (some ⟨[⟨"y", DataType.TYPE_VECTOR, 2⟩, ⟨"x", DataType.TYPE_SCALAR, 1⟩], 2⟩) "x"
        = some ⟨"x", DataType.TYPE_SCALAR, 1⟩ :=
  ⟨by rfl,
   by decide,
   types_kept_over_compilation
     [RegOp.insert "x" DataType.TYPE_VECTOR 9, RegOp.generate "" "" progLoadY "" "",
       RegOp.insert "x" DataType.TYPE_UNDEFINED 10]
     (some ⟨[⟨"y", DataType.TYPE_UNDEFINED, 2⟩, ⟨"x", DataType.TYPE_SCALAR, 1⟩], 2⟩)
     (some ⟨[⟨"y", DataType.TYPE_VECTOR, 2⟩, ⟨"x", DataType.TYPE_SCALAR, 1⟩], 2⟩)
     (by rfl)
     "x" ⟨"x", DataType.TYPE_SCALAR, 1⟩ (by decide) (Or.inl rfl),
   by decide⟩

/-- C6. Name uniqueness is an invariant of the registry: in every registry
reached from the uninitialized state by `symtab_init`, `symtab_insert` calls and
`generateCode` passes, no two entries have the same name, and for every name
the entries with that name are exactly what `symtab_lookup` returns: none when
the lookup is absent, that single entry otherwise. -/
theorem registry_names_unique (g : Option SymTab) (h : Relation.ReflTransGen RegStep none g) :
    ((entries g).map Symbol.name).Nodup ∧
      ∀ name : String, (entries g).filter (fun s => decide (s.name = name))
        = (symtab_lookup g name).toList := by
  have hnodup : ((entries g).map Symbol.name).Nodup := by
    induction h with
    | refl => simp [entries]
    | tail _ hstep ih => exact regStep_names_nodup hstep ih
  refine ⟨hnodup, fun name => ?_⟩
  cases g with
  | none => rfl
  | some t => exact filter_name_eq_lookup t.head hnodup name

/-- C6 at a concrete run: `symtab_init`, then `x` inserted twice. -/
theorem registry_names_unique_witness :
    ((entries (some ⟨[⟨"x", DataType.TYPE_SCALAR, 1⟩], 1⟩)).map Symbol.name).Nodup ∧
      ∀ name : String,
        (entries (some ⟨[⟨"x", DataType.TYPE_SCALAR, 1⟩], 1⟩)).filter
            (fun s => decide (s.name = name))
          = (symtab_lookup (some ⟨[⟨"x", DataType.TYPE_SCALAR, 1⟩], 1⟩) name).toList :=
  registry_names_unique (some ⟨[⟨"x", DataType.TYPE_SCALAR, 1⟩], 1⟩)
    (Relation.ReflTransGen.tail
      (Relation.ReflTransGen.tail
        (Relation.ReflTransGen.single (RegStep.init none))
        (RegStep.insert (some ⟨[], 0⟩) "x" DataType.TYPE_SCALAR 1 ⟨"x", DataType.TYPE_SCALAR, 1⟩
          ⟨[⟨"x", DataType.TYPE_SCALAR, 1⟩], 1⟩ (by decide)))
      (RegStep.insert (some ⟨[⟨"x", DataType.TYPE_SCALAR, 1⟩], 1⟩) "x" DataType.TYPE_VECTOR 7
        ⟨"x", DataType.TYPE_SCALAR, 1⟩ ⟨[⟨"x", DataType.TYPE_SCALAR, 1⟩], 1⟩ (by decide)))

/-- C2 fails as stated: after `symtab_init`, inserting `a` and then `b` gives
the list with `b` at its head; the declarations the loop prints are, in this
order, the one of `b` and the one of `a`, so the declaration block declares `b`
before `a`. -/
theorem declaration_order_counterexample :
    insertAll (symtab_init none)
        [("a", DataType.TYPE_SCALAR, 1), ("b", DataType.TYPE_SCALAR, 2)]
      = some ⟨[⟨"b", DataType.TYPE_SCALAR, 2⟩, ⟨"a", DataType.TYPE_SCALAR, 1⟩], 2⟩ ∧
    (entries (some ⟨[⟨"b", DataType.TYPE_SCALAR, 2⟩, ⟨"a", DataType.TYPE_SCALAR, 1⟩], 2⟩)).map
        declLine
      = ["    double b = 0.0; \n", "    double a = 0.0; \n"] ∧
    (emitDeclarations
        ⟨some ⟨[⟨"b", DataType.TYPE_SCALAR, 2⟩, ⟨"a", DataType.TYPE_SCALAR, 1⟩], 2⟩, "", ""⟩).outfile
      = "    // Variable Declarations\n    double b = 0.0; \n    double a = 0.0; \n\n    // Code Body\n" :=
  ⟨by decide, by decide, by rfl⟩

/-- C2, amended. The declaration block lists the registry entries in reverse
insertion order. For every sequence of `symtab_insert` calls on the freshly
initialized registry in which `a` is inserted before the first insertion of
`b` (the calls `p`, in which `b` does not occur, then a call for `a`, then the
calls `q`, in which `b` occurs), the entry of `b` stands before the entry of
`a` in the list, and the declaration of `b` is emitted before the declaration
of `a`. -/
theorem declarations_in_reverse_insertion_order
    (p q : List (String × DataType × Int)) (a b : String) (ta : DataType) (la : Int)
    (t : SymTab) (out err : String) (hab : a ≠ b)
    (hp : b ∉ p.map (fun op => op.1)) (hq : b ∈ q.map (fun op => op.1))
    (ht : insertAll (symtab_init none) (p ++ (a, ta, la) :: q) = some t) :
    ∃ l1 sb l2 sa l3, sb.name = b ∧ sa.name = a ∧ t.head = l1 ++ sb :: (l2 ++ sa :: l3) ∧
      (emitDeclarations ⟨some t, out, err⟩).outfile =
        out ++ ("    // Variable Declarations\n"
          ++ (String.join (l1.map declLine) ++ (declLine sb
            ++ (String.join (l2.map declLine) ++ (declLine sa
              ++ String.join (l3.map declLine)))))
          ++ "\n    // Code Body\n") := by
  obtain ⟨n1, n2, n3, hn⟩ := insertAll_order p q a b ta la t hab hp hq ht
  obtain ⟨l1, r1, h1, _, hr1⟩ := List.map_eq_append_iff.mp hn
  obtain ⟨sb, r2, h2, hsb, hr2⟩ := List.map_eq_cons_iff.mp hr1
  obtain ⟨l2, r3, h3, _, hr3⟩ := List.map_eq_append_iff.mp hr2
  obtain ⟨sa, l3, h4, hsa, _⟩ := List.map_eq_cons_iff.mp hr3
  have hhead : t.head = l1 ++ sb :: (l2 ++ sa :: l3) := by rw [h1, h2, h3, h4]
  refine ⟨l1, sb, l2, sa, l3, hsb, hsa, hhead, ?_⟩
  rw [emitDeclarations_eq]
  simp only [GenState.out, entries, hhead, List.map_append, List.map_cons, strJoin_append,
    strJoin_cons]

/-- C2, amended, at a concrete run: `a`, then `b`, inserted into the fresh
registry. -/
theorem declarations_in_reverse_insertion_order_witness :
    "a" ≠ "b" ∧ "b" ∉ ([] : List (String × DataType × Int)).map (fun op => op.1) ∧
      "b" ∈ [(("b", DataType.TYPE_VECTOR, 2) : String × DataType × Int)].map (fun op => op.1) ∧
      insertAll (symtab_init none)
          ([] ++ ("a", DataType.TYPE_SCALAR, 1) :: [("b", DataType.TYPE_VECTOR, 2)])
        = some ⟨[⟨"b", DataType.TYPE_VECTOR, 2⟩, ⟨"a", DataType.TYPE_SCALAR, 1⟩], 2⟩ ∧
      ∃ l1 sb l2 sa l3, sb.name = "b" ∧ sa.name = "a" ∧
        [(⟨"b", DataType.TYPE_VECTOR, 2⟩ : Symbol), ⟨"a", DataType.TYPE_SCALAR, 1⟩]
          = l1 ++ sb :: (l2 ++ sa :: l3) ∧
        (emitDeclarations
          ⟨some ⟨[⟨"b", DataType.TYPE_VECTOR, 2⟩, ⟨"a", DataType.TYPE_SCALAR, 1⟩], 2⟩,
            "", ""⟩).outfile =
          "" ++ ("    // Variable Declarations\n"
            ++ (String.join (l1.map declLine) ++ (declLine sb
              ++ (String.join (l2.map declLine) ++ (declLine sa
                ++ String.join (l3.map declLine)))))
            ++ "\n    // Code Body\n") :=
  ⟨by decide, by decide, by decide, by decide,
   declarations_in_reverse_insertion_order [] [("b", DataType.TYPE_VECTOR, 2)] "a" "b"
     DataType.TYPE_SCALAR 1 ⟨[⟨"b", DataType.TYPE_VECTOR, 2⟩, ⟨"a", DataType.TYPE_SCALAR, 1⟩], 2⟩
     "" "" (by decide) (by decide) (by decide) (by decide)⟩

/-- C7. `generateCode` emits exactly one declaration per registry entry, chosen
by the entry's type at the moment the block is written. After the boilerplate
the output continues with the heading of the block, then one declaration for
each entry of the table as it is when `generateCode` starts, in list order,
then the heading of the code body; only then the statement pass runs. The
number of declarations is the number of entries, and the declaration of an
entry is the `Vector` one when its type is Vector and the `double` one when
its type is Scalar or Undefined. -/
theorem generateCode_declares_each_entry (indentStr undef : String) (astRoot : Node)
    (st : GenState) :
    generateCode indentStr undef astRoot st =
        ((stmtList indentStr astRoot 1
          { globalSymTab := st.globalSymTab,
            outfile := st.outfile ++ (String.join (prologueLines undef)
              ++ ("    // Variable Declarations\n"
                ++ String.join ((entries st.globalSymTab).map declLine)
                ++ "\n    // Code Body\n")),
            errfile := st.errfile }).out "\n    return 0;\n").out "\x7d\n" ∧
      ((entries st.globalSymTab).map declLine).length = (entries st.globalSymTab).length ∧
      ∀ s ∈ entries st.globalSymTab,
        (s.type = DataType.TYPE_VECTOR →
          declLine s = "    Vector " ++ s.name ++ "; " ++ s.name ++ ".data=NULL; " ++ s.name
            ++ ".size=0; /* Initialized empty */\n") ∧
        (s.type = DataType.TYPE_SCALAR ∨ s.type = DataType.TYPE_UNDEFINED →
          declLine s = "    double " ++ s.name ++ " = 0.0; \n") := by
  refine ⟨generateCode_eq indentStr undef astRoot st, List.length_map _ _, ?_⟩
  intro s _
  constructor
  · intro hv
    simp [declLine, hv]
  · intro hv
    rcases hv with hv | hv <;> simp [declLine, hv]

/-- C8. For an assignment `name = load_vector(f, c)` whose target is in the
registry and whose argument list is exactly the identifier `f` followed by the
number literal `c`, `generateStatementCode` at indent level `k` prints the
indentation and then, in this order, the row count of the file `"f"`, the
allocation of the vector, the guard on the row count, the column read with the
column index `(int)c`, and the closing brace. Each line after the first starts
with the text of `indentStr`. Nothing is written to `stderr`, and afterwards the
entry of `name` has type Vector. The column index `(int)c` is `c` truncated
towards zero when that integer is in the range of a 32-bit `int` (and
`INT_MIN` otherwise); in particular a literal `c` that is an integer in that
range is emitted as that integer. -/
theorem load_vector_assignment_emits (indentStr name f : String) (c : ℚ)
    (next vnext : Node) (lineno vline fline cline : Int) (k : Nat) (st : GenState) (e : Symbol)
    (h : symtab_lookup st.globalSymTab name = some e) :
    generateStatementCode indentStr
        (.mk next lineno (.assignOp name (.mk vnext vline (.funcCall "load_vector"
          (.mk (.mk .null cline (.num c)) fline (.id f)))))) k st =
      { globalSymTab :=
          Option.map (fun t => t.setType name DataType.TYPE_VECTOR) st.globalSymTab,
        outfile := st.outfile ++ (spaces (4 * k)
          ++ ("size_t " ++ name ++ "_rows = count_file_rows(\"" ++ f ++ "\");\n")
          ++ (indentStr ++ name ++ " = create_vector(" ++ name ++ "_rows);\n")
          ++ (indentStr ++ "if (" ++ name ++ "_rows > 0) \x7b\n")
          ++ (indentStr ++ "    read_double_column(\"" ++ f ++ "\", " ++ fmtD (castInt c) ++ ", "
            ++ name ++ ".data, " ++ name ++ ".size);\n")
          ++ (indentStr ++ "\x7d\n")),
        errfile := st.errfile } ∧
      symtab_lookup (Option.map (fun t => t.setType name DataType.TYPE_VECTOR) st.globalSymTab)
        name = some { e with type := DataType.TYPE_VECTOR } ∧
      castInt c =
        (if -2147483648 ≤ truncTowardsZero c ∧ truncTowardsZero c ≤ 2147483647
          then truncTowardsZero c else -2147483648) ∧
      (∀ n : Int, -2147483648 ≤ n ∧ n ≤ 2147483647 → c = (n : ℚ) → castInt c = n) := by
  refine ⟨?_, ?_, castInt_eq c, ?_⟩
  · simp only [generateStatementCode, stmtNode, stmtAssign, emitIndent_eq, GenState.out, h,
      if_true, assignLoadVector, String.append_assoc]
  · cases hg : st.globalSymTab with
    | none => rw [hg] at h; simp [symtab_lookup] at h
    | some t =>
      rw [hg] at h
      simp only [symtab_lookup] at h
      simp [symtab_lookup, SymTab.setType, lookupFrom_setTypeFrom, h]
  · intro n hn hc
    rw [hc]
    exact castInt_intCast n hn

/-- C8 at Scenario B: `y = load_vector(data, 2)` at indent level 1, with `y` in
the registry and an empty `indentStr`; and the column index for the literals
`3.5`, `-3.5` and `3000000000`. -/
theorem load_vector_assignment_emits_witness :
    symtab_lookup (some ⟨[⟨"y", DataType.TYPE_UNDEFINED, 1⟩], 1⟩) "y"
        = some ⟨"y", DataType.TYPE_UNDEFINED, 1⟩ ∧
      (generateStatementCode ""
          (.mk .null 1 (.assignOp "y" (.mk .null 1 (.funcCall "load_vector"
            (.mk (.mk .null 1 (.num 2)) 1 (.id "data")))))) 1
          ⟨some ⟨[⟨"y", DataType.TYPE_UNDEFINED, 1⟩], 1⟩, "", ""⟩ =
        { globalSymTab := some ⟨[⟨"y", DataType.TYPE_VECTOR, 1⟩], 1⟩,
          outfile := "    size_t y_rows = count_file_rows(\"data\");\ny = create_vector(y_rows);\nif (y_rows > 0) \x7b\n    read_double_column(\"data\", 2, y.data, y.size);\n\x7d\n",
          errfile := "" } ∧
        symtab_lookup (some ⟨[⟨"y", DataType.TYPE_VECTOR, 1⟩], 1⟩) "y"
          = some ⟨"y", DataType.TYPE_VECTOR, 1⟩) ∧
      fmtD (castInt (Rat.mk' 7 2 (by decide) (by decide))) = "3" ∧
      fmtD (castInt (Rat.mk' (-7) 2 (by decide) (by decide))) = "-3" ∧
      fmtD (castInt 3000000000) = "-2147483648" :=
  ⟨by decide,
   ⟨(load_vector_assignment_emits "" "y" "data" 2 .null .null 1 1 1 1 1
      ⟨some ⟨[⟨"y", DataType.TYPE_UNDEFINED, 1⟩], 1⟩, "", ""⟩ ⟨"y", DataType.TYPE_UNDEFINED, 1⟩
      (by decide)).1,
    (load_vector_assignment_emits "" "y" "data" 2 .null .null 1 1 1 1 1
      ⟨some ⟨[⟨"y", DataType.TYPE_UNDEFINED, 1⟩], 1⟩, "", ""⟩ ⟨"y", DataType.TYPE_UNDEFINED, 1⟩
      (by decide)).2.1⟩,
   by decide, by decide, by decide⟩

/-- C9. For an assignment whose target is in the registry and whose value is
a call to `load_vector` with any argument list other than an identifier
followed by a number literal, `generateStatementCode` at indent level `k`
prints the indentation and the comment `/* Codegen Error: Invalid arguments for
load_vector assignment on line N */` and nothing else; the registry and
`stderr` are unchanged; and the statement loop goes on with the statements that
follow, from that state. -/
theorem load_vector_bad_arguments (indentStr name : String) (args next vnext : Node)
    (lineno vline : Int) (k : Nat) (st : GenState) (e : Symbol)
    (h : symtab_lookup st.globalSymTab name = some e)
    (hshape : ∀ (f : String) (c : ℚ) (fline cline : Int),
      args ≠ .mk (.mk .null cline (.num c)) fline (.id f)) :
    generateStatementCode indentStr
        (.mk next lineno (.assignOp name (.mk vnext vline (.funcCall "load_vector" args)))) k st =
      { globalSymTab := st.globalSymTab,
        outfile := st.outfile ++ (spaces (4 * k)
          ++ "/* Codegen Error: Invalid arguments for load_vector assignment on line "
          ++ fmtD lineno ++ " */\n"),
        errfile := st.errfile } ∧
      stmtList indentStr
        (.mk next lineno (.assignOp name (.mk vnext vline (.funcCall "load_vector" args)))) k st =
      stmtList indentStr next k
        { globalSymTab := st.globalSymTab,
          outfile := st.outfile ++ (spaces (4 * k)
            ++ "/* Codegen Error: Invalid arguments for load_vector assignment on line "
            ++ fmtD lineno ++ " */\n"),
          errfile := st.errfile } := by
  have hbad : ∀ s : GenState, assignLoadVector indentStr lineno name args s =
      s.out ("/* Codegen Error: Invalid arguments for load_vector assignment on line "
        ++ fmtD lineno ++ " */\n") := by
    intro s
    unfold assignLoadVector
    split
    · rename_i cline c fline f
      exact absurd rfl (hshape f c fline cline)
    · rfl
  have hnode : stmtNode indentStr lineno
      (.assignOp name (.mk vnext vline (.funcCall "load_vector" args))) k (emitIndent k st) =
      { globalSymTab := st.globalSymTab,
        outfile := st.outfile ++ (spaces (4 * k)
          ++ "/* Codegen Error: Invalid arguments for load_vector assignment on line "
          ++ fmtD lineno ++ " */\n"),
        errfile := st.errfile } := by
    simp only [stmtNode, stmtAssign, emitIndent_eq, GenState.out, h, if_true, hbad,
      String.append_assoc]
  constructor
  · simp only [generateStatementCode, hnode]
  · simp only [stmtList, hnode]

/-- C9 at a concrete statement: `v = load_vector(3)` on line 7, followed by the
expression statement `v`. -/
theorem load_vector_bad_arguments_witness :
    symtab_lookup (some ⟨[⟨"v", DataType.TYPE_SCALAR, 1⟩], 1⟩) "v"
        = some ⟨"v", DataType.TYPE_SCALAR, 1⟩ ∧
      (∀ (f : String) (c : ℚ) (fline cline : Int),
        Node.mk .null 7 (.num 3) ≠ .mk (.mk .null cline (.num c)) fline (.id f)) ∧
      (generateStatementCode ""
          (.mk (.mk .null 8 (.id "v")) 7
            (.assignOp "v" (.mk .null 7 (.funcCall "load_vector" (.mk .null 7 (.num 3)))))) 1
          ⟨some ⟨[⟨"v", DataType.TYPE_SCALAR, 1⟩], 1⟩, "", ""⟩ =
        { globalSymTab := some ⟨[⟨"v", DataType.TYPE_SCALAR, 1⟩], 1⟩,
          outfile := "    /* Codegen Error: Invalid arguments for load_vector assignment on line 7 */\n",
          errfile := "" } ∧
        stmtList ""
          (.mk (.mk .null 8 (.id "v")) 7
            (.assignOp "v" (.mk .null 7 (.funcCall "load_vector" (.mk .null 7 (.num 3)))))) 1
          ⟨some ⟨[⟨"v", DataType.TYPE_SCALAR, 1⟩], 1⟩, "", ""⟩ =
        stmtList "" (.mk .null 8 (.id "v")) 1
          { globalSymTab := some ⟨[⟨"v", DataType.TYPE_SCALAR, 1⟩], 1⟩,
            outfile := "    /* Codegen Error: Invalid arguments for load_vector assignment on line 7 */\n",
            errfile := "" }) :=
  ⟨by decide, fun _ _ _ _ hne => (by cases hne),
   load_vector_bad_arguments "" "v" (.mk .null 7 (.num 3)) (.mk .null 8 (.id "v")) .null 7 7 1
     ⟨some ⟨[⟨"v", DataType.TYPE_SCALAR, 1⟩], 1⟩, "", ""⟩ ⟨"v", DataType.TYPE_SCALAR, 1⟩
     (by decide) (fun _ _ _ _ hne => (by cases hne))⟩

/-- C10. For an assignment whose target is in the registry and whose value is
not a call to `load_vector`, `generateStatementCode` at indent level `k` emits
exactly `4k` spaces, the target name, ` = `, the text `generateExpressionCode`
produces for the value, then `;` and a newline. The registry is unchanged and
`stderr` receives what `generateExpressionCode` reports for the value. -/
theorem plain_assignment_emits (indentStr name : String) (value next : Node) (lineno : Int)
    (k : Nat) (st : GenState) (e : Symbol)
    (h : symtab_lookup st.globalSymTab name = some e)
    (hval : ∀ (vnext : Node) (vline : Int) (args : Node),
      value ≠ .mk vnext vline (.funcCall "load_vector" args)) :
    generateStatementCode indentStr (.mk next lineno (.assignOp name value)) k st =
      { globalSymTab := st.globalSymTab,
        outfile := st.outfile ++ (spaces (4 * k) ++ name ++ " = "
          ++ (generateExpressionCode value ⟨st.globalSymTab, "", ""⟩).outfile ++ ";\n"),
        errfile := st.errfile
          ++ (generateExpressionCode value ⟨st.globalSymTab, "", ""⟩).errfile } := by
  have hplain : ∀ s : GenState, stmtAssign indentStr lineno name value s =
      match symtab_lookup s.globalSymTab name with
      | none =>
        s.err ("Codegen Error line " ++ fmtD lineno
          ++ ": Assignment to undeclared identifier '" ++ name ++ "' (Internal Error?)\n")
      | some _ => assignPlain name value s := by
    intro s
    unfold stmtAssign
    split
    · rfl
    · split
      · rename_i vnext vline fname args
        by_cases hf : fname = "load_vector"
        · subst hf
          exact absurd rfl (hval vnext vline args)
        · simp only [hf, if_false]
      · rfl
  have hframe := generateExpressionCode_frame value
    { globalSymTab := st.globalSymTab, outfile := st.outfile ++ spaces (4 * k) ++ (name ++ " = "),
      errfile := st.errfile }
  simp only [generateStatementCode, stmtNode, hplain, emitIndent_eq, GenState.out, h, assignPlain]
  rw [hframe]
  simp only [GenState.mk.injEq, String.append_assoc, true_and, and_true]

/-- C10 at Scenario A: with `x` registered as a scalar, the assignment `x = 5`
at indent level 1 yields the line `x = 5.000000;`, and the declaration block
declares `x` as `double x = 0.0;`. -/
theorem plain_assignment_emits_witness :
    symtab_lookup (some ⟨[⟨"x", DataType.TYPE_SCALAR, 1⟩], 1⟩) "x"
        = some ⟨"x", DataType.TYPE_SCALAR, 1⟩ ∧
      (∀ (vnext : Node) (vline : Int) (args : Node),
        Node.mk .null 1 (.num 5) ≠ .mk vnext vline (.funcCall "load_vector" args)) ∧
      generateStatementCode "" (.mk .null 1 (.assignOp "x" (.mk .null 1 (.num 5)))) 1
          ⟨some ⟨[⟨"x", DataType.TYPE_SCALAR, 1⟩], 1⟩, "", ""⟩ =
        { globalSymTab := some ⟨[⟨"x", DataType.TYPE_SCALAR, 1⟩], 1⟩,
          outfile := "    x = 5.000000;\n",
          errfile := "" } ∧
      (emitDeclarations ⟨some ⟨[⟨"x", DataType.TYPE_SCALAR, 1⟩], 1⟩, "", ""⟩).outfile
        = "    // Variable Declarations\n    double x = 0.0; \n\n    // Code Body\n" :=
  ⟨by decide, fun _ _ _ hne => (by cases hne),
   plain_assignment_emits "" "x" (.mk .null 1 (.num 5)) .null 1 1
     ⟨some ⟨[⟨"x", DataType.TYPE_SCALAR, 1⟩], 1⟩, "", ""⟩ ⟨"x", DataType.TYPE_SCALAR, 1⟩
     (by decide) (fun _ _ _ hne => (by cases hne)),
   by rfl⟩

/-- C1, the code at the failing input. With `y` registered as a scalar and the
program `y = load_vector(data, 2)`, `generateCode` declares `y` as a `double`,
then emits the vector assignment to `y`, and leaves the registry with `y` of
type Vector: the declared type of `y` does not agree with the type the
registry holds after generation. -/
theorem load_vector_target_declared_double (indentStr undef : String) :
    generateCode indentStr undef progLoadY ⟨some ⟨[⟨"y", DataType.TYPE_SCALAR, 1⟩], 1⟩, "", ""⟩ =
      { globalSymTab := some ⟨[⟨"y", DataType.TYPE_VECTOR, 1⟩], 1⟩,
        outfile := String.join (prologueLines undef)
          ++ ("    // Variable Declarations\n"
          ++ ("    double y = 0.0; \n"
          ++ ("\n    // Code Body\n"
          ++ ("    size_t y_rows = count_file_rows(\"data\");\n"
          ++ (indentStr ++ ("y = create_vector(y_rows);\n"
          ++ (indentStr ++ ("if (y_rows > 0) \x7b\n"
          ++ (indentStr ++ ("    read_double_column(\"data\", 2, y.data, y.size);\n"
          ++ (indentStr ++ ("\x7d\n"
          ++ ("\n    return 0;\n"
          ++ "\x7d\n"))))))))))))),
        errfile := "" } := by
  rw [generateCode_eq]
  have hd : String.join ((entries (some ⟨[⟨"y", DataType.TYPE_SCALAR, 1⟩], 1⟩)).map declLine)
      = "    double y = 0.0; \n" := by rfl
  have hl : symtab_lookup (some ⟨[⟨"y", DataType.TYPE_SCALAR, 1⟩], 1⟩) "y"
      = some ⟨"y", DataType.TYPE_SCALAR, 1⟩ := by decide
  have hs : Option.map (fun t : SymTab => t.setType "y" DataType.TYPE_VECTOR)
      (some ⟨[⟨"y", DataType.TYPE_SCALAR, 1⟩], 1⟩)
      = some ⟨[⟨"y", DataType.TYPE_VECTOR, 1⟩], 1⟩ := by decide
  have h4 : spaces (4 * 1) = "    " := by decide
  have hc : fmtD (castInt 2) = "2" := by decide
  simp only [hd, progLoadY, stmtList, stmtNode, stmtAssign, assignLoadVector, emitIndent_eq,
    GenState.out, hl, hs, h4, hc, if_true, String.append_assoc, String.empty_append,
    GenState.mk.injEq, true_and, and_true]
  rfl

/-- C13. For an identifier node in expression position: when its name is in
the registry, `generateExpressionCode` writes exactly the name to the output
and nothing to `stderr`; when its name is not in the registry, it writes
exactly the marker `/* Error: Undeclared ID <name> */` to the output and exactly
one line, `Codegen Error line N: Use of undeclared identifier '<name>'`, to
`stderr`. The registry is unchanged in both cases, and generation continues: as
an expression statement the undeclared identifier is followed by `;`, and the
statement loop goes on with the statements after it. -/
theorem identifier_expression_emits (indentStr name : String) (next : Node) (lineno : Int)
    (k : Nat) (st : GenState) :
    (∀ e, symtab_lookup st.globalSymTab name = some e →
      generateExpressionCode (.mk next lineno (.id name)) st =
        { globalSymTab := st.globalSymTab, outfile := st.outfile ++ name,
          errfile := st.errfile }) ∧
    (symtab_lookup st.globalSymTab name = none →
      generateExpressionCode (.mk next lineno (.id name)) st =
        { globalSymTab := st.globalSymTab,
          outfile := st.outfile ++ ("/* Error: Undeclared ID " ++ name ++ " */"),
          errfile := st.errfile ++ ("Codegen Error line " ++ fmtD lineno
            ++ ": Use of undeclared identifier '" ++ name ++ "'\n") } ∧
      stmtList indentStr (.mk next lineno (.id name)) k st =
        stmtList indentStr next k
          { globalSymTab := st.globalSymTab,
            outfile := st.outfile ++ (spaces (4 * k)
              ++ ("/* Error: Undeclared ID " ++ name ++ " */") ++ ";\n"),
            errfile := st.errfile ++ ("Codegen Error line " ++ fmtD lineno
              ++ ": Use of undeclared identifier '" ++ name ++ "'\n") }) := by
  refine ⟨?_, ?_⟩
  · intro e he
    simp only [generateExpressionCode, exprNode, he, GenState.out]
  · intro hn
    refine ⟨?_, ?_⟩
    · simp only [generateExpressionCode, exprNode, hn, GenState.out, GenState.err]
    · simp only [stmtList, stmtNode, exprNode, emitIndent_eq, hn, GenState.out, GenState.err,
        String.append_assoc]

/-- C13 at Scenario E: the identifier `u` on line 3, with only `x` in the
registry, as an expression and as an expression statement at indent level 1. -/
theorem identifier_expression_emits_witness :
    symtab_lookup (some ⟨[⟨"x", DataType.TYPE_SCALAR, 1⟩], 1⟩) "u" = none ∧
      (generateExpressionCode (.mk .null 3 (.id "u"))
          ⟨some ⟨[⟨"x", DataType.TYPE_SCALAR, 1⟩], 1⟩, "", ""⟩ =
        { globalSymTab := some ⟨[⟨"x", DataType.TYPE_SCALAR, 1⟩], 1⟩,
          outfile := "/* Error: Undeclared ID u */",
          errfile := "Codegen Error line 3: Use of undeclared identifier 'u'\n" } ∧
        stmtList "" (.mk .null 3 (.id "u")) 1
            ⟨some ⟨[⟨"x", DataType.TYPE_SCALAR, 1⟩], 1⟩, "", ""⟩ =
          stmtList "" .null 1
            { globalSymTab := some ⟨[⟨"x", DataType.TYPE_SCALAR, 1⟩], 1⟩,
              outfile := "    /* Error: Undeclared ID u */;\n",
              errfile := "Codegen Error line 3: Use of undeclared identifier 'u'\n" }) :=
  ⟨by decide,
   (identifier_expression_emits "" "u" .null 3 1
     ⟨some ⟨[⟨"x", DataType.TYPE_SCALAR, 1⟩], 1⟩, "", ""⟩).2 (by decide)⟩

/-- C18 fails as stated: the bare statement `load_vector(d, 0)` at indent level 1
writes the indentation and nothing else, no placeholder comment. -/
theorem load_vector_statement_counterexample :
    generateStatementCode ""
        (.mk .null 1 (.funcCall "load_vector" (.mk (.mk .null 1 (.num 0)) 1 (.id "d")))) 1
        ⟨some ⟨[], 0⟩, "", ""⟩ =
      { globalSymTab := some ⟨[], 0⟩, outfile := "    ", errfile := "" } := by
  rfl

/-- C18, amended. For every argument list, a `load_vector` call used as a bare
statement at indent level `k` writes the `4k` spaces of the indentation and
nothing else (no comment, no call, no line end, nothing on `stderr`), and a
`load_vector` call in expression position emits the placeholder
`/* load_vector used in expression - requires return value handling */` and no
call text. -/
theorem load_vector_outside_assignment (indentStr : String) (args next : Node) (lineno : Int)
    (k : Nat) (st : GenState) :
    generateStatementCode indentStr (.mk next lineno (.funcCall "load_vector" args)) k st =
      { globalSymTab := st.globalSymTab, outfile := st.outfile ++ spaces (4 * k),
        errfile := st.errfile } ∧
    generateExpressionCode (.mk next lineno (.funcCall "load_vector" args)) st =
      { globalSymTab := st.globalSymTab,
        outfile := st.outfile
          ++ "/* load_vector used in expression - requires return value handling */",
        errfile := st.errfile } := by
  refine ⟨?_, ?_⟩
  · simp only [generateStatementCode, stmtNode, emitIndent_eq, GenState.out]
    unfold stmtFuncCall
    simp
  · simp only [generateExpressionCode, exprNode, if_true, GenState.out]

/-- C20. The registry only grows: over every registry operation (`symtab_init`,
a `symtab_insert` call, a `generateCode` pass over any program), every name
for which `symtab_lookup` returned an entry before still returns an entry
afterwards, and neither the `count` field nor the number of entries in the list
decreases. -/
theorem registry_only_grows (g g' : Option SymTab) (h : RegStep g g') :
    (∀ name e, symtab_lookup g name = some e → ∃ e', symtab_lookup g' name = some e') ∧
      countOf g ≤ countOf g' ∧ (entries g).length ≤ (entries g').length := by
  refine ⟨?_, ?_⟩
  · intro name e he
    obtain ⟨e', h1, _⟩ := regStep_lookup h name e he
    exact ⟨e', h1⟩
  · cases h with
    | init =>
      cases g with
      | none => simp [symtab_init, countOf, entries]
      | some t => simp [symtab_init]
    | insert name type lineno s t' hins =>
      cases g with
      | none => simp [symtab_insert] at hins
      | some t => exact symtab_insert_count t t' name type lineno s hins
    | generate indentStr undef astRoot out err =>
      have hk := generateCode_keeps indentStr undef astRoot ⟨g, out, err⟩
      generalize (generateCode indentStr undef astRoot ⟨g, out, err⟩).globalSymTab = g' at hk
      cases g with
      | none =>
        cases g' with
        | none => simp
        | some t' => simp [TabUpgraded] at hk
      | some t =>
        cases g' with
        | none => simp [TabUpgraded] at hk
        | some t' =>
          simp only [TabUpgraded] at hk
          refine ⟨?_, ?_⟩
          · simp only [countOf, hk.1]
            exact Int.le_refl _
          · simp only [entries]
            have h1 : t'.head.length = (t'.head.map Symbol.name).length := by simp
            have h2 : t.head.length = (t.head.map Symbol.name).length := by simp
            rw [h1, h2, names_upgraded hk.2]

/-- C20 at a concrete operation: `z` inserted into the table that holds `x`. -/
theorem registry_only_grows_witness :
    (∀ name e, symtab_lookup (some ⟨[⟨"x", DataType.TYPE_SCALAR, 1⟩], 1⟩) name = some e →
        ∃ e', symtab_lookup
          (some ⟨[⟨"z", DataType.TYPE_VECTOR, 4⟩, ⟨"x", DataType.TYPE_SCALAR, 1⟩], 2⟩) name
            = some e') ∧
      countOf (some ⟨[⟨"x", DataType.TYPE_SCALAR, 1⟩], 1⟩)
        ≤ countOf (some ⟨[⟨"z", DataType.TYPE_VECTOR, 4⟩, ⟨"x", DataType.TYPE_SCALAR, 1⟩], 2⟩) ∧
      (entries (some ⟨[⟨"x", DataType.TYPE_SCALAR, 1⟩], 1⟩)).length
        ≤ (entries
            (some ⟨[⟨"z", DataType.TYPE_VECTOR, 4⟩, ⟨"x", DataType.TYPE_SCALAR, 1⟩], 2⟩)).length :=
  registry_only_grows (some ⟨[⟨"x", DataType.TYPE_SCALAR, 1⟩], 1⟩)
    (some ⟨[⟨"z", DataType.TYPE_VECTOR, 4⟩, ⟨"x", DataType.TYPE_SCALAR, 1⟩], 2⟩)
    (RegStep.insert (some ⟨[⟨"x", DataType.TYPE_SCALAR, 1⟩], 1⟩) "z" DataType.TYPE_VECTOR 4
      ⟨"z", DataType.TYPE_VECTOR, 4⟩
      ⟨[⟨"z", DataType.TYPE_VECTOR, 4⟩, ⟨"x", DataType.TYPE_SCALAR, 1⟩], 2⟩ (by decide))

/-- C16 fails as stated: `print_vector()` without an argument, at indent level
1, writes the error comment to the output and nothing to `stderr`. -/
theorem builtin_bad_arguments_counterexample :
    generateStatementCode "" (.mk .null 1 (.funcCall "print_vector" .null)) 1
        ⟨some ⟨[], 0⟩, "", ""⟩ =
      { globalSymTab := some ⟨[], 0⟩,
        outfile := "    /* Codegen Error: Invalid arguments for print_vector */\n",
        errfile := "" } := by
  rfl

/-- C16, amended. For every call to a built-in whose arguments have the wrong
count or the wrong node kind, the generator writes the indentation and the
diagnostic comment of that built-in into the output, writes nothing to
`stderr`, leaves the registry alone, and then continues with the next
statement. The built-ins are `print_vector`, `average`, `max_val` and
`save_plot` (anything but one identifier), `plot_xy` (anything but two
identifiers) and `load_vector` in an assignment to a registered name (anything
but an identifier followed by a number literal). -/
theorem builtin_bad_arguments (indentStr : String) (args next : Node) (lineno : Int) (k : Nat)
    (st : GenState) :
    ((∀ (l : Int) (s : String), args ≠ .mk .null l (.id s)) →
      generateStatementCode indentStr (.mk next lineno (.funcCall "print_vector" args)) k st =
        { globalSymTab := st.globalSymTab,
          outfile := st.outfile ++ (spaces (4 * k)
            ++ "/* Codegen Error: Invalid arguments for print_vector */\n"),
          errfile := st.errfile } ∧
      generateStatementCode indentStr (.mk next lineno (.funcCall "average" args)) k st =
        { globalSymTab := st.globalSymTab,
          outfile := st.outfile ++ (spaces (4 * k)
            ++ "/* Codegen Error: Invalid arguments for average */\n"),
          errfile := st.errfile } ∧
      generateStatementCode indentStr (.mk next lineno (.funcCall "max_val" args)) k st =
        { globalSymTab := st.globalSymTab,
          outfile := st.outfile ++ (spaces (4 * k)
            ++ "/* Codegen Error: Invalid arguments for max_val */\n"),
          errfile := st.errfile } ∧
      generateStatementCode indentStr (.mk next lineno (.funcCall "save_plot" args)) k st =
        { globalSymTab := st.globalSymTab,
          outfile := st.outfile ++ (spaces (4 * k)
            ++ "/* Codegen Error: Invalid argument for save_plot (expecting filename ID/string) */\n"),
          errfile := st.errfile }) ∧
    ((∀ (lx ly : Int) (x y : String), args ≠ .mk (.mk .null ly (.id y)) lx (.id x)) →
      generateStatementCode indentStr (.mk next lineno (.funcCall "plot_xy" args)) k st =
        { globalSymTab := st.globalSymTab,
          outfile := st.outfile ++ (spaces (4 * k)
            ++ "/* Codegen Error: Invalid arguments for plot_xy (expecting two vector IDs) */\n"),
          errfile := st.errfile }) ∧
    (∀ (name : String) (vnext : Node) (vline : Int) (e : Symbol),
      symtab_lookup st.globalSymTab name = some e →
      (∀ (f : String) (c : ℚ) (fline cline : Int),
        args ≠ .mk (.mk .null cline (.num c)) fline (.id f)) →
      generateStatementCode indentStr
          (.mk next lineno (.assignOp name (.mk vnext vline (.funcCall "load_vector" args)))) k st =
        { globalSymTab := st.globalSymTab,
          outfile := st.outfile ++ (spaces (4 * k)
            ++ ("/* Codegen Error: Invalid arguments for load_vector assignment on line "
              ++ fmtD lineno ++ " */\n")),
          errfile := st.errfile }) ∧
    (∀ d : NodeData, stmtList indentStr (.mk next lineno d) k st =
      stmtList indentStr next k (generateStatementCode indentStr (.mk next lineno d) k st)) := by
  refine ⟨?_, ?_, ?_, ?_⟩
  · intro hs
    have h1 := fun s => (stmtFuncCall_bad_single indentStr args hs s).1
    have h2 := fun s => (stmtFuncCall_bad_single indentStr args hs s).2.1
    have h3 := fun s => (stmtFuncCall_bad_single indentStr args hs s).2.2.1
    have h4 := fun s => (stmtFuncCall_bad_single indentStr args hs s).2.2.2
    refine ⟨?_, ?_, ?_, ?_⟩
    · simp only [generateStatementCode, stmtNode, h1, emitIndent_eq, GenState.out,
        String.append_assoc]
    · simp only [generateStatementCode, stmtNode, h2, emitIndent_eq, GenState.out,
        String.append_assoc]
    · simp only [generateStatementCode, stmtNode, h3, emitIndent_eq, GenState.out,
        String.append_assoc]
    · simp only [generateStatementCode, stmtNode, h4, emitIndent_eq, GenState.out,
        String.append_assoc]
  · intro hs
    have h1 := fun s => stmtFuncCall_bad_plot indentStr args hs s
    simp only [generateStatementCode, stmtNode, h1, emitIndent_eq, GenState.out,
      String.append_assoc]
  · intro name vnext vline e he hs
    simp only [generateStatementCode, stmtNode, stmtAssign, emitIndent_eq, GenState.out, he,
      if_true, assignLoadVector_bad indentStr lineno name args hs, String.append_assoc]
  · intro d
    simp only [stmtList, generateStatementCode]

/-- C16, amended, at concrete calls: `average(1)` and the others with the number
literal `1` as the only argument, on line 5 at indent level 1. -/
theorem builtin_bad_arguments_witness :
    (∀ (l : Int) (s : String), Node.mk .null 5 (.num 1) ≠ .mk .null l (.id s)) ∧
      (generateStatementCode "" (.mk .null 5 (.funcCall "print_vector" (.mk .null 5 (.num 1)))) 1
          ⟨none, "", ""⟩ =
        { globalSymTab := none,
          outfile := "    /* Codegen Error: Invalid arguments for print_vector */\n",
          errfile := "" } ∧
      generateStatementCode "" (.mk .null 5 (.funcCall "average" (.mk .null 5 (.num 1)))) 1
          ⟨none, "", ""⟩ =
        { globalSymTab := none,
          outfile := "    /* Codegen Error: Invalid arguments for average */\n",
          errfile := "" } ∧
      generateStatementCode "" (.mk .null 5 (.funcCall "max_val" (.mk .null 5 (.num 1)))) 1
          ⟨none, "", ""⟩ =
        { globalSymTab := none,
          outfile := "    /* Codegen Error: Invalid arguments for max_val */\n",
          errfile := "" } ∧
      generateStatementCode "" (.mk .null 5 (.funcCall "save_plot" (.mk .null 5 (.num 1)))) 1
          ⟨none, "", ""⟩ =
        { globalSymTab := none,
          outfile := "    /* Codegen Error: Invalid argument for save_plot (expecting filename ID/string) */\n",
          errfile := "" }) :=
  ⟨fun _ _ hne => (by cases hne),
   (builtin_bad_arguments "" (.mk .null 5 (.num 1)) .null 5 1 ⟨none, "", ""⟩).1
     (fun _ _ hne => (by cases hne))⟩

/-- C15 fails as stated: the assignment `z = 1` on line 2 to a name that is not
in the registry, at indent level 1, is reported on `stderr`, and the text
written to the output for it is the indentation alone, without a marker. -/
theorem error_marker_counterexample :
    generateStatementCode "" (.mk .null 2 (.assignOp "z" (.mk .null 2 (.num 1)))) 1
        ⟨some ⟨[], 0⟩, "", ""⟩ =
      { globalSymTab := some ⟨[], 0⟩,
        outfile := "    ",
        errfile := "Codegen Error line 2: Assignment to undeclared identifier 'z' (Internal Error?)\n" } := by
  rfl

/-- C15, amended. Of the recoverable errors that are reported on `stderr`, the
use of an undeclared identifier in an expression leaves the marker
`/* Error: Undeclared ID <name> */` in the output at that position. The others
are reported on `stderr` only: an assignment to an undeclared name writes the
indentation and nothing else; a node of an unsupported kind in expression
position (an assignment, an if or a while node) writes nothing; an unknown
binary operator writes the parentheses and the two operands with nothing
between them; an unknown unary operator writes the parentheses and the operand. -/
theorem error_markers (indentStr name : String) (next value left right c t e b : Node)
    (lineno : Int) (k : Nat) (st : GenState) :
    (symtab_lookup st.globalSymTab name = none →
      generateExpressionCode (.mk next lineno (.id name)) st =
        { globalSymTab := st.globalSymTab,
          outfile := st.outfile ++ ("/* Error: Undeclared ID " ++ name ++ " */"),
          errfile := st.errfile ++ ("Codegen Error line " ++ fmtD lineno
            ++ ": Use of undeclared identifier '" ++ name ++ "'\n") } ∧
      generateStatementCode indentStr (.mk next lineno (.assignOp name value)) k st =
        { globalSymTab := st.globalSymTab,
          outfile := st.outfile ++ spaces (4 * k),
          errfile := st.errfile ++ ("Codegen Error line " ++ fmtD lineno
            ++ ": Assignment to undeclared identifier '" ++ name ++ "' (Internal Error?)\n") }) ∧
    generateExpressionCode (.mk next lineno (.assignOp name value)) st =
      { globalSymTab := st.globalSymTab, outfile := st.outfile,
        errfile := st.errfile ++ ("Codegen Error: Unsupported expression node type 5 on line "
          ++ fmtD lineno ++ "\n") } ∧
    generateExpressionCode (.mk next lineno (.ifStmt c t e)) st =
      { globalSymTab := st.globalSymTab, outfile := st.outfile,
        errfile := st.errfile ++ ("Codegen Error: Unsupported expression node type 6 on line "
          ++ fmtD lineno ++ "\n") } ∧
    generateExpressionCode (.mk next lineno (.whileStmt c b)) st =
      { globalSymTab := st.globalSymTab, outfile := st.outfile,
        errfile := st.errfile ++ ("Codegen Error: Unsupported expression node type 7 on line "
          ++ fmtD lineno ++ "\n") } ∧
    generateExpressionCode (.mk next lineno (.binOp OpType.OP_UMINUS left right)) st =
      { globalSymTab := st.globalSymTab,
        outfile := st.outfile ++ ("(" ++ (exprText st.globalSymTab left
          ++ (exprText st.globalSymTab right ++ ")"))),
        errfile := st.errfile ++ (exprDiag st.globalSymTab left
          ++ ("Codegen Error: Unknown binary operator\n" ++ exprDiag st.globalSymTab right)) } ∧
    (∀ op : OpType, op ≠ OpType.OP_UMINUS →
      generateExpressionCode (.mk next lineno (.unaryOp op value)) st =
        { globalSymTab := st.globalSymTab,
          outfile := st.outfile ++ ("(" ++ (exprText st.globalSymTab value ++ ")")),
          errfile := st.errfile ++ ("Codegen Error: Unknown unary operator\n"
            ++ exprDiag st.globalSymTab value) }) := by
  refine ⟨?_, ?_, ?_, ?_, ?_, ?_⟩
  · intro hn
    refine ⟨?_, ?_⟩
    · simp only [generateExpressionCode, exprNode, hn, GenState.out, GenState.err]
    · simp only [generateStatementCode, stmtNode, stmtAssign, emitIndent_eq, hn, GenState.out,
        GenState.err]
  · simp only [generateExpressionCode, exprNode, GenState.err, NodeData.type, NodeType.toInt]
    rfl
  · simp only [generateExpressionCode, exprNode, GenState.err, NodeData.type, NodeType.toInt]
    rfl
  · simp only [generateExpressionCode, exprNode, GenState.err, NodeData.type, NodeType.toInt]
    rfl
  · rw [generateExpressionCode_binOp]
    simp only [emitBinOp, GenState.err, String.empty_append]
  · intro op hop
    rw [generateExpressionCode_unaryOp]
    cases op <;> first | exact absurd rfl hop | simp only [emitUnaryOp, GenState.err, String.empty_append]

/-- C15, amended, at a concrete state: the name `z` on line 2 with an empty
registry, as an expression and as the target of `z = 1` at indent level 1. -/
theorem error_markers_witness :
    symtab_lookup (some ⟨[], 0⟩) "z" = none ∧
      (generateExpressionCode (.mk .null 2 (.id "z")) ⟨some ⟨[], 0⟩, "", ""⟩ =
        { globalSymTab := some ⟨[], 0⟩,
          outfile := "/* Error: Undeclared ID z */",
          errfile := "Codegen Error line 2: Use of undeclared identifier 'z'\n" } ∧
      generateStatementCode "" (.mk .null 2 (.assignOp "z" (.mk .null 2 (.num 1)))) 1
          ⟨some ⟨[], 0⟩, "", ""⟩ =
        { globalSymTab := some ⟨[], 0⟩,
          outfile := "    ",
          errfile := "Codegen Error line 2: Assignment to undeclared identifier 'z' (Internal Error?)\n" }) :=
  ⟨by decide,
   (error_markers "" "z" .null (.mk .null 2 (.num 1)) .null .null .null .null .null .null 2 1
     ⟨some ⟨[], 0⟩, "", ""⟩).1 (by decide)⟩

/-- C11. Every operation node is emitted wrapped in its own pair of
parentheses. For a binary node with operator `+`, `-`, `*` or `/` the text is
`(`, the text of the left operand, the operator between two spaces, the text
of the right operand, `)`; for a unary-minus node the text is `(-`, the text
of the operand, `)`. Consequently, in the text of every expression tree the
number of opening parentheses is the number of its operation nodes plus the
opening parentheses in the texts of its leaves, and the same holds for the
closing parentheses: each operation node contributes exactly one pair,
whatever the operators are. -/
theorem operations_parenthesized (g : Option SymTab) (next left right operand : Node)
    (lineno : Int) :
    exprText g (.mk next lineno (.binOp OpType.OP_PLUS left right))
        = "(" ++ exprText g left ++ " + " ++ exprText g right ++ ")" ∧
      exprText g (.mk next lineno (.binOp OpType.OP_MINUS left right))
        = "(" ++ exprText g left ++ " - " ++ exprText g right ++ ")" ∧
      exprText g (.mk next lineno (.binOp OpType.OP_STAR left right))
        = "(" ++ exprText g left ++ " * " ++ exprText g right ++ ")" ∧
      exprText g (.mk next lineno (.binOp OpType.OP_DIV left right))
        = "(" ++ exprText g left ++ " / " ++ exprText g right ++ ")" ∧
      exprText g (.mk next lineno (.unaryOp OpType.OP_UMINUS operand))
        = "(-" ++ exprText g operand ++ ")" ∧
      ∀ n : Node,
        (exprText g n).data.count '(' = opCount n + leafCount '(' g n ∧
        (exprText g n).data.count ')' = opCount n + leafCount ')' g n := by
  refine ⟨?_, ?_, ?_, ?_, ?_, ?_⟩
  · rw [exprText_binOp]
    simp only [emitBinOp, GenState.out, String.empty_append, String.append_assoc]
  · rw [exprText_binOp]
    simp only [emitBinOp, GenState.out, String.empty_append, String.append_assoc]
  · rw [exprText_binOp]
    simp only [emitBinOp, GenState.out, String.empty_append, String.append_assoc]
  · rw [exprText_binOp]
    simp only [emitBinOp, GenState.out, String.empty_append, String.append_assoc]
  · rw [exprText_unaryOp]
    simp only [emitUnaryOp, GenState.out, String.empty_append, String.append_assoc]
    rfl
  · intro n
    exact ⟨paren_count '(' (Or.inl rfl) g n, paren_count ')' (Or.inr rfl) g n⟩

/-- C11 at a concrete tree: `(x + (-y)) * 2` with `x` and `y` in the registry
has three operation nodes and is emitted with three pairs of parentheses. -/
theorem operations_parenthesized_witness :
    exprText (some ⟨[⟨"y", DataType.TYPE_SCALAR, 2⟩, ⟨"x", DataType.TYPE_SCALAR, 1⟩], 2⟩)
        (.mk .null 1 (.binOp OpType.OP_STAR
          (.mk .null 1 (.binOp OpType.OP_PLUS (.mk .null 1 (.id "x"))
            (.mk .null 1 (.unaryOp OpType.OP_UMINUS (.mk .null 1 (.id "y"))))))
          (.mk .null 1 (.num 2))))
      = "((x + (-y)) * 2.000000)" ∧
    ((exprText (some ⟨[⟨"y", DataType.TYPE_SCALAR, 2⟩, ⟨"x", DataType.TYPE_SCALAR, 1⟩], 2⟩)
        (.mk .null 1 (.binOp OpType.OP_STAR
          (.mk .null 1 (.binOp OpType.OP_PLUS (.mk .null 1 (.id "x"))
            (.mk .null 1 (.unaryOp OpType.OP_UMINUS (.mk .null 1 (.id "y"))))))
          (.mk .null 1 (.num 2))))).data.count '(' = 3 + 0 ∧
     (exprText (some ⟨[⟨"y", DataType.TYPE_SCALAR, 2⟩, ⟨"x", DataType.TYPE_SCALAR, 1⟩], 2⟩)
        (.mk .null 1 (.binOp OpType.OP_STAR
          (.mk .null 1 (.binOp OpType.OP_PLUS (.mk .null 1 (.id "x"))
            (.mk .null 1 (.unaryOp OpType.OP_UMINUS (.mk .null 1 (.id "y"))))))
          (.mk .null 1 (.num 2))))).data.count ')' = 3 + 0) :=
  ⟨by rfl,
   (operations_parenthesized
     (some ⟨[⟨"y", DataType.TYPE_SCALAR, 2⟩, ⟨"x", DataType.TYPE_SCALAR, 1⟩], 2⟩)
     .null .null .null .null 1).2.2.2.2.2 _⟩

/-- C19. For every program and every name that the registry holds with type
Scalar or Undefined when `generateCode` starts and that is not the target of a
`load_vector` assignment anywhere in the program, `generateCode` emits the
numeric declaration `    double name = 0.0; ` for its entry, between the
declarations of the entries before and after it in the list, and after
generation `symtab_lookup` finds the same entry for the name as before, so its
type is unchanged. -/
theorem scalar_names_declared_double (indentStr undef : String) (astRoot : Node)
    (st : GenState) (name : String) (e : Symbol)
    (he : symtab_lookup st.globalSymTab name = some e)
    (hty : e.type = DataType.TYPE_SCALAR ∨ e.type = DataType.TYPE_UNDEFINED)
    (hnot : name ∉ loadTargets (fun _ => true) astRoot) :
    (∃ before after, entries st.globalSymTab = before ++ e :: after ∧
      generateCode indentStr undef astRoot st =
        ((stmtList indentStr astRoot 1
          { globalSymTab := st.globalSymTab,
            outfile := st.outfile ++ (String.join (prologueLines undef)
              ++ ("    // Variable Declarations\n"
                ++ (String.join (before.map declLine)
                  ++ ("    double " ++ name ++ " = 0.0; \n"
                    ++ String.join (after.map declLine)))
                ++ "\n    // Code Body\n")),
            errfile := st.errfile }).out "\n    return 0;\n").out "\x7d\n") ∧
      symtab_lookup (generateCode indentStr undef astRoot st).globalSymTab name = some e := by
  refine ⟨?_, ?_⟩
  · cases hg : st.globalSymTab with
    | none => rw [hg] at he; simp [symtab_lookup] at he
    | some t =>
      rw [hg] at he
      obtain ⟨before, after, hsplit, _, hname⟩ := lookupFrom_some_split name t.head e he
      refine ⟨before, after, hsplit, ?_⟩
      have hd : declLine e = "    double " ++ name ++ " = 0.0; \n" := by
        rcases hty with h | h <;> simp [declLine, h, hname]
      rw [generateCode_eq, hg]
      simp only [entries, hsplit, List.map_append, List.map_cons, strJoin_append, strJoin_cons, hd]
  · rw [generateCode_untouched indentStr undef name (fun _ => true) (fun _ _ => rfl) astRoot hnot st]
    exact he

/-- C19 at a concrete program: `x = 5` followed by `y = load_vector(data, 2)`,
with `y` and `x` in the registry; `x` is declared as a `double` and stays a
scalar. -/
theorem scalar_names_declared_double_witness :
    symtab_lookup (some ⟨[⟨"y", DataType.TYPE_UNDEFINED, 2⟩, ⟨"x", DataType.TYPE_SCALAR, 1⟩], 2⟩)
        "x" = some ⟨"x", DataType.TYPE_SCALAR, 1⟩ ∧
      "x" ∉ loadTargets (fun _ => true)
        (.mk progLoadY 1 (.assignOp "x" (.mk .null 1 (.num 5)))) ∧
      symtab_lookup (generateCode "" ""
          (.mk progLoadY 1 (.assignOp "x" (.mk .null 1 (.num 5))))
          ⟨some ⟨[⟨"y", DataType.TYPE_UNDEFINED, 2⟩, ⟨"x", DataType.TYPE_SCALAR, 1⟩], 2⟩,
            "", ""⟩).globalSymTab "x" = some ⟨"x", DataType.TYPE_SCALAR, 1⟩ :=
  ⟨by decide, by decide,
   (scalar_names_declared_double "" "" (.mk progLoadY 1 (.assignOp "x" (.mk .null 1 (.num 5))))
     ⟨some ⟨[⟨"y", DataType.TYPE_UNDEFINED, 2⟩, ⟨"x", DataType.TYPE_SCALAR, 1⟩], 2⟩, "", ""⟩
     "x" ⟨"x", DataType.TYPE_SCALAR, 1⟩ (by decide) (Or.inl rfl) (by decide)).2⟩

/-- C14. For every chain of top-level statements, the text `generateCode` emits
between the declaration block and the final `return 0;` is the concatenation,
in input order, of the texts `generateStatementCode` emits for each statement
on its own, at indent level 1, from an empty output on the registry
`generateCode` started with; the same holds for what is written to `stderr`.
So no statement, whether it produces an error marker or a diagnostic or not,
changes or suppresses the text emitted for another one, and for the empty
program nothing stands between the declaration block and the `return 0;`. -/
theorem body_is_concatenation (indentStr undef : String) (astRoot : Node) (st : GenState) :
    (generateCode indentStr undef astRoot st).outfile =
        st.outfile ++ (String.join (prologueLines undef)
          ++ ("    // Variable Declarations\n"
            ++ String.join ((entries st.globalSymTab).map declLine)
            ++ "\n    // Code Body\n"))
          ++ String.join ((chainNodes astRoot).map
              (fun s => (generateStatementCode indentStr s 1 ⟨st.globalSymTab, "", ""⟩).outfile))
          ++ "\n    return 0;\n" ++ "\x7d\n" ∧
      (generateCode indentStr undef astRoot st).errfile =
        st.errfile ++ String.join ((chainNodes astRoot).map
          (fun s => (generateStatementCode indentStr s 1 ⟨st.globalSymTab, "", ""⟩).errfile)) ∧
      (generateCode indentStr undef .null st).outfile =
        st.outfile ++ (String.join (prologueLines undef)
          ++ ("    // Variable Declarations\n"
            ++ String.join ((entries st.globalSymTab).map declLine)
            ++ "\n    // Code Body\n"))
          ++ "\n    return 0;\n" ++ "\x7d\n" := by
  have key := stmtList_text indentStr 1 st.globalSymTab astRoot
    { globalSymTab := st.globalSymTab,
      outfile := st.outfile ++ (String.join (prologueLines undef)
        ++ ("    // Variable Declarations\n"
          ++ String.join ((entries st.globalSymTab).map declLine)
          ++ "\n    // Code Body\n")),
      errfile := st.errfile } (sameNames_refl _)
  refine ⟨?_, ?_, ?_⟩
  · rw [generateCode_eq]
    simp only [GenState.out, key.1]
  · rw [generateCode_eq]
    simp only [GenState.out, key.2]
  · rw [generateCode_eq]
    simp only [stmtList, GenState.out]

/-- C14 at a concrete program: the expression statement `u` with `u` not in the
registry, followed by `x = 5`; the second statement is emitted as it is on its
own. -/
theorem body_is_concatenation_witness :
    String.join ((chainNodes (.mk (.mk .null 2 (.assignOp "x" (.mk .null 2 (.num 5)))) 1
        (.id "u"))).map
      (fun s => (generateStatementCode "" s 1
        ⟨some ⟨[⟨"x", DataType.TYPE_SCALAR, 1⟩], 1⟩, "", ""⟩).outfile))
      = "    /* Error: Undeclared ID u */;\n    x = 5.000000;\n" ∧
    (generateCode "" "" (.mk (.mk .null 2 (.assignOp "x" (.mk .null 2 (.num 5)))) 1 (.id "u"))
        ⟨some ⟨[⟨"x", DataType.TYPE_SCALAR, 1⟩], 1⟩, "", ""⟩).errfile =
      "" ++ String.join ((chainNodes (.mk (.mk .null 2 (.assignOp "x" (.mk .null 2 (.num 5)))) 1
          (.id "u"))).map
        (fun s => (generateStatementCode "" s 1
          ⟨some ⟨[⟨"x", DataType.TYPE_SCALAR, 1⟩], 1⟩, "", ""⟩).errfile)) :=
  ⟨by rfl,
   (body_is_concatenation "" ""
     (.mk (.mk .null 2 (.assignOp "x" (.mk .null 2 (.num 5)))) 1 (.id "u"))
     ⟨some ⟨[⟨"x", DataType.TYPE_SCALAR, 1⟩], 1⟩, "", ""⟩).2.1⟩

/-- C17 fails as stated: with an empty registry, `print_vector(v)` at indent
level 1 emits the call on the undeclared `v` as it stands, without an inline
error marker, and nothing is written to `stderr`. -/
theorem undeclared_builtin_argument_counterexample :
    symtab_lookup (some ⟨[], 0⟩) "v" = none ∧
      generateStatementCode "" (.mk .null 1 (.funcCall "print_vector" (.mk .null 1 (.id "v")))) 1
          ⟨some ⟨[], 0⟩, "", ""⟩ =
        { globalSymTab := some ⟨[], 0⟩,
          outfile := "    print_vector_runtime(v, \"v\");\n",
          errfile := "" } :=
  ⟨by decide, by rfl⟩

/-- C17, amended. Every undeclared identifier that `generateExpressionCode`
reaches is reported and marked. `generateExpressionCode` is called on the value
of an assignment to a registered name (unless the value is a `load_vector`
call), on an expression statement, on the condition of an if or a while
statement, and on the arguments of a statement-level call to a name that is not
a built-in; the statements in the blocks of if and while statements are
treated the same way; and within an expression it reaches the expression
itself, the operands of binary and unary operations and the arguments of calls
to any name other than `load_vector`. For every identifier node reached in this
way, on line `l` with name `s`, if `s` is not in the registry then the output
of `generateCode` contains the marker `/* Error: Undeclared ID s */` and
`stderr` contains the diagnostic for line `l` and `s`.
No other identifier is checked. The identifier arguments of the statement-level
calls `print_vector(v)`, `average(v)`, `max_val(v)`, `save_plot(v)` and
`plot_xy(v, w)`, and the file argument of `load_vector` in an assignment, are
emitted as they stand, whether they are in the registry or not, with no marker
and nothing on `stderr`. The arguments of a statement-level `histogram` call,
the elements of a vector literal and the arguments of a `load_vector` call in
expression position are not emitted at all: a fixed placeholder is, and nothing
goes to `stderr`. The value of an assignment to an unregistered name is not
emitted either: only the diagnostic for the assignment is written. -/
theorem undeclared_identifiers_marked (indentStr undef : String) (astRoot next : Node)
    (lineno la lb : Int) (k : Nat) (v w : String) (st : GenState) :
    (∀ (l : Int) (s : String), (l, s) ∈ stmtIds st.globalSymTab astRoot →
      symtab_lookup st.globalSymTab s = none →
      ∃ p q p' q' : String,
        (generateCode indentStr undef astRoot st).outfile
          = st.outfile ++ (p ++ (undeclaredMarker s ++ q)) ∧
        (generateCode indentStr undef astRoot st).errfile
          = st.errfile ++ (p' ++ (undeclaredDiag l s ++ q'))) ∧
    generateStatementCode indentStr
        (.mk next lineno (.funcCall "print_vector" (.mk .null la (.id v)))) k st =
      { globalSymTab := st.globalSymTab,
        outfile := st.outfile ++ (spaces (4 * k)
          ++ ("print_vector_runtime(" ++ v ++ ", \"" ++ v ++ "\");\n")),
        errfile := st.errfile } ∧
    generateStatementCode indentStr
        (.mk next lineno (.funcCall "average" (.mk .null la (.id v)))) k st =
      { globalSymTab := st.globalSymTab,
        outfile := st.outfile ++ (spaces (4 * k)
          ++ ("printf(\"Average of " ++ v ++ ": %f\\n\", average_runtime(" ++ v ++ "));\n")),
        errfile := st.errfile } ∧
    generateStatementCode indentStr
        (.mk next lineno (.funcCall "max_val" (.mk .null la (.id v)))) k st =
      { globalSymTab := st.globalSymTab,
        outfile := st.outfile ++ (spaces (4 * k)
          ++ ("printf(\"Max value of " ++ v ++ ": %f\\n\", max_val_runtime(" ++ v ++ "));\n")),
        errfile := st.errfile } ∧
    generateStatementCode indentStr
        (.mk next lineno (.funcCall "save_plot" (.mk .null la (.id v)))) k st =
      { globalSymTab := st.globalSymTab,
        outfile := st.outfile ++ (spaces (4 * k)
          ++ ("/* TODO: Set global flags for save_plot(\"" ++ v ++ "\") */\n")),
        errfile := st.errfile } ∧
    generateStatementCode indentStr
        (.mk next lineno (.funcCall "plot_xy" (.mk (.mk .null lb (.id w)) la (.id v)))) k st =
      { globalSymTab := st.globalSymTab,
        outfile := st.outfile ++ (spaces (4 * k)
          ++ ("if (write_xy_to_file(" ++ v ++ ", " ++ w ++ ", \"gnuplot_data.tmp\")) \x7b\n")
          ++ (indentStr ++ "    FILE *gnuplotPipe = open_gnuplot();\n")
          ++ (indentStr ++ "    if (gnuplotPipe) \x7b\n")
          ++ (indentStr
            ++ "        fprintf(gnuplotPipe, \"plot 'gnuplot_data.tmp' using 1:2 with linespoints title '"
            ++ w ++ " vs " ++ v ++ "'\\n\");\n")
          ++ (indentStr ++ "        pclose(gnuplotPipe);\n")
          ++ (indentStr ++ "\x7d\n")
          ++ (indentStr ++ "\x7d\n")
          ++ (indentStr ++ "remove(\"gnuplot_data.tmp\");\n")),
        errfile := st.errfile } ∧
    (∀ args : Node,
      generateStatementCode indentStr (.mk next lineno (.funcCall "histogram" args)) k st =
        { globalSymTab := st.globalSymTab,
          outfile := st.outfile ++ (spaces (4 * k)
            ++ "/* Histogram generation not fully implemented yet. */\n"),
          errfile := st.errfile }) ∧
    (∀ elements : List Node,
      generateExpressionCode (.mk next lineno (.vec elements)) st =
        { globalSymTab := st.globalSymTab,
          outfile := st.outfile ++ "/* Vector Literal Not Yet Implemented */",
          errfile := st.errfile }) ∧
    (∀ args : Node,
      generateExpressionCode (.mk next lineno (.funcCall "load_vector" args)) st =
        { globalSymTab := st.globalSymTab,
          outfile := st.outfile
            ++ "/* load_vector used in expression - requires return value handling */",
          errfile := st.errfile }) ∧
    (∀ (name : String) (value : Node), symtab_lookup st.globalSymTab name = none →
      generateStatementCode indentStr (.mk next lineno (.assignOp name value)) k st =
        { globalSymTab := st.globalSymTab,
          outfile := st.outfile ++ spaces (4 * k),
          errfile := st.errfile ++ ("Codegen Error line " ++ fmtD lineno
            ++ ": Assignment to undeclared identifier '" ++ name ++ "' (Internal Error?)\n") }) ∧
    (∀ (name : String) (c : ℚ) (vnext : Node) (vline : Int) (e : Symbol),
      symtab_lookup st.globalSymTab name = some e →
      generateStatementCode indentStr
          (.mk next lineno (.assignOp name (.mk vnext vline (.funcCall "load_vector"
            (.mk (.mk .null lb (.num c)) la (.id v)))))) k st =
        { globalSymTab :=
            Option.map (fun t => t.setType name DataType.TYPE_VECTOR) st.globalSymTab,
          outfile := st.outfile ++ (spaces (4 * k)
            ++ ("size_t " ++ name ++ "_rows = count_file_rows(\"" ++ v ++ "\");\n")
            ++ (indentStr ++ name ++ " = create_vector(" ++ name ++ "_rows);\n")
            ++ (indentStr ++ "if (" ++ name ++ "_rows > 0) \x7b\n")
            ++ (indentStr ++ "    read_double_column(\"" ++ v ++ "\", " ++ fmtD (castInt c)
              ++ ", " ++ name ++ ".data, " ++ name ++ ".size);\n")
            ++ (indentStr ++ "\x7d\n")),
          errfile := st.errfile }) := by
  refine ⟨?_, ?_, ?_, ?_, ?_, ?_, ?_, ?_, ?_, ?_, ?_⟩
  · intro l s hocc hn
    have hm := stmtIds_marks indentStr st.globalSymTab l s hn astRoot 1 hocc
      { globalSymTab := st.globalSymTab,
        outfile := st.outfile ++ (String.join (prologueLines undef)
          ++ ("    // Variable Declarations\n"
            ++ String.join ((entries st.globalSymTab).map declLine)
            ++ "\n    // Code Body\n")),
        errfile := st.errfile } (sameNames_refl _)
    obtain ⟨p, q, p', q', h1, h2⟩ := hm
    refine ⟨String.join (prologueLines undef)
        ++ ("    // Variable Declarations\n"
          ++ String.join ((entries st.globalSymTab).map declLine)
          ++ "\n    // Code Body\n") ++ p, q ++ "\n    return 0;\n" ++ "\x7d\n", p', q', ?_, ?_⟩
    · rw [generateCode_eq]
      simp only [GenState.out]
      rw [h1]
      simp only [String.append_assoc]
    · rw [generateCode_eq]
      simp only [GenState.out]
      rw [h2]
  · simp only [generateStatementCode, stmtNode, emitIndent_eq, GenState.out, String.append_assoc]
    unfold stmtFuncCall
    simp [GenState.out, String.append_assoc]
  · simp only [generateStatementCode, stmtNode, emitIndent_eq, GenState.out, String.append_assoc]
    unfold stmtFuncCall
    simp [GenState.out, String.append_assoc]
  · simp only [generateStatementCode, stmtNode, emitIndent_eq, GenState.out, String.append_assoc]
    unfold stmtFuncCall
    simp [GenState.out, String.append_assoc]
  · simp only [generateStatementCode, stmtNode, emitIndent_eq, GenState.out, String.append_assoc]
    unfold stmtFuncCall
    simp [GenState.out, String.append_assoc]
  · simp only [generateStatementCode, stmtNode, emitIndent_eq, GenState.out, String.append_assoc]
    unfold stmtFuncCall
    simp [GenState.out, String.append_assoc]
  · intro args
    simp only [generateStatementCode, stmtNode, emitIndent_eq, GenState.out, String.append_assoc]
    unfold stmtFuncCall
    simp [GenState.out, String.append_assoc]
  · intro elements
    simp only [generateExpressionCode, exprNode, GenState.out]
  · intro args
    simp only [generateExpressionCode, exprNode, if_true, GenState.out]
  · intro name value hnone
    simp only [generateStatementCode, stmtNode, stmtAssign, emitIndent_eq, GenState.out,
      GenState.err, hnone]
  · intro name c vnext vline e he
    simp only [generateStatementCode, stmtNode, stmtAssign, emitIndent_eq, GenState.out, he,
      if_true, assignLoadVector, String.append_assoc]

/-- C17, amended, at a concrete program: `x = (u + 1)` on line 4 with `x` in the
registry and `u` not. Also: the `u` of `x = print_vector(u)` is among the
identifiers reached, and no identifier of `x = [u]` is. -/
theorem undeclared_identifiers_marked_witness :
    ((4 : Int), "u") ∈ stmtIds (some ⟨[⟨"x", DataType.TYPE_SCALAR, 1⟩], 1⟩)
        (.mk .null 4 (.assignOp "x" (.mk .null 4 (.binOp OpType.OP_PLUS
          (.mk .null 4 (.id "u")) (.mk .null 4 (.num 1)))))) ∧
      symtab_lookup (some ⟨[⟨"x", DataType.TYPE_SCALAR, 1⟩], 1⟩) "u" = none ∧
      (∃ p q p' q' : String,
        (generateCode "" ""
            (.mk .null 4 (.assignOp "x" (.mk .null 4 (.binOp OpType.OP_PLUS
              (.mk .null 4 (.id "u")) (.mk .null 4 (.num 1))))))
            ⟨some ⟨[⟨"x", DataType.TYPE_SCALAR, 1⟩], 1⟩, "", ""⟩).outfile
          = "" ++ (p ++ (undeclaredMarker "u" ++ q)) ∧
        (generateCode "" ""
            (.mk .null 4 (.assignOp "x" (.mk .null 4 (.binOp OpType.OP_PLUS
              (.mk .null 4 (.id "u")) (.mk .null 4 (.num 1))))))
            ⟨some ⟨[⟨"x", DataType.TYPE_SCALAR, 1⟩], 1⟩, "", ""⟩).errfile
          = "" ++ (p' ++ (undeclaredDiag 4 "u" ++ q'))) ∧
      ((4 : Int), "u") ∈ stmtIds (some ⟨[⟨"x", DataType.TYPE_SCALAR, 1⟩], 1⟩)
        (.mk .null 4 (.assignOp "x" (.mk .null 4 (.funcCall "print_vector"
          (.mk .null 4 (.id "u")))))) ∧
      stmtIds (some ⟨[⟨"x", DataType.TYPE_SCALAR, 1⟩], 1⟩)
        (.mk .null 4 (.assignOp "x" (.mk .null 4 (.vec [.mk .null 4 (.id "u")])))) = [] :=
  ⟨by decide, by decide,
   (undeclared_identifiers_marked "" ""
     (.mk .null 4 (.assignOp "x" (.mk .null 4 (.binOp OpType.OP_PLUS
       (.mk .null 4 (.id "u")) (.mk .null 4 (.num 1))))))
     .null 1 1 1 1 "v" "w" ⟨some ⟨[⟨"x", DataType.TYPE_SCALAR, 1⟩], 1⟩, "", ""⟩).1
     4 "u" (by decide) (by decide),
   by decide, by decide⟩

/-- C12. The emitted expression text determines the expression tree. For any
two expressions built from binary nodes with the operators `+`, `-`, `*`, `/`,
unary-minus nodes and identifier leaves whose names are in the registry and
consist only of letters, digits and underscores, if `generateExpressionCode`
emits the same text for both, then their trees are equal: the same shape, the
same operators and the same leaves. (The tree of an expression is the
expression without the line numbers and `next` links of its nodes, which the
text does not show.) -/
theorem text_determines_tree (g : Option SymTab) (a b : Node) (ta tb : Arith)
    (ha : toArith a = some ta) (hb : toArith b = some tb)
    (hoa : ta.ok g = true) (hob : tb.ok g = true)
    (h : exprText g a = exprText g b) : ta = tb := by
  have h1 := exprText_render g a ta ha hoa
  have h2 := exprText_render g b tb hb hob
  have h3 : ta.render ++ [] = tb.render ++ [] := by
    rw [List.append_nil, List.append_nil, ← h1, ← h2, h]
  exact (render_inj g ta tb hoa hob [] [] delim_nil delim_nil h3).1

/-- C12 at two concrete expressions: `a - (b - c)` on line 1 and the same
expression spread over the lines 7 to 9; both are emitted as `(a - (b - c))`,
and both have the tree `a - (b - c)`. -/
theorem text_determines_tree_witness :
    toArith (.mk .null 1 (.binOp OpType.OP_MINUS (.mk .null 1 (.id "a"))
        (.mk .null 1 (.binOp OpType.OP_MINUS (.mk .null 1 (.id "b")) (.mk .null 1 (.id "c"))))))
      = some (.bin OpType.OP_MINUS (.var "a") (.bin OpType.OP_MINUS (.var "b") (.var "c"))) ∧
    exprText (some ⟨[⟨"c", DataType.TYPE_SCALAR, 3⟩, ⟨"b", DataType.TYPE_SCALAR, 2⟩,
        ⟨"a", DataType.TYPE_SCALAR, 1⟩], 3⟩)
      (.mk .null 1 (.binOp OpType.OP_MINUS (.mk .null 1 (.id "a"))
        (.mk .null 1 (.binOp OpType.OP_MINUS (.mk .null 1 (.id "b")) (.mk .null 1 (.id "c"))))))
      = "(a - (b - c))" ∧
    exprText (some ⟨[⟨"c", DataType.TYPE_SCALAR, 3⟩, ⟨"b", DataType.TYPE_SCALAR, 2⟩,
        ⟨"a", DataType.TYPE_SCALAR, 1⟩], 3⟩)
      (.mk .null 7 (.binOp OpType.OP_MINUS (.mk .null 7 (.id "a"))
        (.mk .null 8 (.binOp OpType.OP_MINUS (.mk .null 8 (.id "b")) (.mk .null 9 (.id "c"))))))
      = "(a - (b - c))" ∧
    (Arith.bin OpType.OP_MINUS (.var "a") (.bin OpType.OP_MINUS (.var "b") (.var "c")))
      = (Arith.bin OpType.OP_MINUS (.var "a") (.bin OpType.OP_MINUS (.var "b") (.var "c"))) :=
  ⟨by rfl, by rfl, by rfl,
   text_determines_tree
     (some ⟨[⟨"c", DataType.TYPE_SCALAR, 3⟩, ⟨"b", DataType.TYPE_SCALAR, 2⟩,
       ⟨"a", DataType.TYPE_SCALAR, 1⟩], 3⟩)
     (.mk .null 1 (.binOp OpType.OP_MINUS (.mk .null 1 (.id "a"))
       (.mk .null 1 (.binOp OpType.OP_MINUS (.mk .null 1 (.id "b")) (.mk .null 1 (.id "c"))))))
     (.mk .null 7 (.binOp OpType.OP_MINUS (.mk .null 7 (.id "a"))
       (.mk .null 8 (.binOp OpType.OP_MINUS (.mk .null 8 (.id "b")) (.mk .null 9 (.id "c"))))))
     (.bin OpType.OP_MINUS (.var "a") (.bin OpType.OP_MINUS (.var "b") (.var "c")))
     (.bin OpType.OP_MINUS (.var "a") (.bin OpType.OP_MINUS (.var "b") (.var "c")))
     (by rfl) (by rfl) (by decide) (by decide) (by rfl)⟩

/-- C21 fails as stated: with `c` in the registry and `z` not, the statement
`while (c) { z = 1 }` at indent level 1 emits for the body statement its eight
spaces of indentation and nothing else (the diagnostic goes to `stderr`), so
the closing brace follows on the same line, after twelve spaces, and is not
aligned with the `while`. -/
theorem while_alignment_counterexample :
    symtab_lookup (some ⟨[⟨"c", DataType.TYPE_SCALAR, 1⟩], 1⟩) "z" = none ∧
      generateStatementCode ""
          (.mk .null 1 (.whileStmt (.mk .null 1 (.id "c"))
            (.mk .null 2 (.assignOp "z" (.mk .null 2 (.num 1)))))) 1
          ⟨some ⟨[⟨"c", DataType.TYPE_SCALAR, 1⟩], 1⟩, "", ""⟩ =
        { globalSymTab := some ⟨[⟨"c", DataType.TYPE_SCALAR, 1⟩], 1⟩,
          outfile := "    while (c) \x7b\n            \x7d\n",
          errfile :=
            "Codegen Error line 2: Assignment to undeclared identifier 'z' (Internal Error?)\n" } :=
  ⟨by decide, by rfl⟩

/-- C21, amended. For a while node with condition `c` and body `s1..sn`,
`generateStatementCode` at indent level `k` appends to the output `4k` spaces,
`while (`, the expression text of `c`, `) {` and a newline; then the texts of
`s1..sn` in order, each as `generateStatementCode` emits it at indent level
`k + 1`; then `4k` spaces, `}` and a newline. What is written to `stderr` is
what the condition and the body statements report, in that order.
The text of each body statement is `4(k+1)` spaces, printed by the indentation
loop, followed by the text of the switch for that statement. For an assignment
to a name that is not in the registry and for a `load_vector` call used as a
statement that text is empty: the statement emits its indentation only,
without a newline. For every other statement it ends with a newline, and it
does not start with a space when the name it can start with (assignment
target, identifier, call name) starts with a letter, a digit or an underscore.
So when none of the body statements before some position is one of the two
kinds that emit only their indentation, the text emitted up to that position
ends with a newline: the next body statement starts a line with its `4(k+1)`
spaces, and, at the end of the body, the closing brace stands on a line of its
own after exactly `4k` spaces, aligned with the `while`. -/
theorem while_statement_emits (indentStr : String) (condition body next : Node) (lineno : Int)
    (k : Nat) (st : GenState) :
    (generateStatementCode indentStr (.mk next lineno (.whileStmt condition body)) k st).outfile =
        st.outfile ++ (spaces (4 * k) ++ "while (" ++ exprText st.globalSymTab condition
          ++ ") \x7b\n"
          ++ String.join ((chainNodes body).map (fun s =>
              (generateStatementCode indentStr s (k + 1) ⟨st.globalSymTab, "", ""⟩).outfile))
          ++ spaces (4 * k) ++ "\x7d\n") ∧
      (generateStatementCode indentStr (.mk next lineno (.whileStmt condition body)) k st).errfile =
        st.errfile ++ (exprDiag st.globalSymTab condition
          ++ String.join ((chainNodes body).map (fun s =>
              (generateStatementCode indentStr s (k + 1) ⟨st.globalSymTab, "", ""⟩).errfile))) ∧
      (∀ s ∈ chainNodes body, ∃ (nx : Node) (l : Int) (d : NodeData), s = .mk nx l d ∧
        (generateStatementCode indentStr s (k + 1) ⟨st.globalSymTab, "", ""⟩).outfile =
          spaces (4 * (k + 1))
            ++ (stmtNode indentStr l d (k + 1) ⟨st.globalSymTab, "", ""⟩).outfile ∧
        (HeadNamed d →
          NoLeadingSpace (stmtNode indentStr l d (k + 1) ⟨st.globalSymTab, "", ""⟩).outfile) ∧
        (emitsLine st.globalSymTab d = true →
          EndsNewline (stmtNode indentStr l d (k + 1) ⟨st.globalSymTab, "", ""⟩).outfile) ∧
        (emitsLine st.globalSymTab d = false →
          (stmtNode indentStr l d (k + 1) ⟨st.globalSymTab, "", ""⟩).outfile = "")) ∧
      (∀ pre post : List Node, chainNodes body = pre ++ post →
        (∀ (nx : Node) (l : Int) (d : NodeData), Node.mk nx l d ∈ pre →
          emitsLine st.globalSymTab d = true) →
        EndsNewline (spaces (4 * k) ++ "while (" ++ exprText st.globalSymTab condition
          ++ ") \x7b\n"
          ++ String.join (pre.map (fun s =>
              (generateStatementCode indentStr s (k + 1) ⟨st.globalSymTab, "", ""⟩).outfile)))) := by
  have h0 : generateStatementCode indentStr (.mk next lineno (.whileStmt condition body)) k st =
      (emitIndent k (stmtList indentStr body (k + 1)
        ((generateExpressionCode condition ((emitIndent k st).out "while (")).out
          ") \x7b\n"))).out "\x7d\n" := by
    simp only [generateStatementCode, stmtNode]
  refine ⟨?_, ?_, ?_, ?_⟩
  · rw [h0, generateExpressionCode_eq]
    simp only [emitIndent_eq, GenState.out]
    simp only [(stmtList_block indentStr (k + 1) body st.globalSymTab _ _).1,
      String.append_assoc]
  · rw [h0, generateExpressionCode_eq]
    simp only [emitIndent_eq, GenState.out]
    simp only [(stmtList_block indentStr (k + 1) body st.globalSymTab _ _).2.1,
      String.append_assoc]
  · intro s hs
    obtain ⟨nx, l, d, rfl⟩ := chainNodes_mk body s hs
    exact ⟨nx, l, d, rfl, generateStatementCode_indent indentStr nx l d (k + 1) st.globalSymTab,
      stmtNode_noLead indentStr st.globalSymTab l (k + 1) d,
      stmtNode_endsNewline indentStr st.globalSymTab l (k + 1) d,
      stmtNode_silent indentStr st.globalSymTab l (k + 1) d⟩
  · intro pre post hsplit hpre
    apply endsNewline_join
    · intro x hx
      obtain ⟨s, hs, rfl⟩ := List.mem_map.mp hx
      have hmem : s ∈ chainNodes body := by
        rw [hsplit]
        exact List.mem_append_left _ hs
      obtain ⟨nx, l, d, rfl⟩ := chainNodes_mk body s hmem
      simp only [generateStatementCode_indent]
      exact endsNewline_append _ _
        (stmtNode_endsNewline indentStr st.globalSymTab l (k + 1) d (hpre nx l d hs))
    · exact endsNewline_append _ _ rfl

/-- C21, amended, at Scenario C: `while (c) { x = 1; x = 2 }` at indent level 1
with `c` and `x` in the registry. Both body statements emit a line, so the text
before the closing brace and its four spaces ends with a newline. -/
theorem while_statement_emits_witness :
    (generateStatementCode ""
        (.mk .null 1 (.whileStmt (.mk .null 1 (.id "c"))
          (.mk (.mk .null 3 (.assignOp "x" (.mk .null 3 (.num 2)))) 2
            (.assignOp "x" (.mk .null 2 (.num 1)))))) 1
        ⟨some ⟨[⟨"x", DataType.TYPE_SCALAR, 1⟩, ⟨"c", DataType.TYPE_SCALAR, 1⟩], 2⟩, "", ""⟩).outfile
      = "" ++ ("    " ++ "while (" ++ "c" ++ ") \x7b\n"
          ++ String.join ["        x = 1.000000;\n", "        x = 2.000000;\n"]
          ++ "    " ++ "\x7d\n") ∧
    EndsNewline ("    " ++ "while (" ++ "c" ++ ") \x7b\n"
      ++ String.join ["        x = 1.000000;\n", "        x = 2.000000;\n"]) :=
  ⟨(while_statement_emits "" (.mk .null 1 (.id "c"))
    (.mk (.mk .null 3 (.assignOp "x" (.mk .null 3 (.num 2)))) 2
      (.assignOp "x" (.mk .null 2 (.num 1)))) .null 1 1
    ⟨some ⟨[⟨"x", DataType.TYPE_SCALAR, 1⟩, ⟨"c", DataType.TYPE_SCALAR, 1⟩], 2⟩, "", ""⟩).1,
   (while_statement_emits "" (.mk .null 1 (.id "c"))
    (.mk (.mk .null 3 (.assignOp "x" (.mk .null 3 (.num 2)))) 2
      (.assignOp "x" (.mk .null 2 (.num 1)))) .null 1 1
    ⟨some ⟨[⟨"x", DataType.TYPE_SCALAR, 1⟩, ⟨"c", DataType.TYPE_SCALAR, 1⟩], 2⟩, "", ""⟩).2.2.2
    [.mk (.mk .null 3 (.assignOp "x" (.mk .null 3 (.num 2)))) 2
        (.assignOp "x" (.mk .null 2 (.num 1))),
      .mk .null 3 (.assignOp "x" (.mk .null 3 (.num 2)))] [] rfl
    (by
      intro nx l d hmem
      simp only [List.mem_cons, List.mem_singleton, List.not_mem_nil, or_false] at hmem
      rcases hmem with hmem | hmem <;> cases hmem <;> rfl)⟩

/-- C22. For an if node at indent level `k`, `generateStatementCode` appends to
the output `4k` spaces, `if (`, the condition text, `) {` and a newline; then
the texts of the then-block statements in order, each as
`generateStatementCode` emits it at indent level `k + 1`; then `4k` spaces and
`}`. When the else-block is absent a newline follows and nothing more; when it
is present, ` else {` and a newline follow, then the texts of the else-block
statements in order at indent level `k + 1`, then `4k` spaces, `}` and a
newline. -/
theorem if_statement_emits (indentStr : String) (condition then_branch else_branch next : Node)
    (lineno : Int) (k : Nat) (st : GenState) :
    (generateStatementCode indentStr
        (.mk next lineno (.ifStmt condition then_branch else_branch)) k st).outfile =
      st.outfile ++ (spaces (4 * k) ++ "if (" ++ exprText st.globalSymTab condition
        ++ ") \x7b\n"
        ++ String.join ((chainNodes then_branch).map (fun s =>
            (generateStatementCode indentStr s (k + 1) ⟨st.globalSymTab, "", ""⟩).outfile))
        ++ spaces (4 * k) ++ "\x7d"
        ++ (if else_branch.isNull then "\n"
            else " else \x7b\n"
              ++ String.join ((chainNodes else_branch).map (fun s =>
                  (generateStatementCode indentStr s (k + 1) ⟨st.globalSymTab, "", ""⟩).outfile))
              ++ spaces (4 * k) ++ "\x7d\n")) := by
  have h0 : generateStatementCode indentStr
      (.mk next lineno (.ifStmt condition then_branch else_branch)) k st =
      (if else_branch.isNull then
        ((emitIndent k (stmtList indentStr then_branch (k + 1)
          ((generateExpressionCode condition ((emitIndent k st).out "if (")).out
            ") \x7b\n"))).out "\x7d").out "\n"
      else
        (emitIndent k (stmtList indentStr else_branch (k + 1)
          (((emitIndent k (stmtList indentStr then_branch (k + 1)
            ((generateExpressionCode condition ((emitIndent k st).out "if (")).out
              ") \x7b\n"))).out "\x7d").out " else \x7b\n"))).out "\x7d\n") := by
    simp only [generateStatementCode, stmtNode]
  rw [h0, generateExpressionCode_eq]
  simp only [emitIndent_eq, GenState.out]
  obtain ⟨t1, -, t3⟩ := stmtList_block indentStr (k + 1) then_branch st.globalSymTab
    (st.outfile ++ spaces (4 * k) ++ "if (" ++ exprText st.globalSymTab condition ++ ") \x7b\n")
    (st.errfile ++ exprDiag st.globalSymTab condition)
  cases else_branch with
  | null =>
    simp only [Node.isNull, if_true]
    rw [t1]
    simp only [String.append_assoc]
  | mk enx el ed =>
    have t4 := (stmtList_text indentStr (k + 1) st.globalSymTab (.mk enx el ed)
      { globalSymTab := (stmtList indentStr then_branch (k + 1)
          ⟨st.globalSymTab,
            st.outfile ++ spaces (4 * k) ++ "if (" ++ exprText st.globalSymTab condition
              ++ ") \x7b\n",
            st.errfile ++ exprDiag st.globalSymTab condition⟩).globalSymTab,
        outfile := (stmtList indentStr then_branch (k + 1)
          ⟨st.globalSymTab,
            st.outfile ++ spaces (4 * k) ++ "if (" ++ exprText st.globalSymTab condition
              ++ ") \x7b\n",
            st.errfile ++ exprDiag st.globalSymTab condition⟩).outfile
            ++ spaces (4 * k) ++ "\x7d" ++ " else \x7b\n",
        errfile := (stmtList indentStr then_branch (k + 1)
          ⟨st.globalSymTab,
            st.outfile ++ spaces (4 * k) ++ "if (" ++ exprText st.globalSymTab condition
              ++ ") \x7b\n",
            st.errfile ++ exprDiag st.globalSymTab condition⟩).errfile } t3).1
    simp only [Node.isNull, Bool.false_eq_true, if_false, reduceCtorEq]
    rw [t4, t1]
    simp only [String.append_assoc]

/-- C22 at a concrete statement: `if (c) { x = 1 } else { x = 2 }` at indent
level 1 with `c` and `x` in the registry. -/
theorem if_statement_emits_witness :
    (generateStatementCode ""
        (.mk .null 1 (.ifStmt (.mk .null 1 (.id "c"))
          (.mk .null 2 (.assignOp "x" (.mk .null 2 (.num 1))))
          (.mk .null 3 (.assignOp "x" (.mk .null 3 (.num 2)))))) 1
        ⟨some ⟨[⟨"x", DataType.TYPE_SCALAR, 1⟩, ⟨"c", DataType.TYPE_SCALAR, 1⟩], 2⟩, "", ""⟩).outfile
      = "" ++ ("    " ++ "if (" ++ "c" ++ ") \x7b\n"
          ++ String.join ["        x = 1.000000;\n"]
          ++ "    " ++ "\x7d"
          ++ (" else \x7b\n" ++ String.join ["        x = 2.000000;\n"] ++ "    " ++ "\x7d\n")) :=
  if_statement_emits "" (.mk .null 1 (.id "c"))
    (.mk .null 2 (.assignOp "x" (.mk .null 2 (.num 1))))
    (.mk .null 3 (.assignOp "x" (.mk .null 3 (.num 2)))) .null 1 1
    ⟨some ⟨[⟨"x", DataType.TYPE_SCALAR, 1⟩, ⟨"c", DataType.TYPE_SCALAR, 1⟩], 2⟩, "", ""⟩

/-- C23. For a call `plot_xy(x, y)` whose argument list is exactly the two
identifiers `x` and `y`, `generateStatementCode` at indent level `k` appends to
the output the indentation and then, in this order: the guarded write of both
vectors to the file `gnuplot_data.tmp`, the opening of the plot pipe and its
guard, one plot command with the title `y vs x`, `pclose(gnuplotPipe);`, the
closing brace of the inner and then of the outer conditional, and last
`remove("gnuplot_data.tmp");` after both braces. Each line after the first
starts with the text of `indentStr`. The registry and `stderr` are unchanged. -/
theorem plot_xy_emits (indentStr x y : String) (next : Node) (lineno lx ly : Int) (k : Nat)
    (st : GenState) :
    generateStatementCode indentStr
        (.mk next lineno (.funcCall "plot_xy" (.mk (.mk .null ly (.id y)) lx (.id x)))) k st =
      { globalSymTab := st.globalSymTab,
        outfile := st.outfile ++ (spaces (4 * k)
          ++ ("if (write_xy_to_file(" ++ x ++ ", " ++ y ++ ", \"gnuplot_data.tmp\")) \x7b\n")
          ++ (indentStr ++ "    FILE *gnuplotPipe = open_gnuplot();\n")
          ++ (indentStr ++ "    if (gnuplotPipe) \x7b\n")
          ++ (indentStr
            ++ "        fprintf(gnuplotPipe, \"plot 'gnuplot_data.tmp' using 1:2 with linespoints title '"
            ++ y ++ " vs " ++ x ++ "'\\n\");\n")
          ++ (indentStr ++ "        pclose(gnuplotPipe);\n")
          ++ (indentStr ++ "\x7d\n")
          ++ (indentStr ++ "\x7d\n")
          ++ (indentStr ++ "remove(\"gnuplot_data.tmp\");\n")),
        errfile := st.errfile } := by
  simp only [generateStatementCode, stmtNode, stmtFuncCall, emitIndent_eq, GenState.out,
    String.reduceEq, if_false, if_true, String.append_assoc]

set_option maxRecDepth 20000 in
/-- C23 at Scenario D: `plot_xy(x, y)` at indent level 1 with an empty
`indentStr`. -/
theorem plot_xy_emits_witness :
    generateStatementCode ""
        (.mk .null 1 (.funcCall "plot_xy" (.mk (.mk .null 1 (.id "y")) 1 (.id "x")))) 1
        ⟨some ⟨[⟨"y", DataType.TYPE_VECTOR, 1⟩, ⟨"x", DataType.TYPE_VECTOR, 1⟩], 2⟩, "", ""⟩ =
      { globalSymTab := some ⟨[⟨"y", DataType.TYPE_VECTOR, 1⟩, ⟨"x", DataType.TYPE_VECTOR, 1⟩], 2⟩,
        outfile := "" ++ ("    "
          ++ ("if (write_xy_to_file(" ++ "x" ++ ", " ++ "y" ++ ", \"gnuplot_data.tmp\")) \x7b\n")
          ++ ("" ++ "    FILE *gnuplotPipe = open_gnuplot();\n")
          ++ ("" ++ "    if (gnuplotPipe) \x7b\n")
          ++ (""
            ++ "        fprintf(gnuplotPipe, \"plot 'gnuplot_data.tmp' using 1:2 with linespoints title '"
            ++ "y" ++ " vs " ++ "x" ++ "'\\n\");\n")
          ++ ("" ++ "        pclose(gnuplotPipe);\n")
          ++ ("" ++ "\x7d\n")
          ++ ("" ++ "\x7d\n")
          ++ ("" ++ "remove(\"gnuplot_data.tmp\");\n")),
        errfile := "" } ∧
    (generateStatementCode ""
        (.mk .null 1 (.funcCall "plot_xy" (.mk (.mk .null 1 (.id "y")) 1 (.id "x")))) 1
        ⟨some ⟨[⟨"y", DataType.TYPE_VECTOR, 1⟩, ⟨"x", DataType.TYPE_VECTOR, 1⟩], 2⟩, "", ""⟩).outfile
      = "    if (write_xy_to_file(x, y, \"gnuplot_data.tmp\")) \x7b\n    FILE *gnuplotPipe = open_gnuplot();\n    if (gnuplotPipe) \x7b\n        fprintf(gnuplotPipe, \"plot 'gnuplot_data.tmp' using 1:2 with linespoints title 'y vs x'\\n\");\n        pclose(gnuplotPipe);\n\x7d\n\x7d\nremove(\"gnuplot_data.tmp\");\n" :=
  ⟨plot_xy_emits "" "x" "y" .null 1 1 1 1
    ⟨some ⟨[⟨"y", DataType.TYPE_VECTOR, 1⟩, ⟨"x", DataType.TYPE_VECTOR, 1⟩], 2⟩, "", ""⟩,
   by rfl⟩

/-- C24. Called as a statement with exactly one identifier argument `v`,
`print_vector` emits `print_vector_runtime(v, "v");`, `average` emits
`printf("Average of v: %f\n", average_runtime(v));` and `max_val` emits
`printf("Max value of v: %f\n", max_val_runtime(v));`, each after the
indentation and followed by a newline. Called with no argument, with more than
one argument, or with one argument that is not an identifier, each of the three
emits the indentation and the comment `/* Codegen Error: Invalid arguments for
<name> */` and nothing else. The registry and `stderr` are unchanged. -/
theorem single_vector_builtins (indentStr v : String) (args next : Node) (lineno lv : Int)
    (k : Nat) (st : GenState)
    (hbad : args = .null ∨
      (∃ (n2 : Node) (l2 : Int) (d2 : NodeData) (l1 : Int) (d1 : NodeData),
        args = .mk (.mk n2 l2 d2) l1 d1) ∨
      (∃ (l1 : Int) (d1 : NodeData), args = .mk .null l1 d1 ∧ d1.type ≠ NodeType.NODE_ID)) :
    generateStatementCode indentStr
        (.mk next lineno (.funcCall "print_vector" (.mk .null lv (.id v)))) k st =
      { globalSymTab := st.globalSymTab,
        outfile := st.outfile ++ (spaces (4 * k)
          ++ ("print_vector_runtime(" ++ v ++ ", \"" ++ v ++ "\");\n")),
        errfile := st.errfile } ∧
    generateStatementCode indentStr
        (.mk next lineno (.funcCall "average" (.mk .null lv (.id v)))) k st =
      { globalSymTab := st.globalSymTab,
        outfile := st.outfile ++ (spaces (4 * k)
          ++ ("printf(\"Average of " ++ v ++ ": %f\\n\", average_runtime(" ++ v ++ "));\n")),
        errfile := st.errfile } ∧
    generateStatementCode indentStr
        (.mk next lineno (.funcCall "max_val" (.mk .null lv (.id v)))) k st =
      { globalSymTab := st.globalSymTab,
        outfile := st.outfile ++ (spaces (4 * k)
          ++ ("printf(\"Max value of " ++ v ++ ": %f\\n\", max_val_runtime(" ++ v ++ "));\n")),
        errfile := st.errfile } ∧
    (∀ name ∈ ["print_vector", "average", "max_val"],
      generateStatementCode indentStr (.mk next lineno (.funcCall name args)) k st =
        { globalSymTab := st.globalSymTab,
          outfile := st.outfile ++ (spaces (4 * k)
            ++ ("/* Codegen Error: Invalid arguments for " ++ name ++ " */\n")),
          errfile := st.errfile }) := by
  have hshape := not_single_id args hbad
  have hb := fun s => stmtFuncCall_bad_single indentStr args hshape s
  refine ⟨?_, ?_, ?_, ?_⟩
  · simp only [generateStatementCode, stmtNode, stmtFuncCall, emitIndent_eq, GenState.out,
      if_true, String.append_assoc]
  · simp only [generateStatementCode, stmtNode, stmtFuncCall, emitIndent_eq, GenState.out,
      String.reduceEq, if_false, if_true, String.append_assoc]
    rfl
  · simp only [generateStatementCode, stmtNode, stmtFuncCall, emitIndent_eq, GenState.out,
      String.reduceEq, if_false, if_true, String.append_assoc]
    rfl
  · intro name hn
    simp only [List.mem_cons, List.mem_singleton, List.not_mem_nil, or_false] at hn
    rcases hn with rfl | rfl | rfl
    · simp only [generateStatementCode, stmtNode, (hb _).1, GenState.out, emitIndent_eq,
        String.append_assoc]
      rfl
    · simp only [generateStatementCode, stmtNode, (hb _).2.1, GenState.out, emitIndent_eq,
        String.append_assoc]
      rfl
    · simp only [generateStatementCode, stmtNode, (hb _).2.2.1, GenState.out, emitIndent_eq,
        String.append_assoc]
      rfl

/-- C24 at `print_vector(v)`, `average(v)`, `max_val(v)` and at calls without
an argument, at indent level 1. -/
theorem single_vector_builtins_witness :
    generateStatementCode "" (.mk .null 1 (.funcCall "print_vector" (.mk .null 1 (.id "v")))) 1
        ⟨none, "", ""⟩ =
      { globalSymTab := none,
        outfile := "" ++ ("    " ++ ("print_vector_runtime(" ++ "v" ++ ", \"" ++ "v" ++ "\");\n")),
        errfile := "" } ∧
    generateStatementCode "" (.mk .null 1 (.funcCall "average" (.mk .null 1 (.id "v")))) 1
        ⟨none, "", ""⟩ =
      { globalSymTab := none,
        outfile := "" ++ ("    "
          ++ ("printf(\"Average of " ++ "v" ++ ": %f\\n\", average_runtime(" ++ "v" ++ "));\n")),
        errfile := "" } ∧
    generateStatementCode "" (.mk .null 1 (.funcCall "max_val" (.mk .null 1 (.id "v")))) 1
        ⟨none, "", ""⟩ =
      { globalSymTab := none,
        outfile := "" ++ ("    "
          ++ ("printf(\"Max value of " ++ "v" ++ ": %f\\n\", max_val_runtime(" ++ "v" ++ "));\n")),
        errfile := "" } ∧
    (∀ name ∈ ["print_vector", "average", "max_val"],
      generateStatementCode "" (.mk .null 1 (.funcCall name .null)) 1 ⟨none, "", ""⟩ =
        { globalSymTab := none,
          outfile := "" ++ ("    "
            ++ ("/* Codegen Error: Invalid arguments for " ++ name ++ " */\n")),
          errfile := "" }) :=
  single_vector_builtins "" "v" .null .null 1 1 1 ⟨none, "", ""⟩ (Or.inl rfl)

/-- C25. For a function-call statement whose name is none of `print_vector`,
`average`, `max_val`, `plot_xy`, `save_plot`, `histogram` and `load_vector`,
with the arguments `a1..an`, `n ≥ 0`, `generateStatementCode` at indent level
`k` appends to the output the indentation, the name, `(`, the expression texts
of `a1..an` in argument order with `, ` between consecutive ones and nowhere
else, then `);` and a newline; the registry is unchanged and `stderr` receives
what the arguments report. The same call in expression position emits the
name, `(`, the same argument texts and `)`. -/
theorem generic_call_emits (indentStr name : String) (args next : Node) (lineno : Int) (k : Nat)
    (st : GenState) (h : name ∉ builtinNames) :
    generateStatementCode indentStr (.mk next lineno (.funcCall name args)) k st =
      { globalSymTab := st.globalSymTab,
        outfile := st.outfile ++ (spaces (4 * k) ++ name ++ "("
          ++ String.join (List.intersperse ", "
              ((chainNodes args).map (exprText st.globalSymTab)))
          ++ ");\n"),
        errfile := st.errfile ++ (exprArgs args true ⟨st.globalSymTab, "", ""⟩).errfile } ∧
    exprText st.globalSymTab (.mk next lineno (.funcCall name args)) =
      name ++ "("
        ++ String.join (List.intersperse ", " ((chainNodes args).map (exprText st.globalSymTab)))
        ++ ")" := by
  have hl : name ≠ "load_vector" := by
    intro he
    apply h
    rw [he]
    decide
  constructor
  · simp only [generateStatementCode, stmtNode, stmtFuncCall_generic indentStr name args h]
    rw [exprArgs_eq]
    simp only [emitIndent_eq, GenState.out, exprArgs_text, String.append_assoc]
  · rw [exprText_mk]
    simp only [exprNode, hl, if_false]
    rw [exprArgs_eq]
    simp only [GenState.out, exprArgs_text, String.empty_append, String.append_assoc]

/-- C25 at the calls `f()` and `f(a, 1)` with `a` in the registry. -/
theorem generic_call_emits_witness :
    "f" ∉ builtinNames ∧
    (generateStatementCode "" (.mk .null 1 (.funcCall "f" .null)) 1
        ⟨some ⟨[⟨"a", DataType.TYPE_SCALAR, 1⟩], 1⟩, "", ""⟩).outfile = "    f();\n" ∧
    (generateStatementCode ""
        (.mk .null 1 (.funcCall "f" (.mk (.mk .null 1 (.num 1)) 1 (.id "a")))) 1
        ⟨some ⟨[⟨"a", DataType.TYPE_SCALAR, 1⟩], 1⟩, "", ""⟩ =
      { globalSymTab := some ⟨[⟨"a", DataType.TYPE_SCALAR, 1⟩], 1⟩,
        outfile := "" ++ ("    " ++ "f" ++ "(" ++ String.join ["a", ", ", "1.000000"] ++ ");\n"),
        errfile := "" } ∧
      exprText (some ⟨[⟨"a", DataType.TYPE_SCALAR, 1⟩], 1⟩)
          (.mk .null 1 (.funcCall "f" (.mk (.mk .null 1 (.num 1)) 1 (.id "a")))) =
        "f" ++ "(" ++ String.join ["a", ", ", "1.000000"] ++ ")") :=
  ⟨by decide, by rfl,
   generic_call_emits "" "f" (.mk (.mk .null 1 (.num 1)) 1 (.id "a")) .null 1 1
     ⟨some ⟨[⟨"a", DataType.TYPE_SCALAR, 1⟩], 1⟩, "", ""⟩ (by decide)⟩

/-- C26. For every list of element nodes `e1..en`, none of them NULL, the node
built by `newNodeVec(e1)` followed by `appendToVec` for `e2..en` in that order
is a vector literal whose element sequence is exactly `e1, ..., en` and whose
count is `n`, and nothing is written to `stderr`. Each `appendToVec` of an
element that is not NULL to a vector literal leaves the elements it holds at
their positions and puts the new element in the last position. -/
theorem vector_literal_order (lineno : Int) (e : Node) (es : List Node) (errfile : String)
    (h : ∀ x ∈ e :: es, x ≠ Node.null) :
    appendAll (newNodeVec lineno e errfile) es =
        (.mk .null lineno (.vec (e :: es)), errfile) ∧
      vecCount (appendAll (newNodeVec lineno e errfile) es).1 = (e :: es).length ∧
      (∀ (vnext : Node) (vline : Int) (elements : List Node) (x : Node), x ≠ Node.null →
        appendToVec (.mk vnext vline (.vec elements)) x errfile =
            (.mk vnext vline (.vec (elements ++ [x])), errfile) ∧
          vecCount (appendToVec (.mk vnext vline (.vec elements)) x errfile).1 =
            elements.length + 1 ∧
          (∀ i : Nat, i < elements.length → (elements ++ [x])[i]? = elements[i]?) ∧
          (elements ++ [x])[elements.length]? = some x) := by
  have he : e ≠ Node.null := h e (List.mem_cons_self _ _)
  have hr : ∀ x ∈ es, x ≠ Node.null := fun x hx => h x (List.mem_cons_of_mem _ hx)
  have h1 : newNodeVec lineno e errfile = (.mk .null lineno (.vec [e]), errfile) := by
    cases e with
    | null => exact absurd rfl he
    | mk enext elineno edata => simp [newNodeVec, appendToVec]
  have h2 : appendAll (newNodeVec lineno e errfile) es =
      (.mk .null lineno (.vec (e :: es)), errfile) := by
    rw [h1, appendAll_vec .null lineno errfile es [e] hr]
    simp
  refine ⟨h2, ?_, ?_⟩
  · rw [h2]
    simp [vecCount]
  · intro vnext vline elements x hx
    refine ⟨appendToVec_vec vnext vline elements x errfile hx, ?_, ?_, ?_⟩
    · rw [appendToVec_vec vnext vline elements x errfile hx]
      simp [vecCount]
    · intro i hi
      exact List.getElem?_append_left hi
    · simp

/-- C26 at the literal `[1, a, 2]` on line 4. -/
theorem vector_literal_order_witness :
    (∀ x ∈ [Node.mk .null 4 (.num 1), Node.mk .null 4 (.id "a"), Node.mk .null 4 (.num 2)],
      x ≠ Node.null) ∧
    appendAll (newNodeVec 4 (.mk .null 4 (.num 1)) "")
        [.mk .null 4 (.id "a"), .mk .null 4 (.num 2)] =
      (.mk .null 4 (.vec [.mk .null 4 (.num 1), .mk .null 4 (.id "a"), .mk .null 4 (.num 2)]),
        "") ∧
    vecCount (appendAll (newNodeVec 4 (.mk .null 4 (.num 1)) "")
        [.mk .null 4 (.id "a"), .mk .null 4 (.num 2)]).1 = 3 :=
  ⟨(by
    intro x hx
    simp only [List.mem_cons, List.mem_singleton, List.not_mem_nil, or_false] at hx
    rcases hx with rfl | rfl | rfl <;> exact fun hne => (by cases hne)),
   (vector_literal_order 4 (.mk .null 4 (.num 1)) [.mk .null 4 (.id "a"), .mk .null 4 (.num 2)]
     "" (by
    intro x hx
    simp only [List.mem_cons, List.mem_singleton, List.not_mem_nil, or_false] at hx
    rcases hx with rfl | rfl | rfl <;> exact fun hne => (by cases hne))).1,
   by rfl⟩

/-- C28. For every node pointer that is NULL or points to a node that is not a
vector literal, with any element, and for every node with an element that is
NULL, `appendToVec` returns the node it was given as it is (same kind, same
fields, same count and elements) and returns: it writes the line `Internal
error: Invalid appendToVec call` to `stderr` and does nothing else. -/
theorem appendToVec_misuse (vecNode element : Node) (errfile : String)
    (h : (∀ (next : Node) (lineno : Int) (elements : List Node),
        vecNode ≠ .mk next lineno (.vec elements)) ∨ element = Node.null) :
    appendToVec vecNode element errfile =
      (vecNode, errfile ++ "Internal error: Invalid appendToVec call\n") := by
  unfold appendToVec
  split
  · rename_i next lineno elements enext elineno edata
    rcases h with h | h
    · exact absurd rfl (h next lineno elements)
    · cases h
  · rfl

/-- C28 at an identifier node given an element, and at a vector literal given a
NULL element. -/
theorem appendToVec_misuse_witness :
    ((∀ (next : Node) (lineno : Int) (elements : List Node),
        Node.mk .null 2 (.id "a") ≠ .mk next lineno (.vec elements)) ∨
      Node.mk .null 2 (.num 1) = Node.null) ∧
    appendToVec (.mk .null 2 (.id "a")) (.mk .null 2 (.num 1)) "" =
      (.mk .null 2 (.id "a"), "" ++ "Internal error: Invalid appendToVec call\n") ∧
    appendToVec (.mk .null 2 (.vec [.mk .null 2 (.num 1)])) .null "" =
      (.mk .null 2 (.vec [.mk .null 2 (.num 1)]), "Internal error: Invalid appendToVec call\n") :=
  ⟨Or.inl (fun _ _ _ hne => (by cases hne)),
   appendToVec_misuse (.mk .null 2 (.id "a")) (.mk .null 2 (.num 1)) ""
     (Or.inl (fun _ _ _ hne => (by cases hne))),
   by rfl⟩

/-- C27 fails as stated: with `globalSymTab` NULL, `generateCode` on the program
`print_vector(v)` returns, having written a complete program: the boilerplate,
an empty declaration block, the statement, and the `return 0;` of `main`. -/
theorem uninitialized_registry_counterexample :
    generateCode "" ""
        (.mk .null 1 (.funcCall "print_vector" (.mk .null 1 (.id "v")))) ⟨none, "", ""⟩ =
      { globalSymTab := none,
        outfile := String.join (prologueLines "")
          ++ "    // Variable Declarations\n\n    // Code Body\n"
          ++ "    print_vector_runtime(v, \"v\");\n"
          ++ "\n    return 0;\n\x7d\n",
        errfile := "" } := by
  rw [generateCode_eq]
  have h4 : spaces (4 * 1) = "    " := by decide
  simp only [entries, List.map_nil, strJoin_nil, stmtList, stmtNode, stmtFuncCall,
    emitIndent_eq, GenState.out, h4, if_true, String.append_assoc, String.empty_append,
    String.append_empty]
  rfl

/-- C27, amended. `symtab_insert` called while `globalSymTab` is NULL exits.
`generateCode` run while `globalSymTab` is NULL does not: `symtab_lookup` finds
no name, and `generateCode` writes the boilerplate, the heading of the
declaration block with no declaration under it, the text of every statement as
`generateStatementCode` emits it when no name is in the registry, and the
closing `return 0;`, and leaves `globalSymTab` NULL. -/
theorem uninitialized_registry (indentStr undef name : String) (type : DataType) (lineno : Int)
    (astRoot : Node) (out err : String) :
    symtab_insert none name type lineno = none ∧
      symtab_lookup none name = none ∧
      (generateCode indentStr undef astRoot ⟨none, out, err⟩).globalSymTab = none ∧
      (generateCode indentStr undef astRoot ⟨none, out, err⟩).outfile =
        out ++ (String.join (prologueLines undef)
          ++ ("    // Variable Declarations\n" ++ "\n    // Code Body\n"))
          ++ String.join ((chainNodes astRoot).map
              (fun s => (generateStatementCode indentStr s 1 ⟨none, "", ""⟩).outfile))
          ++ "\n    return 0;\n" ++ "\x7d\n" ∧
      (generateCode indentStr undef astRoot ⟨none, out, err⟩).errfile =
        err ++ String.join ((chainNodes astRoot).map
          (fun s => (generateStatementCode indentStr s 1 ⟨none, "", ""⟩).errfile)) := by
  have hk := generateCode_keeps indentStr undef astRoot ⟨none, out, err⟩
  have hn : (generateCode indentStr undef astRoot ⟨none, out, err⟩).globalSymTab = none := by
    cases hg : (generateCode indentStr undef astRoot ⟨none, out, err⟩).globalSymTab with
    | none => rfl
    | some t =>
      rw [hg] at hk
      simp [TabUpgraded] at hk
  have key := stmtList_block indentStr 1 astRoot none
    (out ++ (String.join (prologueLines undef)
      ++ ("    // Variable Declarations\n" ++ String.join ((entries none).map declLine)
        ++ "\n    // Code Body\n"))) err
  refine ⟨rfl, rfl, hn, ?_, ?_⟩
  · rw [generateCode_eq]
    simp only [GenState.out, key.1]
    simp [entries, strJoin_nil]
  · rw [generateCode_eq]
    simp only [GenState.out, key.2.1]

/-- C27, amended, at the call `symtab_insert("x", TYPE_SCALAR, 1)` and the
program `x` (an expression statement), with `globalSymTab` NULL: the insert
exits, and the generator reports `x` as undeclared and goes on. -/
theorem uninitialized_registry_witness :
    symtab_insert none "x" DataType.TYPE_SCALAR 1 = none ∧
      symtab_lookup none "x" = none ∧
      (generateCode "" "" (.mk .null 1 (.id "x")) ⟨none, "", ""⟩).globalSymTab = none ∧
      (generateCode "" "" (.mk .null 1 (.id "x")) ⟨none, "", ""⟩).outfile =
        "" ++ (String.join (prologueLines "")
          ++ ("    // Variable Declarations\n" ++ "\n    // Code Body\n"))
          ++ String.join ["    /* Error: Undeclared ID x */;\n"]
          ++ "\n    return 0;\n" ++ "\x7d\n" ∧
      (generateCode "" "" (.mk .null 1 (.id "x")) ⟨none, "", ""⟩).errfile =
        "" ++ String.join ["Codegen Error line 1: Use of undeclared identifier 'x'\n"] :=
  uninitialized_registry "" "" "x" DataType.TYPE_SCALAR 1 (.mk .null 1 (.id "x")) "" ""

/-- C29. For every program and registry, after `generateCode` the registry is
still uninitialized if it was, and otherwise has the same count and, entry by
entry in list order, the same names and the same declaration lines; and the
type of an entry is the type it had before, unless the program contains, at
any nesting depth, an assignment to the entry's name whose value is a call
`load_vector(<identifier>, <number literal>)`, in which case the type is the one
it had before or Vector. -/
theorem registry_effect_of_generation (indentStr undef : String) (astRoot : Node)
    (st : GenState) :
    ((generateCode indentStr undef astRoot st).globalSymTab.isSome = st.globalSymTab.isSome) ∧
      countOf (generateCode indentStr undef astRoot st).globalSymTab = countOf st.globalSymTab ∧
      List.Forall₂
        (fun e e' : Symbol => e'.name = e.name ∧ e'.declared_lineno = e.declared_lineno ∧
          (e'.type = e.type ∨
            (e.name ∈ loadTargets validLoadArgs astRoot ∧ e'.type = DataType.TYPE_VECTOR)))
        (entries st.globalSymTab) (entries (generateCode indentStr undef astRoot st).globalSymTab) := by
  have h : TabUpgradedIn (loadTargets validLoadArgs astRoot) st.globalSymTab
      (generateCode indentStr undef astRoot st).globalSymTab := by
    rw [generateCode_eq]
    exact stmtList_keepsIn (loadTargets validLoadArgs astRoot) indentStr astRoot 1
      (fun _ hx => hx)
      { globalSymTab := st.globalSymTab,
        outfile := st.outfile ++ (String.join (prologueLines undef)
          ++ ("    // Variable Declarations\n"
            ++ String.join ((entries st.globalSymTab).map declLine)
            ++ "\n    // Code Body\n")),
        errfile := st.errfile }
  cases hg : st.globalSymTab with
  | none =>
    cases hg' : (generateCode indentStr undef astRoot st).globalSymTab with
    | none => exact ⟨rfl, rfl, List.Forall₂.nil⟩
    | some t' => rw [hg, hg'] at h; simp [TabUpgradedIn] at h
  | some t =>
    cases hg' : (generateCode indentStr undef astRoot st).globalSymTab with
    | none => rw [hg, hg'] at h; simp [TabUpgradedIn] at h
    | some t' =>
      rw [hg, hg'] at h
      exact ⟨rfl, h.1, h.2⟩

/-- C29 at a concrete program: with `y`, `x` and `c` registered as scalars, the
program `x = 5; while (c) { y = load_vector(data, 2) }` leaves `x` and `c` as
they are and sets the type of `y` to Vector. -/
theorem registry_effect_of_generation_witness :
    (generateCode "" ""
        (.mk (.mk .null 2 (.whileStmt (.mk .null 2 (.id "c")) progLoadY)) 1
          (.assignOp "x" (.mk .null 1 (.num 5))))
        ⟨some ⟨[⟨"y", DataType.TYPE_SCALAR, 3⟩, ⟨"c", DataType.TYPE_SCALAR, 2⟩,
          ⟨"x", DataType.TYPE_SCALAR, 1⟩], 3⟩, "", ""⟩).globalSymTab =
      some ⟨[⟨"y", DataType.TYPE_VECTOR, 3⟩, ⟨"c", DataType.TYPE_SCALAR, 2⟩,
        ⟨"x", DataType.TYPE_SCALAR, 1⟩], 3⟩ ∧
    loadTargets validLoadArgs
        (.mk (.mk .null 2 (.whileStmt (.mk .null 2 (.id "c")) progLoadY)) 1
          (.assignOp "x" (.mk .null 1 (.num 5)))) = ["y"] ∧
    countOf (generateCode "" ""
        (.mk (.mk .null 2 (.whileStmt (.mk .null 2 (.id "c")) progLoadY)) 1
          (.assignOp "x" (.mk .null 1 (.num 5))))
        ⟨some ⟨[⟨"y", DataType.TYPE_SCALAR, 3⟩, ⟨"c", DataType.TYPE_SCALAR, 2⟩,
          ⟨"x", DataType.TYPE_SCALAR, 1⟩], 3⟩, "", ""⟩).globalSymTab = 3 :=
  ⟨by
    rw [generateCode_eq]
    rfl,
   by decide,
   (registry_effect_of_generation "" ""
     (.mk (.mk .null 2 (.whileStmt (.mk .null 2 (.id "c")) progLoadY)) 1
       (.assignOp "x" (.mk .null 1 (.num 5))))
     ⟨some ⟨[⟨"y", DataType.TYPE_SCALAR, 3⟩, ⟨"c", DataType.TYPE_SCALAR, 2⟩,
       ⟨"x", DataType.TYPE_SCALAR, 1⟩], 3⟩, "", ""⟩).2.1⟩

/-- C30. For every statement, every indent level and any two registries that
hold the same set of names, whatever the types and lines recorded for them,
`generateStatementCode` started on the one and on the other appends the same
text to the output and the same text to `stderr`; so does
`generateExpressionCode` for every expression. -/
theorem emission_ignores_types (indentStr : String) (s : Node) (k : Nat)
    (g g' : Option SymTab) (o e : String)
    (h : ∀ n : String, n ∈ (entries g).map Symbol.name ↔ n ∈ (entries g').map Symbol.name) :
    (generateStatementCode indentStr s k ⟨g, o, e⟩).outfile =
        (generateStatementCode indentStr s k ⟨g', o, e⟩).outfile ∧
      (generateStatementCode indentStr s k ⟨g, o, e⟩).errfile =
        (generateStatementCode indentStr s k ⟨g', o, e⟩).errfile ∧
      (generateExpressionCode s ⟨g, o, e⟩).outfile =
        (generateExpressionCode s ⟨g', o, e⟩).outfile ∧
      (generateExpressionCode s ⟨g, o, e⟩).errfile =
        (generateExpressionCode s ⟨g', o, e⟩).errfile := by
  have hs : SameNames g g' := sameNames_of_names g g' h
  obtain ⟨_, o1, e1, a1, a2, a3, a4⟩ :=
    generateStatementCode_uniform indentStr s k ⟨g, o, e⟩ ⟨g', o, e⟩ hs
  obtain ⟨_, o2, e2, b1, b2, b3, b4⟩ :=
    generateExpressionCode_uniform s ⟨g, o, e⟩ ⟨g', o, e⟩ hs
  exact ⟨a1.trans a2.symm, a3.trans a4.symm, b1.trans b2.symm, b3.trans b4.symm⟩

/-- C30 at `plot_xy(x, y)` with `x` and `y` registered as vectors in the one
registry and as an undefined and a scalar name, on other lines and in the other
order, in the other. -/
theorem emission_ignores_types_witness :
    (∀ n : String,
      n ∈ (entries (some ⟨[⟨"y", DataType.TYPE_VECTOR, 2⟩, ⟨"x", DataType.TYPE_VECTOR, 1⟩],
          2⟩)).map Symbol.name ↔
        n ∈ (entries (some ⟨[⟨"x", DataType.TYPE_UNDEFINED, 7⟩, ⟨"y", DataType.TYPE_SCALAR, 9⟩],
          2⟩)).map Symbol.name) ∧
    (generateStatementCode ""
        (.mk .null 1 (.funcCall "plot_xy" (.mk (.mk .null 1 (.id "y")) 1 (.id "x")))) 1
        ⟨some ⟨[⟨"y", DataType.TYPE_VECTOR, 2⟩, ⟨"x", DataType.TYPE_VECTOR, 1⟩], 2⟩,
          "", ""⟩).outfile =
      (generateStatementCode ""
        (.mk .null 1 (.funcCall "plot_xy" (.mk (.mk .null 1 (.id "y")) 1 (.id "x")))) 1
        ⟨some ⟨[⟨"x", DataType.TYPE_UNDEFINED, 7⟩, ⟨"y", DataType.TYPE_SCALAR, 9⟩], 2⟩,
          "", ""⟩).outfile :=
  ⟨by
    intro n
    simp only [entries, List.map_cons, List.map_nil, List.mem_cons, List.not_mem_nil, or_false]
    exact Or.comm,
   (emission_ignores_types ""
     (.mk .null 1 (.funcCall "plot_xy" (.mk (.mk .null 1 (.id "y")) 1 (.id "x")))) 1
     (some ⟨[⟨"y", DataType.TYPE_VECTOR, 2⟩, ⟨"x", DataType.TYPE_VECTOR, 1⟩], 2⟩)
     (some ⟨[⟨"x", DataType.TYPE_UNDEFINED, 7⟩, ⟨"y", DataType.TYPE_SCALAR, 9⟩], 2⟩) "" ""
     (by
      intro n
      simp only [entries, List.map_cons, List.map_nil, List.mem_cons, List.not_mem_nil, or_false]
      exact Or.comm)).1⟩

end WizuAll
